import Mathlib

/-!
# Price monitoring bot: promotion evaluator and price extraction

A shallow embedding of `internal/monitor/monitor.go`, `internal/database/database.go`,
`internal/models/product.go`, `internal/scraper/*.go`, `GetAuthorizedChatID` of
`internal/bot/bot.go`, and the command loop of `SetupCommands` and the first part of
`handleAddProduct` in `internal/bot/handlers.go`.

Numeric model: Go `float64` values are represented by exact rationals (`ℚ`); the rounding
of the binary format and the values `NaN` and `Inf` are not represented, and of its range only
the range error of `strconv.ParseFloat` in the scraper is represented.  Strings are
Unicode character sequences.  A parsed page is represented by the elements its selectors
select, and the HTTP client by a function from the URL requested to the response.
-/

namespace PriceBot

/-! ## models/product.go -/

/-- Product record (`models.Product`).  `LastChecked` is `none` for the zero time. -/
structure Product where
  ID : Int
  URL : String
  Name : String
  CurrentPrice : ℚ
  OriginalPrice : ℚ
  Discount : ℚ
  TargetPrice : ℚ
  TargetDiscount : ℚ
  LastChecked : Option Nat
  Active : Bool
  CreatedAt : Nat
deriving DecidableEq

/-! ## Errors and formatted text -/

/-- Error values returned by the modelled functions (`nil` is `none` of `Option GoError`). -/
inductive GoError where
  | request
  | transport
  | status (code : Nat)
  | document
  | priceNotFound
  | parsePrice (text : String)
  | exec
  | noRows
deriving DecidableEq

/-- One piece of a text built with `fmt.Sprintf`: literal text of the format string, a `%s`
argument, or a float argument printed with `%.Nf` (`fixed N x`). -/
inductive Piece where
  | text (s : String)
  | str (s : String)
  | fixed (digits : Nat) (x : ℚ)
deriving DecidableEq

/-- A message is the concatenation of its pieces; the empty string is `[]`. -/
abbrev Message := List Piece

/-! ## database/database.go -/

/-- The `products` table.  Rows are kept in the form in which `GetActiveProducts` and
`GetProductByID` read them (a NULL `original_price`, `discount` or `last_checked` reads as the
zero value).  `now` is `CURRENT_TIMESTAMP`; `execFails id` tells whether an `UPDATE` of row `id`
returns an error; `queryFails` tells whether the `SELECT` of the active rows returns an error. -/
structure DB where
  rows : List Product
  now : Nat
  execFails : Int → Bool
  queryFails : Bool := false

/-- `DB.GetActiveProducts`: `SELECT ... WHERE active = 1`, in table order. -/
def DB.GetActiveProducts (db : DB) : List Product × Option GoError :=
  if db.queryFails then ([], some GoError.exec)
  else (db.rows.filter (fun p => p.Active), none)

/-- `DB.GetProductByID`: `SELECT ... WHERE id = ?`, an error when there is no such row. -/
def DB.GetProductByID (db : DB) (id : Int) : Option Product × Option GoError :=
  match db.rows.find? (fun p => p.ID = id) with
  | some p => (some p, none)
  | none => (none, some GoError.noRows)

/-- `DB.UpdateProductPrice`:
`UPDATE products SET current_price = ?, last_checked = CURRENT_TIMESTAMP WHERE id = ?`. -/
def DB.UpdateProductPrice (db : DB) (id : Int) (price : ℚ) : DB × Option GoError :=
  if db.execFails id then (db, some GoError.exec)
  else
    ({ db with rows := db.rows.map (fun p =>
        if p.ID = id then { p with CurrentPrice := price, LastChecked := some db.now } else p) },
     none)

/-- `DB.UpdateProductPricesWithDiscount`:
`UPDATE products SET current_price = ?, original_price = ?, discount = ?,
last_checked = CURRENT_TIMESTAMP WHERE id = ?`. -/
def DB.UpdateProductPricesWithDiscount (db : DB) (id : Int)
    (currentPrice originalPrice discount : ℚ) : DB × Option GoError :=
  if db.execFails id then (db, some GoError.exec)
  else
    ({ db with rows := db.rows.map (fun p =>
        if p.ID = id then
          { p with CurrentPrice := currentPrice, OriginalPrice := originalPrice,
                   Discount := discount, LastChecked := some db.now }
        else p) },
     none)

/-! ## scraper/scraper.go -/

/-- The `Scraper` interface.  Each method returns the Go pair `(value, error)`. -/
structure Scraper where
  GetPrice : String → ℚ × Option GoError
  GetOriginalPrice : String → ℚ × Option GoError
  GetDiscount : String → ℚ × Option GoError
  GetName : String → String × Option GoError
  CanHandle : String → Bool

/-- Registry of scrapers, in registration order. -/
structure Registry where
  scrapers : List Scraper

/-- `Registry.FindScraper`: the first scraper whose `CanHandle` accepts the URL, else `nil`. -/
def Registry.FindScraper (r : Registry) (url : String) : Option Scraper :=
  r.scrapers.find? (fun s => s.CanHandle url)

/-! ## strconv.ParseInt -/

/-- Value of a sequence of decimal digits. -/
def digitsVal (ds : List Char) : Nat :=
  ds.foldl (fun acc c => 10 * acc + (c.toNat - 48)) 0

/-- `strconv.ParseInt(s, 10, 64)`: an optional sign followed by one or more decimal digits, with a
value in the `int64` range; `none` is a non-nil error. -/
def parseInt (s : String) : Option Int :=
  let body (neg : Bool) (ds : List Char) : Option Int :=
    if ds ≠ [] ∧ ds.all Char.isDigit then
      let v : Int := if neg then -(digitsVal ds : Int) else (digitsVal ds : Int)
      if -(2 : Int) ^ 63 ≤ v ∧ v < (2 : Int) ^ 63 then some v else none
    else none
  match s.data with
  | '+' :: ds => body false ds
  | '-' :: ds => body true ds
  | ds => body false ds

/-! ## monitor/monitor.go -/

/-- The monitor: its database, its registry, the process environment (`os.Getenv`) and the
messages handed to `bot.Send`, oldest first, each with its chat ID.  Log output and the timer
are not represented. -/
structure Monitor where
  db : DB
  registry : Registry
  getenv : String → String
  sent : List (Int × Message)

/-- The variables `shouldNotify` and `message` of `checkProduct`. -/
structure NotifyState where
  shouldNotify : Bool
  message : Message
deriving DecidableEq

/-- Message built in the target-price branch (monitor.go lines 139-155). -/
def targetPriceMessage (product : Product) (currentPrice : ℚ) : Message :=
  let discount : ℚ :=
    if product.CurrentPrice > 0 then
      ((product.CurrentPrice - currentPrice) / product.CurrentPrice) * 100
    else 0
  [Piece.text "🎉 PROMOÇÃO DETECTADA!\n\nProduto: ", Piece.str product.Name,
   Piece.text "\nPreço atual: R$ ", Piece.fixed 2 currentPrice,
   Piece.text "\nPreço alvo: R$ ", Piece.fixed 2 product.TargetPrice, Piece.text "\n"]
  ++ (if discount > 0 then [Piece.text "Desconto: ", Piece.fixed 1 discount, Piece.text "%\n"]
      else [])
  ++ [Piece.text "\nLink: ", Piece.str product.URL]

/-- Target-price block of `checkProduct` (monitor.go lines 134-157). -/
def targetPriceCheck (product : Product) (currentPrice : ℚ) (st : NotifyState) : NotifyState :=
  if product.TargetPrice > 0 ∧ currentPrice ≤ product.TargetPrice then
    if product.CurrentPrice = 0 ∨ currentPrice < product.CurrentPrice then
      { shouldNotify := true, message := targetPriceMessage product currentPrice }
    else st
  else st

/-- The variable `currentDiscount` of `checkProduct` (monitor.go lines 162-173). -/
def currentDiscount (product : Product) (currentPrice originalPrice discount : ℚ) : ℚ :=
  if discount > 0 then discount
  else if product.CurrentPrice > 0 ∧ currentPrice < product.CurrentPrice then
    ((product.CurrentPrice - currentPrice) / product.CurrentPrice) * 100
  else if originalPrice > 0 ∧ originalPrice > currentPrice then
    ((originalPrice - currentPrice) / originalPrice) * 100
  else 0

/-- Message built in the target-discount branch (monitor.go lines 180-193). -/
def targetDiscountMessage (product : Product) (currentPrice originalPrice curDiscount : ℚ) :
    Message :=
  [Piece.text "🎉 PROMOÇÃO DETECTADA!\n\nProduto: ", Piece.str product.Name,
   Piece.text "\nPreço atual: R$ ", Piece.fixed 2 currentPrice,
   Piece.text "\nDesconto: ", Piece.fixed 1 curDiscount,
   Piece.text "% (meta: ", Piece.fixed 1 product.TargetDiscount, Piece.text "%)\n"]
  ++ (if originalPrice > 0 then
        [Piece.text "Preço original: R$ ", Piece.fixed 2 originalPrice, Piece.text "\n"]
      else [])
  ++ [Piece.text "\nLink: ", Piece.str product.URL]

/-- Target-discount block of `checkProduct` (monitor.go lines 159-196). -/
def targetDiscountCheck (product : Product) (currentPrice originalPrice discount : ℚ)
    (st : NotifyState) : NotifyState :=
  if product.TargetDiscount > 0 then
    let curDiscount := currentDiscount product currentPrice originalPrice discount
    if curDiscount ≥ product.TargetDiscount then
      if product.Discount = 0 ∨ discount ≠ product.Discount then
        { shouldNotify := true,
          message := targetDiscountMessage product currentPrice originalPrice curDiscount }
      else st
    else st
  else st

/-- Final block of `checkProduct` (monitor.go lines 198-212): when `shouldNotify` is set and
`TELEGRAM_CHAT_ID` parses, the message is handed to `bot.Send`. -/
def Monitor.notify (m : Monitor) (st : NotifyState) : Monitor :=
  if st.shouldNotify then
    match parseInt (m.getenv "TELEGRAM_CHAT_ID") with
    | none => m
    | some chatID => { m with sent := m.sent ++ [(chatID, st.message)] }
  else m

/-- Price update of `checkProduct` (monitor.go lines 117-128): the row is written with the
discount columns when a discount or an original price was extracted, else the price alone. -/
def persistPrices (db : DB) (id : Int) (currentPrice originalPrice discount : ℚ) :
    DB × Option GoError :=
  if discount > 0 ∨ originalPrice > 0 then
    db.UpdateProductPricesWithDiscount id currentPrice originalPrice discount
  else
    db.UpdateProductPrice id currentPrice

/-- State of `shouldNotify` and `message` before the checks (monitor.go lines 131-132). -/
def NotifyState.init : NotifyState := { shouldNotify := false, message := [] }

/-- `Monitor.checkProduct` (monitor.go lines 99-213). -/
def Monitor.checkProduct (m : Monitor) (product : Product) : Monitor :=
  match m.registry.FindScraper product.URL with
  | none => m
  | some scraper =>
    match scraper.GetPrice product.URL with
    | (_, some _) => m
    | (currentPrice, none) =>
      let originalPrice := (scraper.GetOriginalPrice product.URL).1
      let discount := (scraper.GetDiscount product.URL).1
      match persistPrices m.db product.ID currentPrice originalPrice discount with
      | (_, some _) => m
      | (db, none) =>
        let st := NotifyState.init
        let st := targetPriceCheck product currentPrice st
        let st := targetDiscountCheck product currentPrice originalPrice discount st
        Monitor.notify { m with db := db } st

/-- `Monitor.checkAllProducts` (monitor.go lines 83-97): the active products are read once and
`checkProduct` runs on each in order; when the read fails nothing is done.  The pause between
products is not represented. -/
def Monitor.checkAllProducts (m : Monitor) : Monitor :=
  match m.db.GetActiveProducts with
  | (_, some _) => m
  | (products, none) => products.foldl (fun m product => m.checkProduct product) m

/-- Errors built by `Monitor.CheckProduct` with `fmt.Errorf` (monitor.go lines 56, 62, 71, 75). -/
inductive CheckError where
  | noScraper (url : String)
  | getPrice (err : GoError)
  | updatePrices (err : GoError)
  | updatePrice (err : GoError)
deriving DecidableEq

/-- `Monitor.CheckProduct` (monitor.go lines 50-81): the monitor afterwards and the Go pair
`(price, error)` returned. -/
def Monitor.CheckProduct (m : Monitor) (product : Product) : Monitor × ℚ × Option CheckError :=
  match m.registry.FindScraper product.URL with
  | none => (m, 0, some (CheckError.noScraper product.URL))
  | some scraper =>
    match scraper.GetPrice product.URL with
    | (_, some err) => (m, 0, some (CheckError.getPrice err))
    | (currentPrice, none) =>
      let originalPrice := (scraper.GetOriginalPrice product.URL).1
      let discount := (scraper.GetDiscount product.URL).1
      if discount > 0 ∨ originalPrice > 0 then
        match m.db.UpdateProductPricesWithDiscount product.ID currentPrice originalPrice
          discount with
        | (_, some err) => (m, currentPrice, some (CheckError.updatePrices err))
        | (db, none) => ({ m with db := db }, currentPrice, none)
      else
        match m.db.UpdateProductPrice product.ID currentPrice with
        | (_, some err) => (m, currentPrice, some (CheckError.updatePrice err))
        | (db, none) => ({ m with db := db }, currentPrice, none)

/-! ## Go library functions used by the scraper -/

/-- `unicode.IsSpace`. -/
def isSpace (c : Char) : Bool :=
  let n := c.toNat
  n == 0x09 || n == 0x0a || n == 0x0b || n == 0x0c || n == 0x0d || n == 0x20 ||
  n == 0x85 || n == 0xa0 || n == 0x1680 || (0x2000 ≤ n && n ≤ 0x200a) ||
  n == 0x2028 || n == 0x2029 || n == 0x202f || n == 0x205f || n == 0x3000

/-- `strings.TrimSpace`: leading and trailing white space removed. -/
def TrimSpace (s : String) : String :=
  ⟨((s.data.dropWhile isSpace).reverse.dropWhile isSpace).reverse⟩

/-- `strings.ReplaceAll(s, old, new)` for a one-character `old`. -/
def ReplaceAll (s : String) (old : Char) (new : String) : String :=
  ⟨s.data.flatMap (fun c => if c = old then new.data else [c])⟩

/-- Character class `[0-9.]`. -/
def isDigitOrDot (c : Char) : Bool := c.isDigit || c == '.'

/-- `regexp.MustCompile("[^0-9.]").ReplaceAllString(s, "")`: every character outside the class
`[0-9.]` is deleted. -/
def removeNonNumeric (s : String) : String :=
  ⟨s.data.filter isDigitOrDot⟩

/-- The least decimal value that `strconv.ParseFloat(s, 64)` rejects with a range error:
`2^1024 - 2^970`, half a unit in the last place above the largest `float64`; a value at or above
it rounds to infinity. -/
def float64Limit : ℚ :=
  ((179769313486231580793728971405303415079934132710037826936173778980444968292764750946649017977587207096330286416692887910946555547851940402630657488671505820681908902000708383676273854845817711531764475730270069855571366959622842914819860834936475292719074168444365510704342711559699508093042880177904174497792 : ℕ) : ℚ)

/-- The range test of `strconv.ParseFloat(s, 64)`: a value at or above `float64Limit` is the
error `value out of range` (`none`); a value below it is returned (as the exact decimal value,
the rounding to the binary format not being represented). -/
def inFloat64Range (v : ℚ) : Option ℚ :=
  if v < float64Limit then some v else none

/-- `strconv.ParseFloat(s, 64)` on the texts that reach it in the scraper, which consist of the
characters `0-9` and `.` only: digits with at most one decimal point and at least one digit are
accepted and denote their decimal value, unless that value is out of the `float64` range, which
is an error; every other such text is a syntax error (`none`).
The forms of `ParseFloat` with a sign, an exponent, a hexadecimal mantissa, underscores, `Inf`
or `NaN` contain a character outside `[0-9.]` and are rejected here. -/
def parseFloat (s : String) : Option ℚ :=
  let ip := s.data.takeWhile Char.isDigit
  match s.data.dropWhile Char.isDigit with
  | [] => if ip = [] then none else inFloat64Range (digitsVal ip : ℚ)
  | c :: fp =>
    if c = '.' ∧ fp.all Char.isDigit ∧ (ip ≠ [] ∨ fp ≠ []) then
      inFloat64Range ((digitsVal ip : ℚ) + (digitsVal fp : ℚ) / (10 : ℚ) ^ fp.length)
    else none

/-- Regular expressions in the forms the scraper uses (Go `regexp` syntax): a character class,
the empty expression, concatenation, alternation (left branch preferred), greedy repetition and
a capturing group.  Capturing groups are not nested in the patterns of the scraper. -/
inductive Re where
  | cls (p : Char → Bool)
  | eps
  | seq (a b : Re)
  | alt (a b : Re)
  | star (a : Re)
  | group (a : Re)

/-- Greedy repetition of the matcher `f`: the ways to match zero or more rounds of `f` at the
start of `s`, longest first; a round must consume input.  `fuel` bounds the number of rounds and
is taken as the length of the text. -/
def Re.starAux (f : List Char → List (List (List Char) × List Char)) :
    Nat → List Char → List (List (List Char) × List Char)
  | 0, s => [([], s)]
  | fuel + 1, s =>
    ((f s).filter (fun x => x.2.length < s.length)).flatMap (fun x =>
      (Re.starAux f fuel x.2).map (fun y => (x.1 ++ y.1, y.2))) ++ [([], s)]

/-- All ways to match `r` at the start of `s`, in the priority order of a backtracking matcher
(which is the leftmost-first order of Go `regexp`): each result is the texts of the groups
completed, in order, and the rest of the input. -/
def Re.matchAt : Re → List Char → List (List (List Char) × List Char)
  | Re.cls p, s =>
    match s with
    | [] => []
    | c :: cs => if p c then [([], cs)] else []
  | Re.eps, s => [([], s)]
  | Re.seq a b, s =>
    (Re.matchAt a s).flatMap (fun x => (Re.matchAt b x.2).map (fun y => (x.1 ++ y.1, y.2)))
  | Re.alt a b, s => Re.matchAt a s ++ Re.matchAt b s
  | Re.star a, s => Re.starAux (Re.matchAt a) s.length s
  | Re.group a, s =>
    (Re.matchAt a s).map (fun x => (x.1 ++ [s.take (s.length - x.2.length)], x.2))

/-- The literal text `t` as a regular expression. -/
def Re.lit (t : String) : Re :=
  t.data.foldr (fun c r => Re.seq (Re.cls (fun d => d == c)) r) Re.eps

/-- `a?` (greedy). -/
def Re.opt (a : Re) : Re := Re.alt a Re.eps

/-- `a+` (greedy). -/
def Re.plus (a : Re) : Re := Re.seq a (Re.star a)

/-- `\s` of Go `regexp`: `[\t\n\f\r ]`. -/
def Re.space : Re :=
  Re.cls (fun c => c.toNat == 0x09 || c.toNat == 0x0a || c.toNat == 0x0c || c.toNat == 0x0d ||
    c.toNat == 0x20)

/-- `Regexp.FindStringSubmatch` restricted to the groups: the group texts of the leftmost match
of `r` in `s`, or `none` when `r` matches nowhere (the Go slice is then `nil`, of length 0;
otherwise its length is 1 plus the number of groups). -/
def Re.findSubmatch (r : Re) : List Char → Option (List (List Char))
  | [] => (Re.matchAt r []).head?.map (fun x => x.1)
  | c :: cs =>
    match (Re.matchAt r (c :: cs)).head? with
    | some x => some x.1
    | none => Re.findSubmatch r cs

/-! ## scraper/mercadolivre.go -/

/-- An element of a parsed page: its text (`Selection.Text`) and its attributes. -/
structure Element where
  text : String
  attrs : List (String × String)
deriving DecidableEq

/-- `Selection.AttrOr(name, def)`. -/
def Element.AttrOr (e : Element) (name : String) (dflt : String) : String :=
  match e.attrs.lookup name with
  | some v => v
  | none => dflt

/-- A parsed page (`goquery.Document`): `find sel` is the list of elements that `doc.Find(sel)`
selects, in document order. -/
structure Document where
  find : String → List Element

/-- Selectors of the promotional price (mercadolivre.go lines 75-80). -/
def promotionalSelectors : List String :=
  [".ui-pdp-price__second-line .andes-money-amount__fraction",
   ".ui-pdp-price__second-line .andes-money-amount",
   ".ui-pdp-price--size-large .andes-money-amount__fraction",
   ".andes-money-amount--cents-superscript + .andes-money-amount__fraction"]

/-- General price selectors (mercadolivre.go lines 101-107). -/
def priceSelectors : List String :=
  ["[data-testid=\x27price\x27] .andes-money-amount__fraction",
   ".ui-pdp-price__first-line .andes-money-amount__fraction",
   ".andes-money-amount__fraction",
   ".price-tag-fraction",
   "[data-testid=\x27price\x27]"]

/-- The cleaning of a price text (mercadolivre.go lines 196-199, also 128-131): every `.` is
removed, every `,` becomes `.`, and every character outside `[0-9.]` is deleted. -/
def cleanPriceText (priceText : String) : String :=
  removeNonNumeric (ReplaceAll (ReplaceAll priceText '.' "") ',' ".")

/-- The effect of `cleanPriceText` on one character (used to state `cleanPriceText_data`). -/
def cleanChar (c : Char) : List Char :=
  if c = '.' then [] else if c = ',' then ['.'] else if c.isDigit then [c] else []

/-- End of `GetPrice` (mercadolivre.go lines 195-206): the text is cleaned and parsed. -/
def parsePriceText (priceText : String) : ℚ × Option GoError :=
  match parseFloat (cleanPriceText priceText) with
  | some price => (price, none)
  | none => (0, some (GoError.parsePrice (cleanPriceText priceText)))

/-- Body of the `Each` callback of the promotional loop (lines 83-90) over the elements selected:
the first non-blank trimmed text is kept. -/
def firstNonBlank (els : List Element) (promotionalPrice : String) : String :=
  els.foldl (fun acc e =>
    if acc = "" then
      let text := TrimSpace e.text
      if text ≠ "" then text else acc
    else acc) promotionalPrice

/-- The promotional loop (lines 82-94): selectors are tried in order until one yields a text. -/
def findPromotional (doc : Document) : List String → String → String
  | [], promotionalPrice => promotionalPrice
  | selector :: rest, promotionalPrice =>
    let found := firstNonBlank (doc.find selector) promotionalPrice
    if found ≠ "" then found else findPromotional doc rest found

/-- The texts collected over the general selectors (lines 109-118). -/
def collectPrices (doc : Document) : List String :=
  priceSelectors.flatMap (fun selector =>
    ((doc.find selector).map (fun e => TrimSpace e.text)).filter (fun text => text ≠ ""))

/-- Choice of the smallest price among several texts (lines 125-138); the state is
`(minPrice, priceText)`. -/
def pickMin (prices : List String) : ℚ × String :=
  prices.foldl (fun st p =>
    match parseFloat (cleanPriceText p) with
    | some val => if st.1 < 0 ∨ val < st.1 then (val, p) else st
    | none => st) ((-1 : ℚ), "")

/-- Stage 2 (lines 120-142). -/
def generalPriceText (doc : Document) : String :=
  let prices := collectPrices doc
  match prices with
  | [] => ""
  | [p] => p
  | _ => (pickMin prices).2

/-- Stage 3 (lines 146-167): the `content` attribute or the text of the first
`[data-testid=price]` element that gives one, then the `content` of the price meta tag. -/
def attributePriceText (doc : Document) : String :=
  let t := (doc.find "[data-testid=\x27price\x27]").foldl (fun priceText e =>
    if priceText = "" then
      let c := e.AttrOr "content" ""
      if c = "" then TrimSpace e.text else c
    else priceText) ""
  if t = "" then
    (doc.find "meta[property=\x27product:price:amount\x27]").foldl (fun priceText e =>
      if priceText = "" then e.AttrOr "content" "" else priceText) ""
  else t

/-- The pattern `"offers"[^}]*"price"\s*:\s*"?([0-9.]+)"?` (line 175). -/
def offersRe : Re :=
  Re.seq (Re.lit "\"offers\"") (Re.seq (Re.star (Re.cls (fun c => c != '}')))
    (Re.seq (Re.lit "\"price\"") (Re.seq (Re.star Re.space) (Re.seq (Re.lit ":")
      (Re.seq (Re.star Re.space) (Re.seq (Re.opt (Re.lit "\""))
        (Re.seq (Re.group (Re.plus (Re.cls isDigitOrDot))) (Re.opt (Re.lit "\"")))))))))

/-- The pattern `"price"\s*:\s*"?([0-9.]+)"?` (line 183). -/
def priceRe : Re :=
  Re.seq (Re.lit "\"price\"") (Re.seq (Re.star Re.space) (Re.seq (Re.lit ":")
    (Re.seq (Re.star Re.space) (Re.seq (Re.opt (Re.lit "\""))
      (Re.seq (Re.group (Re.plus (Re.cls isDigitOrDot))) (Re.opt (Re.lit "\"")))))))

/-- Stage 4 (lines 170-189): every JSON-LD script is visited in document order; a script in which
the offers pattern matches sets the price text to its group, otherwise a script in which the bare
price pattern matches sets it to that group. -/
def jsonLdPriceText (doc : Document) : String :=
  (doc.find "script[type=\x27application/ld+json\x27]").foldl (fun priceText e =>
    match Re.findSubmatch offersRe e.text.data with
    | some (g :: _) => ⟨g⟩
    | _ =>
      match Re.findSubmatch priceRe e.text.data with
      | some (g :: _) => ⟨g⟩
      | _ => priceText) ""

/-- The price text chosen by the cascade (lines 69-189). -/
def priceTextOf (doc : Document) : String :=
  let promotionalPrice := findPromotional doc promotionalSelectors ""
  let priceText := if promotionalPrice ≠ "" then promotionalPrice else generalPriceText doc
  let priceText := if priceText = "" then attributePriceText doc else priceText
  if priceText = "" then jsonLdPriceText doc else priceText

/-- `MercadoLivreScraper.GetPrice` from the parsed page on (lines 69-206). -/
def MercadoLivreScraper.priceFromDocument (doc : Document) : ℚ × Option GoError :=
  let priceText := priceTextOf doc
  if priceText = "" then (0, some GoError.priceNotFound)
  else parsePriceText priceText

/-- Outcome of the HTTP round trip of a scraper method: `http.NewRequest` fails, `client.Do`
fails, or a response arrives with its status code and, when the body parses, its document. -/
inductive Response where
  | requestError
  | transportError
  | received (status : Nat) (doc : Option Document)

/-- `MercadoLivreScraper.cleanURL`: the part of the URL before the first `#`. -/
def MercadoLivreScraper.cleanURL (url : String) : String :=
  ⟨url.data.takeWhile (fun c => c != '#')⟩

/-- `MercadoLivreScraper.GetPrice` (lines 42-207); `web` answers the request for a URL. -/
def MercadoLivreScraper.GetPrice (web : String → Response) (url : String) : ℚ × Option GoError :=
  match web (MercadoLivreScraper.cleanURL url) with
  | Response.requestError => (0, some GoError.request)
  | Response.transportError => (0, some GoError.transport)
  | Response.received status doc =>
    if status ≠ 200 then (0, some (GoError.status status))
    else
      match doc with
      | none => (0, some GoError.document)
      | some d => MercadoLivreScraper.priceFromDocument d

/-- Infix test on character lists: `sub` occurs somewhere in the text. -/
def infixOf (sub : List Char) : List Char → Bool
  | [] => sub.isPrefixOf []
  | c :: cs => sub.isPrefixOf (c :: cs) || infixOf sub cs

/-- `strings.Contains(s, substr)`. -/
def Contains (s substr : String) : Bool := infixOf substr.data s.data

/-- `strings.HasPrefix(s, start)`. -/
def HasPrefix (s start : String) : Bool := start.data.isPrefixOf s.data

/-- `MercadoLivreScraper.CanHandle` (mercadolivre.go lines 35-39). -/
def MercadoLivreScraper.CanHandle (url : String) : Bool :=
  HasPrefix url "https://mercadolivre.com.br/" ||
  HasPrefix url "http://mercadolivre.com.br/" ||
  Contains url "mercadolivre.com.br"

/-- The HTTP round trip and parse at the head of every scraper method (lines 43-67, 211-235,
321-345, 395-419): the document of a 200 response, or the error returned. -/
def MercadoLivreScraper.fetch (web : String → Response) (url : String) :
    Except GoError Document :=
  match web (MercadoLivreScraper.cleanURL url) with
  | Response.requestError => Except.error GoError.request
  | Response.transportError => Except.error GoError.transport
  | Response.received status doc =>
    if status ≠ 200 then Except.error (GoError.status status)
    else
      match doc with
      | none => Except.error GoError.document
      | some d => Except.ok d

/-- Selectors of the original price (mercadolivre.go lines 239-248). -/
def originalPriceSelectors : List String :=
  [".andes-money-amount--previous-price .andes-money-amount__fraction",
   ".andes-money-amount--previous-price",
   ".ui-pdp-price__original .andes-money-amount__fraction",
   ".ui-pdp-price__original",
   ".ui-pdp-price__first-line .andes-money-amount--previous-price .andes-money-amount__fraction",
   ".ui-pdp-price__first-line .andes-money-amount--previous-price",
   ".ui-pdp-price__first-line .andes-money-amount__fraction"]

/-- The test of line 260: the selector text contains `previous` or `original`. -/
def isTagged (selector : String) : Bool :=
  Contains selector "previous" || Contains selector "original"

/-- Body of the `Each` callback of the original-price loop (lines 255-266); the state is
`(originalPriceText, allPrices)`. -/
def originalStep (selector : String) (st : String × List String) (e : Element) :
    String × List String :=
  let text := TrimSpace e.text
  if text ≠ "" then
    (if isTagged selector then (if st.1 = "" then text else st.1) else st.1, st.2 ++ [text])
  else st

/-- The original-price loop (lines 254-267). -/
def collectOriginal (doc : Document) : String × List String :=
  originalPriceSelectors.foldl (fun st selector =>
    (doc.find selector).foldl (originalStep selector) st) ("", [])

/-- Choice of the largest price among several texts (lines 272-284); the state is
`(maxPrice, originalPriceText)`. -/
def pickMax (prices : List String) : ℚ × String :=
  prices.foldl (fun st p =>
    match parseFloat (cleanPriceText p) with
    | some val => if st.1 < 0 ∨ val > st.1 then (val, p) else st
    | none => st) ((-1 : ℚ), "")

/-- The pattern `"(listPrice|highPrice|originalPrice)"\s*:\s*"?([0-9.]+)"?` (line 292). -/
def listPriceRe : Re :=
  Re.seq (Re.lit "\"")
    (Re.seq (Re.group (Re.alt (Re.lit "listPrice")
        (Re.alt (Re.lit "highPrice") (Re.lit "originalPrice"))))
      (Re.seq (Re.lit "\"") (Re.seq (Re.star Re.space) (Re.seq (Re.lit ":")
        (Re.seq (Re.star Re.space) (Re.seq (Re.opt (Re.lit "\""))
          (Re.seq (Re.group (Re.plus (Re.cls isDigitOrDot))) (Re.opt (Re.lit "\"")))))))))

/-- The JSON-LD fallback of `GetOriginalPrice` (lines 288-298): every script in which the
pattern matches sets the text to the second group. -/
def jsonLdOriginalText (doc : Document) : String :=
  (doc.find "script[type=\x27application/ld+json\x27]").foldl (fun originalPriceText e =>
    match Re.findSubmatch listPriceRe e.text.data with
    | some (_ :: g :: _) => ⟨g⟩
    | _ => originalPriceText) ""

/-- The original-price text chosen (lines 250-298). -/
def originalPriceTextOf (doc : Document) : String :=
  let st := collectOriginal doc
  let originalPriceText :=
    if st.1 = "" ∧ st.2.length > 1 then (pickMax st.2).2 else st.1
  if originalPriceText = "" then jsonLdOriginalText doc else originalPriceText

/-- `MercadoLivreScraper.GetOriginalPrice` from the parsed page on (lines 237-316). -/
def MercadoLivreScraper.originalPriceFromDocument (doc : Document) : ℚ × Option GoError :=
  let originalPriceText := originalPriceTextOf doc
  if originalPriceText = "" then (0, none)
  else
    match parseFloat (cleanPriceText originalPriceText) with
    | some originalPrice => (originalPrice, none)
    | none => (0, none)

/-- `MercadoLivreScraper.GetOriginalPrice` (lines 210-317). -/
def MercadoLivreScraper.GetOriginalPrice (web : String → Response) (url : String) :
    ℚ × Option GoError :=
  match MercadoLivreScraper.fetch web url with
  | Except.error err => (0, some err)
  | Except.ok doc => MercadoLivreScraper.originalPriceFromDocument doc

/-- Selectors of the discount (mercadolivre.go lines 350-356). -/
def discountSelectors : List String :=
  [".ui-pdp-price__second-line .andes-money-amount__discount",
   ".andes-money-amount__discount",
   ".ui-pdp-price__discount",
   "[class*=\x27discount\x27]",
   ".ui-pdp-price__discount--with-bg-color"]

/-- Body of the `Each` callback of the discount loop (lines 360-368) over the elements selected:
the first trimmed text that contains `%` is kept. -/
def firstWithPercent (els : List Element) (discountText : String) : String :=
  els.foldl (fun acc e =>
    if acc = "" then
      let text := TrimSpace e.text
      if Contains text "%" then text else acc
    else acc) discountText

/-- The discount loop (lines 359-372): selectors are tried in order until one yields a text. -/
def findDiscountText (doc : Document) : List String → String → String
  | [], discountText => discountText
  | selector :: rest, discountText =>
    let found := firstWithPercent (doc.find selector) discountText
    if found ≠ "" then found else findDiscountText doc rest found

/-- The pattern `(\d+(?:\.\d+)?)\s*%` (line 380). -/
def discountRe : Re :=
  Re.seq (Re.group (Re.seq (Re.plus (Re.cls Char.isDigit))
      (Re.opt (Re.seq (Re.lit ".") (Re.plus (Re.cls Char.isDigit))))))
    (Re.seq (Re.star Re.space) (Re.lit "%"))

/-- End of `GetDiscount` (lines 374-390): the number before the `%` sign of the text. -/
def parseDiscountText (discountText : String) : ℚ × Option GoError :=
  if discountText = "" then (0, none)
  else
    match Re.findSubmatch discountRe discountText.data with
    | some (g :: _) =>
      match parseFloat ⟨g⟩ with
      | some discount => (discount, none)
      | none => (0, none)
    | _ => (0, none)

/-- `MercadoLivreScraper.GetDiscount` from the parsed page on (lines 347-390). -/
def MercadoLivreScraper.discountFromDocument (doc : Document) : ℚ × Option GoError :=
  parseDiscountText (findDiscountText doc discountSelectors "")

/-- `MercadoLivreScraper.GetDiscount` (lines 320-391). -/
def MercadoLivreScraper.GetDiscount (web : String → Response) (url : String) :
    ℚ × Option GoError :=
  match MercadoLivreScraper.fetch web url with
  | Except.error err => (0, some err)
  | Except.ok doc => MercadoLivreScraper.discountFromDocument doc

/-- Selectors of the product name (mercadolivre.go lines 422-427). -/
def nameSelectors : List String :=
  ["h1.ui-pdp-title", "h1[data-testid=\x27title\x27]", ".ui-pdp-title", "h1"]

/-- The name loop (lines 430-439): for each selector in order, the trimmed text of the first
element selected is taken while the name is empty; the loop stops at a non-empty name. -/
def findName (doc : Document) : List String → String → String
  | [], name => name
  | selector :: rest, name =>
    let found := ((doc.find selector).take 1).foldl (fun acc e =>
      if acc = "" then TrimSpace e.text else acc) name
    if found ≠ "" then found else findName doc rest found

/-- The pattern `"name"\s*:\s*"([^"]+)"` (line 445). -/
def nameRe : Re :=
  Re.seq (Re.lit "\"name\"") (Re.seq (Re.star Re.space) (Re.seq (Re.lit ":")
    (Re.seq (Re.star Re.space) (Re.seq (Re.lit "\"")
      (Re.seq (Re.group (Re.plus (Re.cls (fun c => c != '"')))) (Re.lit "\""))))))

/-- The JSON-LD fallback of `GetName` (lines 443-450): every script in which the pattern matches
sets the name to its group. -/
def jsonLdName (doc : Document) (name : String) : String :=
  (doc.find "script[type=\x27application/ld+json\x27]").foldl (fun name e =>
    match Re.findSubmatch nameRe e.text.data with
    | some (g :: _) => ⟨g⟩
    | _ => name) name

/-- `MercadoLivreScraper.GetName` from the parsed page on (lines 421-457). -/
def MercadoLivreScraper.nameFromDocument (doc : Document) : String × Option GoError :=
  let name := findName doc nameSelectors ""
  let name := if name = "" then jsonLdName doc name else name
  let name := if name = "" then "Produto sem nome" else name
  (name, none)

/-- `MercadoLivreScraper.GetName` (lines 394-458). -/
def MercadoLivreScraper.GetName (web : String → Response) (url : String) :
    String × Option GoError :=
  match MercadoLivreScraper.fetch web url with
  | Except.error err => ("", some err)
  | Except.ok doc => MercadoLivreScraper.nameFromDocument doc

/-- `NewMercadoLivreScraper`, as a value of the `Scraper` interface; `web` stands for its HTTP
client. -/
def NewMercadoLivreScraper (web : String → Response) : Scraper :=
  { GetPrice := MercadoLivreScraper.GetPrice web
    GetOriginalPrice := MercadoLivreScraper.GetOriginalPrice web
    GetDiscount := MercadoLivreScraper.GetDiscount web
    GetName := MercadoLivreScraper.GetName web
    CanHandle := MercadoLivreScraper.CanHandle }

/-- `NewRegistry` (scraper.go lines 18-24): the Mercado Livre scraper only. -/
def NewRegistry (web : String → Response) : Registry :=
  { scrapers := [NewMercadoLivreScraper web] }

/-! ## bot/handlers.go -/

/-- `strings.Fields`: the maximal runs of characters that are not white space. -/
def Fields (s : String) : List String :=
  ((s.data.splitOnP isSpace).filter (fun w => w ≠ [])).map String.mk

/-- `strings.HasSuffix(s, ending)`. -/
def HasSuffix (s ending : String) : Bool := ending.data.isSuffixOf s.data

/-- `strings.TrimSuffix(s, ending)`. -/
def TrimSuffix (s ending : String) : String :=
  if HasSuffix s ending then ⟨s.data.take (s.data.length - ending.data.length)⟩ else s

/-- How `handleAddProduct` proceeds up to its call of `db.AddProduct` (handlers.go lines
113-161): one of the four early replies, or the call with its arguments. -/
inductive AddStep where
  | formatError
  | invalidDiscount
  | invalidPrice
  | unsupportedURL
  | addProduct (url name : String) (targetPrice targetDiscount : ℚ)
deriving DecidableEq

/-- Lines 146-161 of `handleAddProduct`: the scraper is looked up, the name is fetched, and
`db.AddProduct` is called; a failing `GetName` gives the name `Produto sem nome`. -/
def addWithName (registry : Registry) (url : String) (targetPrice targetDiscount : ℚ) :
    AddStep :=
  match registry.FindScraper url with
  | none => AddStep.unsupportedURL
  | some scraper =>
    let r := scraper.GetName url
    let name := match r.2 with
      | some _ => "Produto sem nome"
      | none => r.1
    AddStep.addProduct url name targetPrice targetDiscount

/-- `handleAddProduct` (handlers.go lines 113-161) up to the call of `db.AddProduct`;
`ParseFloat` is `strconv.ParseFloat` on the target typed by the user (`none` on error, finite
values only). -/
def handleAddProduct (ParseFloat : String → Option ℚ) (registry : Registry) (text : String) :
    AddStep :=
  match Fields text with
  | _ :: url :: targetStr :: _ =>
    if HasSuffix targetStr "%" then
      match ParseFloat (TrimSuffix targetStr "%") with
      | none => AddStep.invalidDiscount
      | some discount =>
        if discount < 0 ∨ discount > 100 then AddStep.invalidDiscount
        else addWithName registry url 0 discount
    else
      match ParseFloat targetStr with
      | none => AddStep.invalidPrice
      | some price =>
        if price ≤ 0 then AddStep.invalidPrice
        else addWithName registry url price 0
  | _ => AddStep.formatError

/-- The fields of an incoming `tgbotapi.Message` that `SetupCommands` reads: `Chat.ID` and
`Text`. -/
structure IncomingMessage where
  ChatID : Int
  Text : String
deriving DecidableEq

/-- What the loop body of `SetupCommands` does with one update (handlers.go lines 33-78):
`continue` without a reply, the reply `Você não está autorizado a usar este bot.`, the call of
one of the handlers, or the reply `Comando não reconhecido`. -/
inductive Action where
  | ignore
  | notAuthorized (chatID : Int)
  | help (chatID : Int)
  | add (message : IncomingMessage)
  | list (chatID : Int)
  | remove (message : IncomingMessage)
  | check (message : IncomingMessage)
  | unknown (chatID : Int)
deriving DecidableEq

/-- `GetAuthorizedChatID` (bot.go lines 32-44). -/
def GetAuthorizedChatID (getenv : String → String) : Int × Bool :=
  let chatIDStr := getenv "TELEGRAM_CHAT_ID"
  if chatIDStr = "" then (0, false)
  else
    match parseInt chatIDStr with
    | none => (0, false)
    | some chatID => (chatID, true)

/-- The command of a message (handlers.go lines 48-52): the first field in lower case, cut
before its first `@` when that is not its first character.  `ToLower` is `strings.ToLower`. -/
def commandOf (ToLower : String → String) (first : String) : String :=
  let command := ToLower first
  let before := command.data.takeWhile (fun c => c != '@')
  if before.length < command.data.length ∧ 0 < before.length then ⟨before⟩ else command

/-- Body of the loop of `SetupCommands` for one update (handlers.go lines 33-78); an update
without message is `none`. -/
def SetupCommands.handleUpdate (ToLower : String → String) (authorizedChatID : Int)
    (hasAuth : Bool) (update : Option IncomingMessage) : Action :=
  match update with
  | none => Action.ignore
  | some message =>
    if message.Text = "" then Action.ignore
    else
      match Fields message.Text with
      | [] => Action.ignore
      | first :: _ =>
        let command := commandOf ToLower first
        let isPublicCommand : Bool := command = "/start" ∨ command = "/help"
        if isPublicCommand = false ∧ hasAuth = true ∧ message.ChatID ≠ authorizedChatID then
          Action.notAuthorized message.ChatID
        else if command = "/start" ∨ command = "/help" then Action.help message.ChatID
        else if command = "/add" then Action.add message
        else if command = "/list" then Action.list message.ChatID
        else if command = "/remove" then Action.remove message
        else if command = "/check" then Action.check message
        else Action.unknown message.ChatID

/-- `SetupCommands` (handlers.go lines 25-80) on the updates received, in order: the authorized
chat is read once, before the loop. -/
def SetupCommands (ToLower : String → String) (getenv : String → String)
    (updates : List (Option IncomingMessage)) : List Action :=
  let auth := GetAuthorizedChatID getenv
  updates.map (SetupCommands.handleUpdate ToLower auth.1 auth.2)

/-! ## Example data -/

/-- A scraper that accepts every URL and reports fixed values without error. -/
def exampleScraper (price originalPrice discount : ℚ) : Scraper :=
  { GetPrice := fun _ => (price, none)
    GetOriginalPrice := fun _ => (originalPrice, none)
    GetDiscount := fun _ => (discount, none)
    GetName := fun _ => ("TV", none)
    CanHandle := fun _ => true }

/-- A never-observed product with the given targets, as `AddProduct` stores it. -/
def exampleProduct (targetPrice targetDiscount : ℚ) : Product :=
  { ID := 1, URL := "https://mercadolivre.com.br/p/MLB1", Name := "TV",
    CurrentPrice := 0, OriginalPrice := 0, Discount := 0,
    TargetPrice := targetPrice, TargetDiscount := targetDiscount,
    LastChecked := none, Active := true, CreatedAt := 0 }

/-- A monitor holding one product and one scraper, with `TELEGRAM_CHAT_ID=42`. -/
def exampleMonitor (product : Product) (scraper : Scraper) : Monitor :=
  { db := { rows := [product], now := 7, execFails := fun _ => false }
    registry := { scrapers := [scraper] }
    getenv := fun k => if k = "TELEGRAM_CHAT_ID" then "42" else ""
    sent := [] }

/-- A page whose second promotional selector matches a blank element and then `R$ 1.234,56`,
while a general selector, the price meta tag and a JSON-LD block carry other prices. -/
def exampleDocument : Document :=
  { find := fun sel =>
      if sel = ".ui-pdp-price__second-line .andes-money-amount" then
        [{ text := "  ", attrs := [] }, { text := " R$ 1.234,56 ", attrs := [] },
         { text := "999", attrs := [] }]
      else if sel = ".andes-money-amount__fraction" then [{ text := "5", attrs := [] }]
      else if sel = "meta[property=\x27product:price:amount\x27]" then
        [{ text := "", attrs := [("content", "7")] }]
      else if sel = "script[type=\x27application/ld+json\x27]" then
        [{ text := "\x7b\"offers\": \x7b\"price\": \"3\"\x7d\x7d", attrs := [] }]
      else [] }

/-- A page with two JSON-LD blocks and nothing else: the first has a price under `offers`, the
second a bare top-level price. -/
def twoBlockDocument : Document :=
  { find := fun sel =>
      if sel = "script[type=\x27application/ld+json\x27]" then
        [{ text := "\x7b\"offers\": \x7b\"price\": \"10\"\x7d\x7d", attrs := [] },
         { text := "\x7b\"price\": \"99\"\x7d", attrs := [] }]
      else [] }

/-- A page whose promotional price element reads `0`. -/
def zeroPriceDocument : Document :=
  { find := fun sel =>
      if sel = ".ui-pdp-price__second-line .andes-money-amount__fraction" then
        [{ text := "0", attrs := [] }]
      else [] }

/-- A page whose discount element reads `150% OFF`. -/
def bigDiscountDocument : Document :=
  { find := fun sel =>
      if sel = ".andes-money-amount__discount" then [{ text := "150% OFF", attrs := [] }]
      else [] }

/-- A web that answers every request with status 200 and the given page. -/
def exampleWeb (doc : Document) : String → Response :=
  fun _ => Response.received 200 (some doc)

/-! ## Notions used to state the results -/

/-- The non-blank trimmed texts of the elements, in document order. -/
def nonBlankTexts (els : List Element) : List String :=
  (els.map (fun e => TrimSpace e.text)).filter (fun text => text ≠ "")

/-- The candidate texts of a list of selectors, in selector order then document order. -/
def candidateTexts (doc : Document) (sels : List String) : List String :=
  sels.flatMap (fun sel => nonBlankTexts (doc.find sel))

/-- The character class of `Re.space`. -/
def isReSpace (c : Char) : Bool :=
  c.toNat == 0x09 || c.toNat == 0x0a || c.toNat == 0x0c || c.toNat == 0x0d || c.toNat == 0x20

/-- A page on which a general price selector, which is also the untagged original-price
selector, matches `R$ 80`, `R$ 100` and a text without a number. -/
def twoPriceDocument : Document :=
  { find := fun sel =>
      if sel = ".ui-pdp-price__first-line .andes-money-amount__fraction" then
        [{ text := " R$ 80 ", attrs := [] }, { text := "R$ 100", attrs := [] },
         { text := "sem juros", attrs := [] }]
      else [] }

/-- A page on which one general price selector matches one element. -/
def singlePriceDocument : Document :=
  { find := fun sel =>
      if sel = ".price-tag-fraction" then [{ text := " R$ 5 ", attrs := [] }] else [] }

/-- A page with a previous-price element `R$ 120` besides the two untagged prices. -/
def taggedDocument : Document :=
  { find := fun sel =>
      if sel = ".andes-money-amount--previous-price" then [{ text := "R$ 120", attrs := [] }]
      else if sel = ".ui-pdp-price__first-line .andes-money-amount__fraction" then
        [{ text := "R$ 80", attrs := [] }, { text := "R$ 200", attrs := [] }]
      else [] }

/-- A page whose discount element reads `17% OFF`, after an element without a percent sign. -/
def discountDocument : Document :=
  { find := fun sel =>
      if sel = ".andes-money-amount__discount" then
        [{ text := "OFERTA", attrs := [] }, { text := " 17% OFF ", attrs := [] }]
      else [] }

/-- A page whose discount element reads `12.5% OFF`. -/
def decimalDiscountDocument : Document :=
  { find := fun sel =>
      if sel = ".ui-pdp-price__discount" then [{ text := "12.5% OFF", attrs := [] }]
      else [] }

/-- A page whose discount element reads `% OFF`. -/
def bareDiscountDocument : Document :=
  { find := fun sel =>
      if sel = ".ui-pdp-price__discount" then [{ text := "% OFF", attrs := [] }]
      else [] }

/-- The trimmed text of the first element selected, empty when nothing is selected. -/
def headText (els : List Element) : String :=
  match els.head? with
  | some e => TrimSpace e.text
  | none => ""

/-- A page with a blank first heading, a second heading selector with a title, and a JSON-LD
block with a name. -/
def headingDocument : Document :=
  { find := fun sel =>
      if sel = "h1.ui-pdp-title" then [{ text := "  ", attrs := [] }]
      else if sel = ".ui-pdp-title" then
        [{ text := " Smart TV 50 ", attrs := [] }, { text := "Outro", attrs := [] }]
      else if sel = "script[type=\x27application/ld+json\x27]" then
        [{ text := "\x7b\"name\": \"TV\"\x7d", attrs := [] }]
      else [] }

/-- A page without headings and with two JSON-LD blocks that carry a name. -/
def jsonNameDocument : Document :=
  { find := fun sel =>
      if sel = "script[type=\x27application/ld+json\x27]" then
        [{ text := "\x7b\"name\": \"Loja\"\x7d", attrs := [] },
         { text := "\x7b\"name\" : \"TV 50\", \"price\": 10\x7d", attrs := [] },
         { text := "\x7b\"name\": \"\"\x7d", attrs := [] }]
      else [] }

/-- A web on which every request fails in transport. -/
def failingWeb : String → Response := fun _ => Response.transportError

/-- `strconv.ParseFloat` on the two targets used in the examples. -/
def exampleParseFloat (s : String) : Option ℚ :=
  if s = "3000" then some 3000 else if s = "15" then some 15 else none

/-- The row written by the price update of `checkProduct`: with the discount columns when a
discount or an original price was extracted, else the price alone. -/
def updatedRow (currentPrice originalPrice discount : ℚ) (now : Nat) (r : Product) : Product :=
  if discount > 0 ∨ originalPrice > 0 then
    { r with CurrentPrice := currentPrice, OriginalPrice := originalPrice,
             Discount := discount, LastChecked := some now }
  else { r with CurrentPrice := currentPrice, LastChecked := some now }

/-- What `checkProduct` hands to `bot.Send` for a product and an observation: the message of
the checks when `shouldNotify` is set and `TELEGRAM_CHAT_ID` parses, else nothing. -/
def notification (getenv : String → String) (product : Product)
    (currentPrice originalPrice discount : ℚ) : List (Int × Message) :=
  let st := targetDiscountCheck product currentPrice originalPrice discount
    (targetPriceCheck product currentPrice NotifyState.init)
  if st.shouldNotify then
    match parseInt (getenv "TELEGRAM_CHAT_ID") with
    | some chatID => [(chatID, st.message)]
    | none => []
  else []

/-- A scraper that fails to extract the price of the page `MLB0` and reports 2999 elsewhere. -/
def flakyScraper : Scraper :=
  { GetPrice := fun url =>
      if url = "https://mercadolivre.com.br/p/MLB0" then (0, some GoError.priceNotFound)
      else (2999, none)
    GetOriginalPrice := fun _ => (0, none)
    GetDiscount := fun _ => (0, none)
    GetName := fun _ => ("TV", none)
    CanHandle := fun url => Contains url "mercadolivre.com.br" }

/-- A monitor with three active products: one whose price extraction fails, one with price
target 3000, and one of a shop without scraper. -/
def cycleMonitor : Monitor :=
  { db := { rows := [{ exampleProduct 3000 0 with
                       ID := 0, URL := "https://mercadolivre.com.br/p/MLB0" },
                     exampleProduct 3000 0,
                     { exampleProduct 3000 0 with ID := 2, URL := "https://example.com/x" }],
            now := 7, execFails := fun _ => false }
    registry := { scrapers := [flakyScraper] }
    getenv := fun k => if k = "TELEGRAM_CHAT_ID" then "42" else ""
    sent := [] }

/-- A stored product observed earlier in promotion: price 80, original price 100, discount 20. -/
def promotedProduct : Product :=
  { exampleProduct 0 15 with CurrentPrice := 80, OriginalPrice := 100, Discount := 20,
                             LastChecked := some 3 }

/-- Lower case of ASCII letters, standing for `strings.ToLower` in the examples. -/
def asciiLower (s : String) : String := ⟨s.data.map Char.toLower⟩

/-- A page whose only price is the JSON-LD entry `"offers": \x7b"price": 1299.90\x7d`. -/
def offersDecimalDocument : Document :=
  { find := fun sel =>
      if sel = "script[type=\x27application/ld+json\x27]" then
        [{ text := "\x7b\"offers\": \x7b\"price\": 1299.90\x7d\x7d", attrs := [] }]
      else [] }

/-- A page whose discount element reads `17 % OFF`. -/
def spacedDiscountDocument : Document :=
  { find := fun sel =>
      if sel = ".andes-money-amount__discount" then [{ text := "17 % OFF", attrs := [] }]
      else [] }

/-- The monitor of `exampleMonitor` with `TELEGRAM_CHAT_ID` unset: `os.Getenv` gives the empty
string for every variable. -/
def silentMonitor (product : Product) (scraper : Scraper) : Monitor :=
  { db := { rows := [product], now := 7, execFails := fun _ => false }
    registry := { scrapers := [scraper] }
    getenv := fun _ => ""
    sent := [] }

/-! ## Theorems -/

/-- Unfolding of `checkProduct` on the path where a scraper is found, the price is extracted and
the row is written. -/
theorem checkProduct_eq (m : Monitor) (product : Product) (scraper : Scraper)
    (currentPrice : ℚ) (db1 : DB)
    (hscr : m.registry.FindScraper product.URL = some scraper)
    (hprice : scraper.GetPrice product.URL = (currentPrice, none))
    (hdb : persistPrices m.db product.ID currentPrice (scraper.GetOriginalPrice product.URL).1
      (scraper.GetDiscount product.URL).1 = (db1, none)) :
    m.checkProduct product =
      Monitor.notify { m with db := db1 }
        (targetDiscountCheck product currentPrice (scraper.GetOriginalPrice product.URL).1
          (scraper.GetDiscount product.URL).1
          (targetPriceCheck product currentPrice NotifyState.init)) := by
  simp only [Monitor.checkProduct, hscr, hprice, hdb]

/-- The two messages differ (their fifth pieces are different texts). -/
theorem targetPriceMessage_ne (product : Product) (cp o cd : ℚ) :
    targetPriceMessage product cp ≠ targetDiscountMessage product cp o cd := by
  intro h
  simp only [targetPriceMessage, targetDiscountMessage, List.cons_append, List.cons.injEq,
    Piece.text.injEq] at h
  exact absurd h.2.2.2.2.1 (by decide)

/-- C1. On the path of `checkProduct` where the price is extracted and persisted, the
target-price block runs on the initial state with the extracted price, and its branch is taken
(`shouldNotify` set, with the target-price message) if and only if `TargetPrice > 0`,
`currentPrice <= TargetPrice` and (`CurrentPrice == 0` or `currentPrice < CurrentPrice`). -/
theorem target_price_branch_iff (m : Monitor) (product : Product) (scraper : Scraper)
    (currentPrice : ℚ) (db1 : DB)
    (hscr : m.registry.FindScraper product.URL = some scraper)
    (hprice : scraper.GetPrice product.URL = (currentPrice, none))
    (hdb : persistPrices m.db product.ID currentPrice (scraper.GetOriginalPrice product.URL).1
      (scraper.GetDiscount product.URL).1 = (db1, none)) :
    m.checkProduct product =
        Monitor.notify { m with db := db1 }
          (targetDiscountCheck product currentPrice (scraper.GetOriginalPrice product.URL).1
            (scraper.GetDiscount product.URL).1
            (targetPriceCheck product currentPrice NotifyState.init)) ∧
      (targetPriceCheck product currentPrice NotifyState.init =
          { shouldNotify := true, message := targetPriceMessage product currentPrice } ↔
        product.TargetPrice > 0 ∧ currentPrice ≤ product.TargetPrice ∧
          (product.CurrentPrice = 0 ∨ currentPrice < product.CurrentPrice)) := by
  refine ⟨checkProduct_eq m product scraper currentPrice db1 hscr hprice hdb, ?_⟩
  unfold targetPriceCheck
  by_cases h1 : product.TargetPrice > 0 ∧ currentPrice ≤ product.TargetPrice
  · by_cases h2 : product.CurrentPrice = 0 ∨ currentPrice < product.CurrentPrice
    · rw [if_pos h1, if_pos h2]
      exact ⟨fun _ => ⟨h1.1, h1.2, h2⟩, fun _ => rfl⟩
    · rw [if_pos h1, if_neg h2]
      constructor
      · intro h
        have := congrArg NotifyState.shouldNotify h
        simp [NotifyState.init] at this
      · intro h
        exact absurd h.2.2 h2
  · rw [if_neg h1]
    constructor
    · intro h
      have := congrArg NotifyState.shouldNotify h
      simp [NotifyState.init] at this
    · intro h
      exact absurd ⟨h.1, h.2.1⟩ h1

/-- Witness of C1: target 3000, never observed, new price 2999. -/
theorem target_price_branch_iff_witness :
    targetPriceCheck (exampleProduct 3000 0) 2999 NotifyState.init =
        { shouldNotify := true, message := targetPriceMessage (exampleProduct 3000 0) 2999 } ↔
      (exampleProduct 3000 0).TargetPrice > 0 ∧ 2999 ≤ (exampleProduct 3000 0).TargetPrice ∧
        ((exampleProduct 3000 0).CurrentPrice = 0 ∨ 2999 < (exampleProduct 3000 0).CurrentPrice) :=
  (target_price_branch_iff (exampleMonitor (exampleProduct 3000 0) (exampleScraper 2999 0 0))
    (exampleProduct 3000 0) (exampleScraper 2999 0 0) 2999
    { rows := [{ exampleProduct 3000 0 with CurrentPrice := 2999, LastChecked := some 7 }],
      now := 7, execFails := fun _ => false }
    rfl rfl (by simp [persistPrices, exampleScraper, exampleMonitor, DB.UpdateProductPrice,
      exampleProduct])).2

/-- C2. On the path of `checkProduct` where the price is extracted and persisted, the
target-discount block runs after the target-price block, and its branch is taken (`shouldNotify`
set, with the target-discount message) if and only if `TargetDiscount > 0`, the effective discount
`currentDiscount >= TargetDiscount` and (`Discount == 0` or the extracted site discount differs
from `Discount`). -/
theorem target_discount_branch_iff (m : Monitor) (product : Product) (scraper : Scraper)
    (currentPrice : ℚ) (db1 : DB)
    (hscr : m.registry.FindScraper product.URL = some scraper)
    (hprice : scraper.GetPrice product.URL = (currentPrice, none))
    (hdb : persistPrices m.db product.ID currentPrice (scraper.GetOriginalPrice product.URL).1
      (scraper.GetDiscount product.URL).1 = (db1, none)) :
    m.checkProduct product =
        Monitor.notify { m with db := db1 }
          (targetDiscountCheck product currentPrice (scraper.GetOriginalPrice product.URL).1
            (scraper.GetDiscount product.URL).1
            (targetPriceCheck product currentPrice NotifyState.init)) ∧
      (targetDiscountCheck product currentPrice (scraper.GetOriginalPrice product.URL).1
            (scraper.GetDiscount product.URL).1
            (targetPriceCheck product currentPrice NotifyState.init) =
          { shouldNotify := true,
            message := targetDiscountMessage product currentPrice
              (scraper.GetOriginalPrice product.URL).1
              (currentDiscount product currentPrice (scraper.GetOriginalPrice product.URL).1
                (scraper.GetDiscount product.URL).1) } ↔
        product.TargetDiscount > 0 ∧
          currentDiscount product currentPrice (scraper.GetOriginalPrice product.URL).1
            (scraper.GetDiscount product.URL).1 ≥ product.TargetDiscount ∧
          (product.Discount = 0 ∨ (scraper.GetDiscount product.URL).1 ≠ product.Discount)) := by
  refine ⟨checkProduct_eq m product scraper currentPrice db1 hscr hprice hdb, ?_⟩
  generalize (scraper.GetOriginalPrice product.URL).1 = o
  generalize (scraper.GetDiscount product.URL).1 = d
  have hprev : targetPriceCheck product currentPrice NotifyState.init ≠
      { shouldNotify := true,
        message := targetDiscountMessage product currentPrice o
          (currentDiscount product currentPrice o d) } := by
    intro h
    unfold targetPriceCheck at h
    split_ifs at h
    · exact targetPriceMessage_ne product currentPrice o _ (congrArg NotifyState.message h)
    · have := congrArg NotifyState.shouldNotify h
      simp [NotifyState.init] at this
    · have := congrArg NotifyState.shouldNotify h
      simp [NotifyState.init] at this
  unfold targetDiscountCheck
  by_cases h1 : product.TargetDiscount > 0
  · by_cases h2 : currentDiscount product currentPrice o d ≥ product.TargetDiscount
    · by_cases h3 : product.Discount = 0 ∨ d ≠ product.Discount
      · simp only [if_pos h1, if_pos h2, if_pos h3]
        exact ⟨fun _ => ⟨h1, h2, h3⟩, fun _ => trivial⟩
      · simp only [if_pos h1, if_pos h2, if_neg h3]
        exact ⟨fun h => absurd h hprev, fun h => absurd h.2.2 h3⟩
    · simp only [if_pos h1, if_neg h2]
      exact ⟨fun h => absurd h hprev, fun h => absurd h.2.1 h2⟩
  · simp only [if_neg h1]
    exact ⟨fun h => absurd h hprev, fun h => absurd h.1 h1⟩

/-- Witness of C2: discount target 15, never observed, the site reports 20 %: the branch is
taken. -/
theorem target_discount_branch_iff_witness :
    targetDiscountCheck (exampleProduct 0 15) 80 100 20
        (targetPriceCheck (exampleProduct 0 15) 80 NotifyState.init) =
      { shouldNotify := true,
        message := targetDiscountMessage (exampleProduct 0 15) 80 100
          (currentDiscount (exampleProduct 0 15) 80 100 20) } :=
  (target_discount_branch_iff (exampleMonitor (exampleProduct 0 15) (exampleScraper 80 100 20))
    (exampleProduct 0 15) (exampleScraper 80 100 20) 80
    { rows := [{ exampleProduct 0 15 with
        CurrentPrice := 80, OriginalPrice := 100, Discount := 20, LastChecked := some 7 }],
      now := 7, execFails := fun _ => false }
    rfl rfl (by simp [persistPrices, exampleScraper, exampleMonitor,
      DB.UpdateProductPricesWithDiscount, exampleProduct])).2.mpr
    ⟨by norm_num [exampleProduct],
     by norm_num [currentDiscount, exampleProduct, exampleScraper],
     Or.inl rfl⟩

/-- C3. For every product and every observation with a non-negative new price, the effective
discount `currentDiscount` is: the extracted site discount if it is `> 0`; otherwise
`(prior - new) / prior * 100` if `prior > 0` and `new < prior`; otherwise
`(original - new) / original * 100` if the extracted original price is `> new`; otherwise 0. -/
theorem currentDiscount_spec (product : Product) (currentPrice originalPrice discount : ℚ)
    (hprice : 0 ≤ currentPrice) :
    currentDiscount product currentPrice originalPrice discount =
      if discount > 0 then discount
      else if product.CurrentPrice > 0 ∧ currentPrice < product.CurrentPrice then
        (product.CurrentPrice - currentPrice) / product.CurrentPrice * 100
      else if originalPrice > currentPrice then
        (originalPrice - currentPrice) / originalPrice * 100
      else 0 := by
  unfold currentDiscount
  have hiff : (originalPrice > 0 ∧ originalPrice > currentPrice) ↔ originalPrice > currentPrice :=
    ⟨fun h => h.2, fun h => ⟨lt_of_le_of_lt hprice h, h⟩⟩
  simp only [hiff]

/-- Witness of C3: prior price 0, new price 80, original price 100, no site discount. -/
theorem currentDiscount_spec_witness :
    currentDiscount (exampleProduct 0 10) 80 100 0 = 20 := by
  rw [currentDiscount_spec (exampleProduct 0 10) 80 100 0 (by norm_num)]
  norm_num [exampleProduct]

/-- Messages appended by the final block of `checkProduct`. -/
theorem notify_sent (m : Monitor) (st : NotifyState) :
    (Monitor.notify m st).sent =
      m.sent ++ (if st.shouldNotify then
        match parseInt (m.getenv "TELEGRAM_CHAT_ID") with
        | some chatID => [(chatID, st.message)]
        | none => []
      else []) := by
  unfold Monitor.notify
  by_cases h : st.shouldNotify = true
  · rw [if_pos h, if_pos h]
    cases parseInt (m.getenv "TELEGRAM_CHAT_ID") <;> simp
  · rw [if_neg h, if_neg h]; simp

/-- A call of `checkProduct` either leaves the monitor as it was (no scraper, price error or
database error) or runs the full path. -/
theorem checkProduct_cases (m : Monitor) (product : Product) :
    m.checkProduct product = m ∨
      ∃ scraper currentPrice db1,
        m.registry.FindScraper product.URL = some scraper ∧
        scraper.GetPrice product.URL = (currentPrice, none) ∧
        persistPrices m.db product.ID currentPrice (scraper.GetOriginalPrice product.URL).1
          (scraper.GetDiscount product.URL).1 = (db1, none) := by
  cases hscr : m.registry.FindScraper product.URL with
  | none => left; simp only [Monitor.checkProduct, hscr]
  | some scraper =>
    rcases hprice : scraper.GetPrice product.URL with ⟨cp, e⟩
    cases e with
    | some e => left; simp only [Monitor.checkProduct, hscr, hprice]
    | none =>
      rcases hdb : persistPrices m.db product.ID cp (scraper.GetOriginalPrice product.URL).1
        (scraper.GetDiscount product.URL).1 with ⟨db1, e⟩
      cases e with
      | some e => left; simp only [Monitor.checkProduct, hscr, hprice, hdb]
      | none => right; exact ⟨scraper, cp, db1, rfl, hprice, hdb⟩

/-- The row read back after a successful price update: the price is the new one, the discount is
the new site discount when the discount columns were written and the old one otherwise, and the
identifying fields and targets are those of the row read before. -/
theorem persistPrices_record (db db1 : DB) (id : Int) (cp o d : ℚ) (product : Product)
    (hdb : persistPrices db id cp o d = (db1, none))
    (hstored : (db.GetProductByID id).1 = some product) :
    ∃ product1, (db1.GetProductByID id).1 = some product1 ∧
      product1.CurrentPrice = cp ∧
      product1.Discount = (if d > 0 ∨ o > 0 then d else product.Discount) ∧
      product1.TargetPrice = product.TargetPrice ∧
      product1.TargetDiscount = product.TargetDiscount ∧
      product1.URL = product.URL ∧ product1.ID = product.ID := by
  have hfind : db.rows.find? (fun p => p.ID = id) = some product := by
    unfold DB.GetProductByID at hstored
    cases h : db.rows.find? (fun p => p.ID = id) with
    | none => rw [h] at hstored; simp at hstored
    | some q => rw [h] at hstored; simp at hstored; rw [hstored]
  have hid : product.ID = id := by
    have := List.find?_some hfind
    simpa using this
  unfold persistPrices at hdb
  by_cases hc : d > 0 ∨ o > 0
  · rw [if_pos hc] at hdb
    unfold DB.UpdateProductPricesWithDiscount at hdb
    by_cases hf : db.execFails id = true
    · rw [if_pos hf] at hdb; simp at hdb
    · rw [if_neg hf] at hdb
      simp only [Prod.mk.injEq, and_true] at hdb
      subst hdb
      refine ⟨({ product with
          CurrentPrice := cp, OriginalPrice := o, Discount := d, LastChecked := some db.now } :
          Product), ?_, rfl, ?_, rfl, rfl, rfl, rfl⟩
      · unfold DB.GetProductByID
        simp only [List.find?_map]
        have hcomp : ((fun p : Product => decide (p.ID = id)) ∘ fun p : Product =>
            if p.ID = id then
              { p with CurrentPrice := cp, OriginalPrice := o, Discount := d,
                       LastChecked := some db.now }
            else p) = fun p : Product => decide (p.ID = id) := by
          funext p
          by_cases hp : p.ID = id <;> simp [hp]
        rw [hcomp, hfind]
        simp [hid]
      · simp [hc]
  · rw [if_neg hc] at hdb
    unfold DB.UpdateProductPrice at hdb
    by_cases hf : db.execFails id = true
    · rw [if_pos hf] at hdb; simp at hdb
    · rw [if_neg hf] at hdb
      simp only [Prod.mk.injEq, and_true] at hdb
      subst hdb
      refine ⟨({ product with CurrentPrice := cp, LastChecked := some db.now } : Product),
        ?_, rfl, ?_, rfl, rfl, rfl, rfl⟩
      · unfold DB.GetProductByID
        simp only [List.find?_map]
        have hcomp : ((fun p : Product => decide (p.ID = id)) ∘ fun p : Product =>
            if p.ID = id then { p with CurrentPrice := cp, LastChecked := some db.now }
            else p) = fun p : Product => decide (p.ID = id) := by
          funext p
          by_cases hp : p.ID = id <;> simp [hp]
        rw [hcomp, hfind]
        simp [hid]
      · simp [hc]

/-- A call of `checkProduct` whose checks leave `shouldNotify` unset sends nothing. -/
theorem checkProduct_sent_of_quiet (m : Monitor) (product : Product)
    (hquiet : ∀ scraper currentPrice,
      m.registry.FindScraper product.URL = some scraper →
      scraper.GetPrice product.URL = (currentPrice, none) →
      (targetDiscountCheck product currentPrice (scraper.GetOriginalPrice product.URL).1
        (scraper.GetDiscount product.URL).1
        (targetPriceCheck product currentPrice NotifyState.init)).shouldNotify = false) :
    (m.checkProduct product).sent = m.sent := by
  rcases checkProduct_cases m product with h | ⟨scraper, cp, db1, hscr, hprice, hdb⟩
  · rw [h]
  · rw [checkProduct_eq m product scraper cp db1 hscr hprice hdb, notify_sent,
      hquiet scraper cp hscr hprice]
    simp

/-- C4 (evaluation at the failing input). A never-observed product with discount target 10 and a
page showing price 80, original price 100 and no site discount: the first `checkProduct` call
sends the target-discount message (effective discount 20), the row is persisted with discount 0,
and a second call on the persisted row with the identical observation sends the message again. -/
theorem dedupe_repeats_without_site_discount :
    ((exampleMonitor (exampleProduct 0 10) (exampleScraper 80 100 0)).checkProduct
        (exampleProduct 0 10)).sent =
      [(42, targetDiscountMessage (exampleProduct 0 10) 80 100 20)] ∧
    (((exampleMonitor (exampleProduct 0 10) (exampleScraper 80 100 0)).checkProduct
        (exampleProduct 0 10)).db.GetProductByID 1).1 =
      some { exampleProduct 0 10 with
        CurrentPrice := 80, OriginalPrice := 100, Discount := 0, LastChecked := some 7 } ∧
    (((exampleMonitor (exampleProduct 0 10) (exampleScraper 80 100 0)).checkProduct
        (exampleProduct 0 10)).checkProduct
        { exampleProduct 0 10 with
          CurrentPrice := 80, OriginalPrice := 100, Discount := 0, LastChecked := some 7 }).sent =
      [(42, targetDiscountMessage (exampleProduct 0 10) 80 100 20),
       (42, targetDiscountMessage
          { exampleProduct 0 10 with
            CurrentPrice := 80, OriginalPrice := 100, Discount := 0, LastChecked := some 7 }
          80 100 20)] := by
  have hint : parseInt "42" = some 42 := by decide
  have henv : (if "TELEGRAM_CHAT_ID" = "TELEGRAM_CHAT_ID" then "42" else "") = "42" := rfl
  refine ⟨?_, ?_, ?_⟩ <;>
  norm_num [Monitor.checkProduct, exampleMonitor, exampleScraper, exampleProduct,
    Registry.FindScraper, persistPrices, DB.UpdateProductPricesWithDiscount, Monitor.notify,
    targetPriceCheck, targetDiscountCheck, currentDiscount, NotifyState.init, hint, henv,
    DB.GetProductByID]

/-- The target-discount message contains the pieces of `Desconto: ...% (meta: ...%)`, is not
the target-price message and has no `Preço alvo` line. -/
theorem targetDiscountMessage_content (product : Product) (p o cd : ℚ) :
    [Piece.text "\nDesconto: ", Piece.fixed 1 cd, Piece.text "% (meta: ",
        Piece.fixed 1 product.TargetDiscount, Piece.text "%)\n"] <:+:
      targetDiscountMessage product p o cd ∧
    targetDiscountMessage product p o cd ≠ targetPriceMessage product p ∧
    Piece.text "\nPreço alvo: R$ " ∉ targetDiscountMessage product p o cd := by
  refine ⟨?_, fun h => targetPriceMessage_ne product p o cd h.symm, ?_⟩
  · refine ⟨[Piece.text "🎉 PROMOÇÃO DETECTADA!\n\nProduto: ", Piece.str product.Name,
      Piece.text "\nPreço atual: R$ ", Piece.fixed 2 p],
      (if o > 0 then
        [Piece.text "Preço original: R$ ", Piece.fixed 2 o, Piece.text "\n"]
      else []) ++ [Piece.text "\nLink: ", Piece.str product.URL], ?_⟩
    simp [targetDiscountMessage]
  · unfold targetDiscountMessage
    by_cases ho : o > 0
    · rw [if_pos ho]; simp
    · rw [if_neg ho]; simp

/-- The row is read back from the monitor after the final block as from the database written by
the price update. -/
theorem notify_db (m : Monitor) (st : NotifyState) : (Monitor.notify m st).db = m.db := by
  unfold Monitor.notify
  split_ifs
  · cases parseInt (m.getenv "TELEGRAM_CHAT_ID") <;> rfl
  · rfl

/-- Target-price scenario on the path where the price is extracted and persisted: the first call
hands the target-price message to `bot.Send` when `TELEGRAM_CHAT_ID` parses and nothing
otherwise; the row is read back with the new price; and a next call on that row, with the same
price extracted, sends nothing. -/
theorem target_price_outcome (m : Monitor) (product : Product) (scraper : Scraper)
    (p : ℚ) (db1 : DB)
    (hstored : (m.db.GetProductByID product.ID).1 = some product)
    (hscr : m.registry.FindScraper product.URL = some scraper)
    (hprice : scraper.GetPrice product.URL = (p, none))
    (hdb : persistPrices m.db product.ID p (scraper.GetOriginalPrice product.URL).1
      (scraper.GetDiscount product.URL).1 = (db1, none))
    (htarget : product.TargetPrice > 0) (hnodisc : product.TargetDiscount = 0)
    (hnever : product.CurrentPrice = 0) (hpos : 0 < p) (hle : p ≤ product.TargetPrice) :
    (m.checkProduct product).sent =
      m.sent ++ (match parseInt (m.getenv "TELEGRAM_CHAT_ID") with
        | some chatID => [(chatID, targetPriceMessage product p)]
        | none => []) ∧
    ∃ product1, ((m.checkProduct product).db.GetProductByID product.ID).1 = some product1 ∧
      product1.CurrentPrice = p ∧
      ∀ m2 : Monitor, m2.db = (m.checkProduct product).db →
        (∀ s2 p2, m2.registry.FindScraper product1.URL = some s2 →
          s2.GetPrice product1.URL = (p2, none) → p2 = p) →
        (m2.checkProduct product1).sent = m2.sent := by
  have heq := checkProduct_eq m product scraper p db1 hscr hprice hdb
  have hfirst : targetPriceCheck product p NotifyState.init =
      { shouldNotify := true, message := targetPriceMessage product p } := by
    unfold targetPriceCheck
    rw [if_pos ⟨htarget, hle⟩, if_pos (Or.inl hnever)]
  have hsecond : ∀ o d st, targetDiscountCheck product p o d st = st := by
    intro o d st
    unfold targetDiscountCheck
    rw [if_neg (by rw [hnodisc]; exact lt_irrefl 0)]
  constructor
  · rw [heq, notify_sent, hfirst, hsecond]
    simp
  · obtain ⟨product1, hget, hcur, _, htp, htd, _, _⟩ :=
      persistPrices_record m.db db1 product.ID p _ _ product hdb hstored
    refine ⟨product1, ?_, hcur, ?_⟩
    · rw [heq, notify_db]
      exact hget
    · intro m2 _ hsame
      apply checkProduct_sent_of_quiet
      intro s2 p2 hs2 hp2
      have hp : p2 = p := hsame s2 p2 hs2 hp2
      subst hp
      have h1 : targetPriceCheck product1 p2 NotifyState.init = NotifyState.init := by
        unfold targetPriceCheck
        by_cases hc : product1.TargetPrice > 0 ∧ p2 ≤ product1.TargetPrice
        · rw [if_pos hc, if_neg]
          rw [hcur]
          intro h
          rcases h with h | h
          · exact absurd h (ne_of_gt hpos)
          · exact lt_irrefl _ h
        · rw [if_neg hc]
      have h2 : ∀ o d st, targetDiscountCheck product1 p2 o d st = st := by
        intro o d st
        unfold targetDiscountCheck
        rw [if_neg (by rw [htd, hnodisc]; exact lt_irrefl 0)]
      rw [h1, h2]
      rfl

/-- C5 (evaluation at the failing input, and the general statement). Target 3000, never observed,
new price 2999, `TELEGRAM_CHAT_ID` unset: the first `checkProduct` call sends nothing, yet it
persists the price 2999, so the next call on the persisted row sends nothing either; the
target-price notification is never sent.  With `TELEGRAM_CHAT_ID=42` the same first call sends
the target-price message.  In general, for every stored product with `TargetPrice > 0`, no
discount target and stored `CurrentPrice = 0`, and every new price `p` with
`0 < p <= TargetPrice` that is extracted and persisted: the first call sends exactly the
target-price message when `TELEGRAM_CHAT_ID` parses and nothing otherwise, the row is read back
with the new price, and a next call on that row with the same price sends nothing. -/
theorem target_price_notification_lost :
    parseInt ((silentMonitor (exampleProduct 3000 0) (exampleScraper 2999 0 0)).getenv
      "TELEGRAM_CHAT_ID") = none ∧
    ((silentMonitor (exampleProduct 3000 0) (exampleScraper 2999 0 0)).checkProduct
        (exampleProduct 3000 0)).sent = [] ∧
    (((silentMonitor (exampleProduct 3000 0) (exampleScraper 2999 0 0)).checkProduct
        (exampleProduct 3000 0)).db.GetProductByID 1).1 =
      some { exampleProduct 3000 0 with CurrentPrice := 2999, LastChecked := some 7 } ∧
    (((silentMonitor (exampleProduct 3000 0) (exampleScraper 2999 0 0)).checkProduct
        (exampleProduct 3000 0)).checkProduct
        { exampleProduct 3000 0 with CurrentPrice := 2999, LastChecked := some 7 }).sent = [] ∧
    ((exampleMonitor (exampleProduct 3000 0) (exampleScraper 2999 0 0)).checkProduct
        (exampleProduct 3000 0)).sent =
      [(42, targetPriceMessage (exampleProduct 3000 0) 2999)] ∧
    (∀ (m : Monitor) (product : Product) (scraper : Scraper) (p : ℚ) (db1 : DB),
      (m.db.GetProductByID product.ID).1 = some product →
      m.registry.FindScraper product.URL = some scraper →
      scraper.GetPrice product.URL = (p, none) →
      persistPrices m.db product.ID p (scraper.GetOriginalPrice product.URL).1
        (scraper.GetDiscount product.URL).1 = (db1, none) →
      product.TargetPrice > 0 → product.TargetDiscount = 0 → product.CurrentPrice = 0 →
      0 < p → p ≤ product.TargetPrice →
      (m.checkProduct product).sent =
        m.sent ++ (match parseInt (m.getenv "TELEGRAM_CHAT_ID") with
          | some chatID => [(chatID, targetPriceMessage product p)]
          | none => []) ∧
      ∃ product1, ((m.checkProduct product).db.GetProductByID product.ID).1 = some product1 ∧
        product1.CurrentPrice = p ∧
        ∀ m2 : Monitor, m2.db = (m.checkProduct product).db →
          (∀ s2 p2, m2.registry.FindScraper product1.URL = some s2 →
            s2.GetPrice product1.URL = (p2, none) → p2 = p) →
          (m2.checkProduct product1).sent = m2.sent) :=
  ⟨by decide, by decide, by decide, by decide, by decide,
   fun m product scraper p db1 hstored hscr hprice hdb htarget hnodisc hnever hpos hle =>
     target_price_outcome m product scraper p db1 hstored hscr hprice hdb htarget hnodisc hnever
       hpos hle⟩

/-- Target-discount scenario on the path where the price is extracted and persisted: the first
call hands the target-discount message, which reports the effective discount `d` and the target,
to `bot.Send` when `TELEGRAM_CHAT_ID` parses and nothing otherwise; the row is read back with
the discount `d`; and a next call on that row, with the same discount reported, sends nothing. -/
theorem target_discount_outcome (m : Monitor) (product : Product) (scraper : Scraper)
    (p : ℚ) (db1 : DB)
    (hstored : (m.db.GetProductByID product.ID).1 = some product)
    (hscr : m.registry.FindScraper product.URL = some scraper)
    (hprice : scraper.GetPrice product.URL = (p, none))
    (hdb : persistPrices m.db product.ID p (scraper.GetOriginalPrice product.URL).1
      (scraper.GetDiscount product.URL).1 = (db1, none))
    (htarget : product.TargetDiscount > 0) (hnoprice : product.TargetPrice = 0)
    (hnever : product.Discount = 0)
    (hge : (scraper.GetDiscount product.URL).1 ≥ product.TargetDiscount) :
    (m.checkProduct product).sent =
        m.sent ++ (match parseInt (m.getenv "TELEGRAM_CHAT_ID") with
          | some chatID => [(chatID, targetDiscountMessage product p
              (scraper.GetOriginalPrice product.URL).1 (scraper.GetDiscount product.URL).1)]
          | none => []) ∧
    [Piece.text "\nDesconto: ", Piece.fixed 1 (scraper.GetDiscount product.URL).1,
        Piece.text "% (meta: ", Piece.fixed 1 product.TargetDiscount, Piece.text "%)\n"] <:+:
      targetDiscountMessage product p (scraper.GetOriginalPrice product.URL).1
        (scraper.GetDiscount product.URL).1 ∧
    ∃ product1, ((m.checkProduct product).db.GetProductByID product.ID).1 = some product1 ∧
      product1.Discount = (scraper.GetDiscount product.URL).1 ∧
      ∀ m2 : Monitor, m2.db = (m.checkProduct product).db →
        (∀ s2, m2.registry.FindScraper product1.URL = some s2 →
          (s2.GetDiscount product1.URL).1 = (scraper.GetDiscount product.URL).1) →
        (m2.checkProduct product1).sent = m2.sent := by
  have heq := checkProduct_eq m product scraper p db1 hscr hprice hdb
  revert hdb heq hge
  generalize (scraper.GetOriginalPrice product.URL).1 = o
  generalize (scraper.GetDiscount product.URL).1 = d
  intro hdb hge heq
  have hdpos : d > 0 := lt_of_lt_of_le htarget hge
  have hcd : currentDiscount product p o d = d := by
    unfold currentDiscount
    rw [if_pos hdpos]
  have hfirst : ∀ st, targetDiscountCheck product p o d st =
      { shouldNotify := true, message := targetDiscountMessage product p o d } := by
    intro st
    unfold targetDiscountCheck
    simp only [hcd]
    rw [if_pos htarget, if_pos hge, if_pos (Or.inl hnever)]
  refine ⟨?_, (targetDiscountMessage_content product p o d).1, ?_⟩
  · rw [heq, notify_sent, hfirst]
    simp
  · obtain ⟨product1, hget, _, hdisc, htp, htd, _, _⟩ :=
      persistPrices_record m.db db1 product.ID p o d product hdb hstored
    rw [if_pos (Or.inl hdpos)] at hdisc
    refine ⟨product1, ?_, hdisc, ?_⟩
    · rw [heq, notify_db]
      exact hget
    · intro m2 _ hsame
      apply checkProduct_sent_of_quiet
      intro s2 p2 hs2 _
      rw [hsame s2 hs2]
      have h1 : targetPriceCheck product1 p2 NotifyState.init = NotifyState.init := by
        unfold targetPriceCheck
        rw [if_neg]
        rw [htp, hnoprice]
        intro h
        exact lt_irrefl 0 h.1
      rw [h1]
      unfold targetDiscountCheck
      have hguard : ¬ (product1.Discount = 0 ∨ d ≠ product1.Discount) := by
        rw [hdisc]
        intro h
        rcases h with h | h
        · exact absurd h (ne_of_gt hdpos)
        · exact h rfl
      by_cases hc1 : product1.TargetDiscount > 0
      · by_cases hc2 : currentDiscount product1 p2 (s2.GetOriginalPrice product1.URL).1 d ≥
            product1.TargetDiscount
        · simp only [if_pos hc1, if_pos hc2, if_neg hguard]
          rfl
        · simp only [if_pos hc1, if_neg hc2]
          rfl
      · simp only [if_neg hc1]
        rfl

/-- C6 (evaluation at the failing input, and the general statement). Discount target 15, never
observed, the site reports 20 %, `TELEGRAM_CHAT_ID` unset: the first `checkProduct` call sends
nothing, yet it persists the discount 20, so the next call on the persisted row sends nothing
either; the target-discount notification is never sent.  With `TELEGRAM_CHAT_ID=42` the same
first call sends the target-discount message.  In general, for every stored product with
`TargetDiscount = t > 0`, no price target and stored `Discount = 0`, and every observation whose
site-reported discount `d` is `>= t`, extracted and persisted: the first call sends exactly the
target-discount message, which reports effective discount `d` and target `t`, when
`TELEGRAM_CHAT_ID` parses and nothing otherwise; the row is read back with discount `d`, and a
next call on that row with the same discount reported sends nothing. -/
theorem target_discount_notification_lost :
    parseInt ((silentMonitor (exampleProduct 0 15) (exampleScraper 80 100 20)).getenv
      "TELEGRAM_CHAT_ID") = none ∧
    ((silentMonitor (exampleProduct 0 15) (exampleScraper 80 100 20)).checkProduct
        (exampleProduct 0 15)).sent = [] ∧
    (((silentMonitor (exampleProduct 0 15) (exampleScraper 80 100 20)).checkProduct
        (exampleProduct 0 15)).db.GetProductByID 1).1 =
      some { exampleProduct 0 15 with
        CurrentPrice := 80, OriginalPrice := 100, Discount := 20, LastChecked := some 7 } ∧
    (((silentMonitor (exampleProduct 0 15) (exampleScraper 80 100 20)).checkProduct
        (exampleProduct 0 15)).checkProduct
        { exampleProduct 0 15 with
          CurrentPrice := 80, OriginalPrice := 100, Discount := 20,
          LastChecked := some 7 }).sent = [] ∧
    ((exampleMonitor (exampleProduct 0 15) (exampleScraper 80 100 20)).checkProduct
        (exampleProduct 0 15)).sent =
      [(42, targetDiscountMessage (exampleProduct 0 15) 80 100 20)] ∧
    (∀ (m : Monitor) (product : Product) (scraper : Scraper) (p : ℚ) (db1 : DB),
      (m.db.GetProductByID product.ID).1 = some product →
      m.registry.FindScraper product.URL = some scraper →
      scraper.GetPrice product.URL = (p, none) →
      persistPrices m.db product.ID p (scraper.GetOriginalPrice product.URL).1
        (scraper.GetDiscount product.URL).1 = (db1, none) →
      product.TargetDiscount > 0 → product.TargetPrice = 0 → product.Discount = 0 →
      (scraper.GetDiscount product.URL).1 ≥ product.TargetDiscount →
      (m.checkProduct product).sent =
          m.sent ++ (match parseInt (m.getenv "TELEGRAM_CHAT_ID") with
            | some chatID => [(chatID, targetDiscountMessage product p
                (scraper.GetOriginalPrice product.URL).1 (scraper.GetDiscount product.URL).1)]
            | none => []) ∧
      [Piece.text "\nDesconto: ", Piece.fixed 1 (scraper.GetDiscount product.URL).1,
          Piece.text "% (meta: ", Piece.fixed 1 product.TargetDiscount, Piece.text "%)\n"] <:+:
        targetDiscountMessage product p (scraper.GetOriginalPrice product.URL).1
          (scraper.GetDiscount product.URL).1 ∧
      ∃ product1, ((m.checkProduct product).db.GetProductByID product.ID).1 = some product1 ∧
        product1.Discount = (scraper.GetDiscount product.URL).1 ∧
        ∀ m2 : Monitor, m2.db = (m.checkProduct product).db →
          (∀ s2, m2.registry.FindScraper product1.URL = some s2 →
            (s2.GetDiscount product1.URL).1 = (scraper.GetDiscount product.URL).1) →
          (m2.checkProduct product1).sent = m2.sent) :=
  ⟨by decide, by decide, by decide, by decide, by decide,
   fun m product scraper p db1 hstored hscr hprice hdb htarget hnoprice hnever hge =>
     target_discount_outcome m product scraper p db1 hstored hscr hprice hdb htarget hnoprice
       hnever hge⟩

/-- C7. One `checkProduct` call hands at most one message to `bot.Send`; and on the path where
the price is extracted and persisted, when the target-price condition and the target-discount
condition both hold, every message sent by the call is the target-discount message, and it is
sent whenever `TELEGRAM_CHAT_ID` parses.  That message contains the pieces of
`Desconto: ...% (meta: ...%)` with the effective discount and the target, it is not the
target-price message, and it has no `Preço alvo` line. -/
theorem at_most_one_notification (m : Monitor) (product : Product) :
    (∃ l, (m.checkProduct product).sent = m.sent ++ l ∧ l.length ≤ 1) ∧
    ∀ (scraper : Scraper) (p : ℚ) (db1 : DB),
      m.registry.FindScraper product.URL = some scraper →
      scraper.GetPrice product.URL = (p, none) →
      persistPrices m.db product.ID p (scraper.GetOriginalPrice product.URL).1
        (scraper.GetDiscount product.URL).1 = (db1, none) →
      (product.TargetPrice > 0 ∧ p ≤ product.TargetPrice ∧
        (product.CurrentPrice = 0 ∨ p < product.CurrentPrice)) →
      (product.TargetDiscount > 0 ∧
        currentDiscount product p (scraper.GetOriginalPrice product.URL).1
          (scraper.GetDiscount product.URL).1 ≥ product.TargetDiscount ∧
        (product.Discount = 0 ∨ (scraper.GetDiscount product.URL).1 ≠ product.Discount)) →
      (m.checkProduct product).sent =
        m.sent ++ (match parseInt (m.getenv "TELEGRAM_CHAT_ID") with
          | some chatID =>
            [(chatID, targetDiscountMessage product p (scraper.GetOriginalPrice product.URL).1
              (currentDiscount product p (scraper.GetOriginalPrice product.URL).1
                (scraper.GetDiscount product.URL).1))]
          | none => []) ∧
      [Piece.text "\nDesconto: ",
          Piece.fixed 1 (currentDiscount product p (scraper.GetOriginalPrice product.URL).1
            (scraper.GetDiscount product.URL).1),
          Piece.text "% (meta: ", Piece.fixed 1 product.TargetDiscount, Piece.text "%)\n"] <:+:
        targetDiscountMessage product p (scraper.GetOriginalPrice product.URL).1
          (currentDiscount product p (scraper.GetOriginalPrice product.URL).1
            (scraper.GetDiscount product.URL).1) ∧
      targetDiscountMessage product p (scraper.GetOriginalPrice product.URL).1
          (currentDiscount product p (scraper.GetOriginalPrice product.URL).1
            (scraper.GetDiscount product.URL).1) ≠ targetPriceMessage product p ∧
      Piece.text "\nPreço alvo: R$ " ∉
        targetDiscountMessage product p (scraper.GetOriginalPrice product.URL).1
          (currentDiscount product p (scraper.GetOriginalPrice product.URL).1
            (scraper.GetDiscount product.URL).1) ∧
      ∀ chatID, (chatID, targetPriceMessage product p) ∈ (m.checkProduct product).sent →
        (chatID, targetPriceMessage product p) ∈ m.sent := by
  constructor
  · rcases checkProduct_cases m product with h | ⟨scraper, cp, db1, hscr, hprice, hdb⟩
    · exact ⟨[], by rw [h]; simp, by simp⟩
    · rw [checkProduct_eq m product scraper cp db1 hscr hprice hdb, notify_sent]
      refine ⟨_, rfl, ?_⟩
      split_ifs
      · cases parseInt (m.getenv "TELEGRAM_CHAT_ID") <;> simp
      · simp
  · intro scraper p db1 hscr hprice hdb _ hd
    have hfire : targetDiscountCheck product p (scraper.GetOriginalPrice product.URL).1
        (scraper.GetDiscount product.URL).1
        (targetPriceCheck product p NotifyState.init) =
        { shouldNotify := true,
          message := targetDiscountMessage product p (scraper.GetOriginalPrice product.URL).1
            (currentDiscount product p (scraper.GetOriginalPrice product.URL).1
              (scraper.GetDiscount product.URL).1) } := by
      unfold targetDiscountCheck
      simp only [if_pos hd.1, if_pos hd.2.1, if_pos hd.2.2]
    have hcontent := targetDiscountMessage_content product p
      (scraper.GetOriginalPrice product.URL).1
      (currentDiscount product p (scraper.GetOriginalPrice product.URL).1
        (scraper.GetDiscount product.URL).1)
    have hsent : (m.checkProduct product).sent =
        m.sent ++ (match parseInt (m.getenv "TELEGRAM_CHAT_ID") with
          | some chatID =>
            [(chatID, targetDiscountMessage product p (scraper.GetOriginalPrice product.URL).1
              (currentDiscount product p (scraper.GetOriginalPrice product.URL).1
                (scraper.GetDiscount product.URL).1))]
          | none => []) := by
      rw [checkProduct_eq m product scraper p db1 hscr hprice hdb, notify_sent, hfire]
      simp
    refine ⟨hsent, hcontent.1, hcontent.2.1, hcontent.2.2, ?_⟩
    intro chatID hmem
    rw [hsent] at hmem
    rcases List.mem_append.mp hmem with h | h
    · exact h
    · cases hc : parseInt (m.getenv "TELEGRAM_CHAT_ID") with
      | none => rw [hc] at h; simp at h
      | some c =>
        rw [hc] at h
        simp only [List.mem_singleton, Prod.mk.injEq] at h
        exact absurd h.2.symm hcontent.2.1

/-- Witness of C7: price target 100 and discount target 15 both reached by price 80 with a site
discount of 20 %; the one message sent is the target-discount message, which differs from the
target-price message. -/
theorem at_most_one_notification_witness :
    ((exampleMonitor (exampleProduct 100 15) (exampleScraper 80 100 20)).checkProduct
        (exampleProduct 100 15)).sent =
      [(42, targetDiscountMessage (exampleProduct 100 15) 80 100 20)] ∧
    targetDiscountMessage (exampleProduct 100 15) 80 100 20 ≠
      targetPriceMessage (exampleProduct 100 15) 80 := by
  have hall := (at_most_one_notification
    (exampleMonitor (exampleProduct 100 15) (exampleScraper 80 100 20))
    (exampleProduct 100 15)).2 (exampleScraper 80 100 20) 80
    { rows := [{ exampleProduct 100 15 with
        CurrentPrice := 80, OriginalPrice := 100, Discount := 20, LastChecked := some 7 }],
      now := 7, execFails := fun _ => false }
    rfl rfl
    (by simp [persistPrices, exampleScraper, exampleMonitor,
      DB.UpdateProductPricesWithDiscount, exampleProduct])
    (by norm_num [exampleProduct])
    (by norm_num [exampleProduct, exampleScraper, currentDiscount])
  have h := hall.1
  have hne := hall.2.2.1
  have hint : parseInt ((exampleMonitor (exampleProduct 100 15)
      (exampleScraper 80 100 20)).getenv "TELEGRAM_CHAT_ID") = some 42 := by decide
  rw [hint] at h
  have hcd : currentDiscount (exampleProduct 100 15) 80
      ((exampleScraper 80 100 20).GetOriginalPrice (exampleProduct 100 15).URL).1
      ((exampleScraper 80 100 20).GetDiscount (exampleProduct 100 15).URL).1 = 20 := by
    norm_num [currentDiscount, exampleScraper]
  rw [hcd] at h hne
  exact ⟨by simpa [exampleMonitor, exampleScraper] using h, hne⟩

/-! ### Price text normalisation -/

/-- The cleaning acts character by character. -/
theorem cleanPriceText_data (s : String) :
    (cleanPriceText s).data = s.data.flatMap cleanChar := by
  unfold cleanPriceText removeNonNumeric ReplaceAll
  simp only
  induction s.data with
  | nil => rfl
  | cons c cs ih =>
    simp only [List.flatMap_cons, List.flatMap_append, List.filter_append, ih]
    congr 1
    unfold cleanChar
    by_cases h1 : c = '.'
    · simp [h1]
    · by_cases h2 : c = ','
      · subst h2
        simp [isDigitOrDot]
      · by_cases h3 : c.isDigit = true
        · simp [h1, h2, h3, isDigitOrDot]
        · simp [h1, h2, h3, isDigitOrDot]

/-- Characters that are neither digits nor separators are deleted by the cleaning. -/
theorem flatMap_cleanChar_other (l : List Char)
    (h : ∀ c ∈ l, c.isDigit = false ∧ c ≠ '.' ∧ c ≠ ',') : l.flatMap cleanChar = [] := by
  induction l with
  | nil => rfl
  | cons c cs ih =>
    have hc := h c (List.mem_cons_self c cs)
    rw [List.flatMap_cons, ih (fun x hx => h x (List.mem_cons_of_mem c hx))]
    simp [cleanChar, hc.1, hc.2.1, hc.2.2]

/-- Of a text made of digits and `.`, the cleaning keeps the digits. -/
theorem flatMap_cleanChar_grouped (l : List Char)
    (h : ∀ c ∈ l, c.isDigit = true ∨ c = '.') :
    l.flatMap cleanChar = l.filter Char.isDigit := by
  induction l with
  | nil => rfl
  | cons c cs ih =>
    rw [List.flatMap_cons, ih (fun x hx => h x (List.mem_cons_of_mem c hx))]
    rcases h c (List.mem_cons_self c cs) with hd | hd
    · have h1 : c ≠ '.' := by
        intro hc
        rw [hc] at hd
        exact absurd hd (by decide)
      have h2 : c ≠ ',' := by
        intro hc
        rw [hc] at hd
        exact absurd hd (by decide)
      simp [cleanChar, h1, h2, hd, List.filter_cons]
    · subst hd
      have h3 : Char.isDigit '.' = false := by decide
      simp [cleanChar, List.filter_cons, h3]

/-- Digits are kept by the cleaning. -/
theorem flatMap_cleanChar_digits (l : List Char) (h : ∀ c ∈ l, c.isDigit = true) :
    l.flatMap cleanChar = l := by
  rw [flatMap_cleanChar_grouped l (fun c hc => Or.inl (h c hc))]
  exact List.filter_eq_self.mpr h

/-- `takeWhile` over a prefix that satisfies the predicate, stopped by the next character. -/
theorem takeWhile_stopped (q : Char → Bool) (a : List Char) (c : Char) (b : List Char)
    (ha : ∀ x ∈ a, q x = true) (hc : q c = false) :
    (a ++ c :: b).takeWhile q = a ∧ (a ++ c :: b).dropWhile q = c :: b := by
  induction a with
  | nil => simp [List.takeWhile_cons, List.dropWhile_cons, hc]
  | cons x xs ih =>
    have hx := ha x (List.mem_cons_self x xs)
    have := ih (fun y hy => ha y (List.mem_cons_of_mem x hy))
    simp [List.takeWhile_cons, List.dropWhile_cons, hx, this.1, this.2]

/-- `takeWhile` over a text that satisfies the predicate throughout. -/
theorem takeWhile_all (q : Char → Bool) (a : List Char) (ha : ∀ x ∈ a, q x = true) :
    a.takeWhile q = a ∧ a.dropWhile q = [] := by
  induction a with
  | nil => simp
  | cons x xs ih =>
    have hx := ha x (List.mem_cons_self x xs)
    have := ih (fun y hy => ha y (List.mem_cons_of_mem x hy))
    simp [List.takeWhile_cons, List.dropWhile_cons, hx, this.1, this.2]

/-- The limit of the range test is `2^1024 - 2^970`. -/
theorem float64Limit_eq : float64Limit = (2 : ℚ) ^ 1024 - (2 : ℚ) ^ 970 := by
  unfold float64Limit
  norm_num

/-- `parseFloat` of a non-empty text of digits whose value is in range is the number the digits
denote. -/
theorem parseFloat_digits (ds : List Char) (hne : ds ≠ []) (h : ∀ c ∈ ds, c.isDigit = true)
    (hr : (digitsVal ds : ℚ) < float64Limit) :
    parseFloat ⟨ds⟩ = some (digitsVal ds : ℚ) := by
  unfold parseFloat
  simp only [(takeWhile_all Char.isDigit ds h).1, (takeWhile_all Char.isDigit ds h).2]
  rw [if_neg hne]
  unfold inFloat64Range
  rw [if_pos hr]

/-- `parseFloat` of a text of digits whose value is out of range is an error. -/
theorem parseFloat_digits_overflow (ds : List Char) (h : ∀ c ∈ ds, c.isDigit = true)
    (hr : float64Limit ≤ (digitsVal ds : ℚ)) : parseFloat ⟨ds⟩ = none := by
  unfold parseFloat
  simp only [(takeWhile_all Char.isDigit ds h).1, (takeWhile_all Char.isDigit ds h).2]
  unfold inFloat64Range
  rw [if_neg (not_lt.mpr hr)]
  split <;> rfl

/-- `parseFloat` of digits, a decimal point and digits, with a value in range, is the decimal
number written. -/
theorem parseFloat_decimal (ds fd : List Char) (hne : ds ≠ [])
    (h : ∀ c ∈ ds, c.isDigit = true) (hf : ∀ c ∈ fd, c.isDigit = true)
    (hr : (digitsVal ds : ℚ) + (digitsVal fd : ℚ) / (10 : ℚ) ^ fd.length < float64Limit) :
    parseFloat ⟨ds ++ '.' :: fd⟩ =
      some ((digitsVal ds : ℚ) + (digitsVal fd : ℚ) / (10 : ℚ) ^ fd.length) := by
  unfold parseFloat
  have hdot : Char.isDigit '.' = false := by decide
  simp only [(takeWhile_stopped Char.isDigit ds '.' fd h hdot).1,
    (takeWhile_stopped Char.isDigit ds '.' fd h hdot).2]
  rw [if_pos ⟨trivial, List.all_eq_true.mpr hf, Or.inl hne⟩]
  unfold inFloat64Range
  rw [if_pos hr]

/-- `parseFloat` of digits, a decimal point and digits, with a value out of range, is an
error. -/
theorem parseFloat_decimal_overflow (ds fd : List Char)
    (h : ∀ c ∈ ds, c.isDigit = true)
    (hr : float64Limit ≤ (digitsVal ds : ℚ) + (digitsVal fd : ℚ) / (10 : ℚ) ^ fd.length) :
    parseFloat ⟨ds ++ '.' :: fd⟩ = none := by
  unfold parseFloat
  have hdot : Char.isDigit '.' = false := by decide
  simp only [(takeWhile_stopped Char.isDigit ds '.' fd h hdot).1,
    (takeWhile_stopped Char.isDigit ds '.' fd h hdot).2]
  unfold inFloat64Range
  rw [if_neg (not_lt.mpr hr)]
  split <;> rfl

/-- The value of one decimal digit is at most 9. -/
theorem digit_le_nine (c : Char) (h : c.isDigit = true) : c.toNat - 48 ≤ 9 := by
  unfold Char.isDigit at h
  simp only [Bool.and_eq_true, decide_eq_true_eq] at h
  have h2 : c.val.toNat ≤ 57 := h.2
  show c.val.toNat - 48 ≤ 9
  omega

/-- One more digit at the end. -/
theorem digitsVal_append (ds : List Char) (c : Char) :
    digitsVal (ds ++ [c]) = 10 * digitsVal ds + (c.toNat - 48) := by
  unfold digitsVal
  rw [List.foldl_append]
  rfl

/-- A number of `n` digits is below `10 ^ n`. -/
theorem digitsVal_lt (ds : List Char) (h : ∀ c ∈ ds, c.isDigit = true) :
    digitsVal ds < 10 ^ ds.length := by
  induction ds using List.reverseRecOn with
  | nil => decide
  | append_singleton l c ih =>
    rw [digitsVal_append, List.length_append, List.length_singleton, pow_succ]
    have h1 := ih (fun x hx => h x (List.mem_append.mpr (Or.inl hx)))
    have h2 := digit_le_nine c (h c (List.mem_append.mpr (Or.inr (List.mem_singleton_self c))))
    omega

/-- Ten to the 308 is in the range of `float64`. -/
theorem pow_308_lt_limit : (10 : ℚ) ^ 308 < float64Limit := by
  unfold float64Limit
  norm_num

/-- Ten to the 310, less one, is out of the range of `float64`. -/
theorem limit_le_pow_310 : float64Limit ≤ (10 : ℚ) ^ 310 - 1 := by
  unfold float64Limit
  norm_num

/-- A decimal number whose integer part has at most 308 digits is in the range of
`float64`. -/
theorem inRange_of_length (ds fd : List Char) (h : ∀ c ∈ ds, c.isDigit = true)
    (hf : ∀ c ∈ fd, c.isDigit = true) (hlen : ds.length ≤ 308) :
    (digitsVal ds : ℚ) < float64Limit ∧
    (digitsVal ds : ℚ) + (digitsVal fd : ℚ) / (10 : ℚ) ^ fd.length < float64Limit := by
  have h0 : digitsVal ds + 1 ≤ 10 ^ ds.length := digitsVal_lt ds h
  have h0q : (digitsVal ds : ℚ) + 1 ≤ (10 : ℚ) ^ ds.length := by exact_mod_cast h0
  have h2 : (10 : ℚ) ^ ds.length ≤ (10 : ℚ) ^ 308 :=
    pow_le_pow_right₀ (by norm_num) hlen
  have hfrac : (digitsVal fd : ℚ) / (10 : ℚ) ^ fd.length < 1 := by
    rw [div_lt_one (by positivity)]
    exact_mod_cast digitsVal_lt fd hf
  have hnn : (0 : ℚ) ≤ (digitsVal fd : ℚ) / (10 : ℚ) ^ fd.length :=
    div_nonneg (Nat.cast_nonneg _) (pow_nonneg (by norm_num) _)
  have hlim := pow_308_lt_limit
  generalize float64Limit = lim at hlim ⊢
  generalize (10 : ℚ) ^ 308 = big at h2 hlim
  constructor
  · linarith
  · linarith

/-- The number written with `n` nines. -/
theorem digitsVal_nines (n : ℕ) : digitsVal (List.replicate n '9') + 1 = 10 ^ n := by
  induction n with
  | zero => rfl
  | succ k ih =>
    have hk : List.replicate (k + 1) '9' = List.replicate k '9' ++ ['9'] :=
      List.replicate_succ' k '9'
    have h9 : ('9' : Char).toNat - 48 = 9 := by decide
    rw [hk, digitsVal_append, h9, pow_succ]
    omega

/-- A text of nines consists of digits. -/
theorem nines_digits (n : ℕ) : ∀ c ∈ List.replicate n '9', c.isDigit = true := by
  intro c hc
  rw [(List.mem_replicate.mp hc).2]
  decide

/-- A text of 310 nines or more is out of the range of `float64`. -/
theorem nines_overflow (n : ℕ) (hn : 310 ≤ n) :
    float64Limit ≤ (digitsVal (List.replicate n '9') : ℚ) := by
  have h1 : (digitsVal (List.replicate n '9') : ℚ) = (10 : ℚ) ^ n - 1 := by
    have hq : ((digitsVal (List.replicate n '9') + 1 : ℕ) : ℚ) = ((10 ^ n : ℕ) : ℚ) := by
      rw [digitsVal_nines n]
    push_cast at hq
    linarith
  have h2 : (10 : ℚ) ^ 310 ≤ (10 : ℚ) ^ n := pow_le_pow_right₀ (by norm_num) hn
  have h3 := limit_le_pow_310
  rw [h1]
  linarith

/-- The cleaned text, as a string. -/
theorem cleanPriceText_eq (s : String) : cleanPriceText s = ⟨s.data.flatMap cleanChar⟩ :=
  String.ext (cleanPriceText_data s)

/-- C8 (failing input). The clean numeric string `1234.56` is normalised to 123456, not to the
value 1234.56 it denotes: its decimal point is removed as a thousands separator.  This is the
form in which the JSON-LD stage and the meta tag deliver a price: on a page whose only price is
the JSON-LD entry `"offers": {"price": 1299.90}`, the price text is `1299.90` and `GetPrice`
returns 129990.  What does hold is that a clean string without decimal point, with a value in
the range of `float64`, keeps its value. -/
theorem clean_decimal_not_preserved :
    parseFloat "1234.56" = some (123456 / 100 : ℚ) ∧
    parsePriceText "1234.56" = ((123456 : ℚ), none) ∧
    parsePriceText "1234.56" ≠ ((123456 / 100 : ℚ), none) ∧
    priceTextOf offersDecimalDocument = "1299.90" ∧
    parseFloat "1299.90" = some (129990 / 100 : ℚ) ∧
    MercadoLivreScraper.priceFromDocument offersDecimalDocument = ((129990 : ℚ), none) ∧
    MercadoLivreScraper.GetPrice (exampleWeb offersDecimalDocument)
      "https://mercadolivre.com.br/p/MLB1" = ((129990 : ℚ), none) ∧
    ∀ ds : List Char, ds ≠ [] → (∀ c ∈ ds, c.isDigit = true) →
      (digitsVal ds : ℚ) < float64Limit →
      parseFloat ⟨ds⟩ = some (digitsVal ds : ℚ) ∧
      parsePriceText ⟨ds⟩ = ((digitsVal ds : ℚ), none) := by
  have hclean : cleanPriceText "1234.56" = "123456" := by decide
  have hsmall : ∀ n : ℕ, n ≤ 1000000 → ((n : ℕ) : ℚ) < float64Limit := by
    intro n hn
    have h1 : ((n : ℕ) : ℚ) ≤ (1000000 : ℚ) := by exact_mod_cast hn
    have h2 : (1000000 : ℚ) ≤ (10 : ℚ) ^ 308 := by
      have : (10 : ℚ) ^ 6 ≤ (10 : ℚ) ^ 308 := pow_le_pow_right₀ (by norm_num) (by norm_num)
      calc (1000000 : ℚ) = (10 : ℚ) ^ 6 := by norm_num
        _ ≤ (10 : ℚ) ^ 308 := this
    exact lt_of_le_of_lt (h1.trans h2) pow_308_lt_limit
  have hparse : parseFloat "123456" = some (123456 : ℚ) := by
    have hv : digitsVal "123456".data = 123456 := by decide
    have h := parseFloat_digits "123456".data (by decide) (by decide)
      (by rw [hv]; exact hsmall 123456 (by norm_num))
    rw [hv] at h
    exact_mod_cast h
  have hdec : ∀ (a b : List Char) (x y : ℕ), a ≠ [] → (∀ c ∈ a, c.isDigit = true) →
      (∀ c ∈ b, c.isDigit = true) → digitsVal a = x → digitsVal b = y → b.length = 2 →
      x + 1 ≤ 1000000 → y < 100 →
      parseFloat ⟨a ++ '.' :: b⟩ = some ((x : ℚ) + (y : ℚ) / 100) := by
    intro a b x y ha hda hdb hx hy hl hx1 hy1
    have hr : (digitsVal a : ℚ) + (digitsVal b : ℚ) / (10 : ℚ) ^ b.length < float64Limit := by
      rw [hx, hy, hl]
      have h1 : (y : ℚ) / (10 : ℚ) ^ 2 < 1 := by
        rw [div_lt_one (by norm_num)]
        have : (y : ℚ) < 100 := by exact_mod_cast hy1
        linarith
      have h2 : ((x + 1 : ℕ) : ℚ) < float64Limit := hsmall (x + 1) hx1
      push_cast at h2
      linarith
    have h := parseFloat_decimal a b ha hda hdb hr
    rw [hx, hy, hl] at h
    rw [h]
    norm_num
  have hdirect : parseFloat "1234.56" = some (123456 / 100 : ℚ) := by
    have h := hdec "1234".data "56".data 1234 56 (by decide) (by decide) (by decide)
      (by decide) (by decide) (by decide) (by norm_num) (by norm_num)
    have he : ((1234 : ℕ) : ℚ) + ((56 : ℕ) : ℚ) / 100 = 123456 / 100 := by norm_num
    rw [he] at h
    exact h
  have hdirect2 : parseFloat "1299.90" = some (129990 / 100 : ℚ) := by
    have h := hdec "1299".data "90".data 1299 90 (by decide) (by decide) (by decide)
      (by decide) (by decide) (by decide) (by norm_num) (by norm_num)
    have he : ((1299 : ℕ) : ℚ) + ((90 : ℕ) : ℚ) / 100 = 129990 / 100 := by norm_num
    rw [he] at h
    exact h
  have hval : parsePriceText "1234.56" = ((123456 : ℚ), none) := by
    unfold parsePriceText
    rw [hclean, hparse]
  have hne : parsePriceText "1234.56" ≠ ((123456 / 100 : ℚ), none) := by
    rw [hval]
    intro h
    have := congrArg Prod.fst h
    norm_num at this
  refine ⟨hdirect, hval, hne, by decide, hdirect2, by decide, by decide, ?_⟩
  intro ds hne h hr
  refine ⟨parseFloat_digits ds hne h hr, ?_⟩
  unfold parsePriceText
  rw [cleanPriceText_eq]
  simp only [flatMap_cleanChar_digits ds h]
  rw [parseFloat_digits ds hne h hr]

/-- C9 (counterexample). A price text of 310 digits is in Brazilian format, but its value is out
of the range of `float64`: the normalisation ends in the parse error, not in the number. -/
theorem price_text_out_of_range :
    (∀ c ∈ List.replicate 310 '9', c.isDigit = true) ∧
    cleanPriceText ⟨List.replicate 310 '9'⟩ = ⟨List.replicate 310 '9'⟩ ∧
    float64Limit ≤ (digitsVal (List.replicate 310 '9') : ℚ) ∧
    parseFloat ⟨List.replicate 310 '9'⟩ = none ∧
    parsePriceText ⟨List.replicate 310 '9'⟩ =
      (0, some (GoError.parsePrice ⟨List.replicate 310 '9'⟩)) := by
  have hd := nines_digits 310
  have hr := nines_overflow 310 (le_refl 310)
  generalize List.replicate 310 '9' = t at hd hr
  have hclean : cleanPriceText ⟨t⟩ = ⟨t⟩ := by
    rw [cleanPriceText_eq, flatMap_cleanChar_digits t hd]
  have hp := parseFloat_digits_overflow t hd hr
  refine ⟨hd, hclean, hr, hp, ?_⟩
  unfold parsePriceText
  rw [hclean, hp]

/-- C9 (amended). For every price text in Brazilian format (an integer part made of digits and
`.` separators with at least one digit, optionally followed by `,` and decimal digits,
surrounded by characters that are neither digits nor `.` nor `,`): when the number whose
integer part is the concatenated integer digits and whose fraction is the decimal digits is in
the range of `float64` (below `float64Limit`, which holds when the integer part has at most 308
digits), the normalisation of `GetPrice` yields exactly that number without error; when it is
out of range the normalisation yields the parse error. -/
theorem brazilian_price_text (pre ip fd suf : List Char)
    (hpre : ∀ c ∈ pre, c.isDigit = false ∧ c ≠ '.' ∧ c ≠ ',')
    (hsuf : ∀ c ∈ suf, c.isDigit = false ∧ c ≠ '.' ∧ c ≠ ',')
    (hip : ∀ c ∈ ip, c.isDigit = true ∨ c = '.')
    (hdigit : ∃ c ∈ ip, c.isDigit = true)
    (hfd : ∀ c ∈ fd, c.isDigit = true) :
    ((digitsVal (ip.filter Char.isDigit) : ℚ) < float64Limit →
      parsePriceText ⟨pre ++ ip ++ suf⟩ = ((digitsVal (ip.filter Char.isDigit) : ℚ), none)) ∧
    ((digitsVal (ip.filter Char.isDigit) : ℚ) + (digitsVal fd : ℚ) / (10 : ℚ) ^ fd.length <
        float64Limit →
      parsePriceText ⟨pre ++ ip ++ ',' :: fd ++ suf⟩ =
        ((digitsVal (ip.filter Char.isDigit) : ℚ) + (digitsVal fd : ℚ) / (10 : ℚ) ^ fd.length,
          none)) ∧
    ((ip.filter Char.isDigit).length ≤ 308 →
      parsePriceText ⟨pre ++ ip ++ suf⟩ = ((digitsVal (ip.filter Char.isDigit) : ℚ), none) ∧
      parsePriceText ⟨pre ++ ip ++ ',' :: fd ++ suf⟩ =
        ((digitsVal (ip.filter Char.isDigit) : ℚ) + (digitsVal fd : ℚ) / (10 : ℚ) ^ fd.length,
          none)) ∧
    (float64Limit ≤ (digitsVal (ip.filter Char.isDigit) : ℚ) →
      (parsePriceText ⟨pre ++ ip ++ suf⟩).2 ≠ none) ∧
    (float64Limit ≤
        (digitsVal (ip.filter Char.isDigit) : ℚ) + (digitsVal fd : ℚ) / (10 : ℚ) ^ fd.length →
      (parsePriceText ⟨pre ++ ip ++ ',' :: fd ++ suf⟩).2 ≠ none) := by
  have hall : ∀ c ∈ ip.filter Char.isDigit, c.isDigit = true := by
    intro c hc
    exact (List.mem_filter.mp hc).2
  have hne : ip.filter Char.isDigit ≠ [] := by
    obtain ⟨c, hc, hd⟩ := hdigit
    exact List.ne_nil_of_mem (List.mem_filter.mpr ⟨hc, hd⟩)
  have hcomma : cleanChar ',' = ['.'] := by decide
  have hc1 : cleanPriceText ⟨pre ++ ip ++ suf⟩ = ⟨ip.filter Char.isDigit⟩ := by
    rw [cleanPriceText_eq]
    simp only [List.flatMap_append, flatMap_cleanChar_other pre hpre,
      flatMap_cleanChar_other suf hsuf, flatMap_cleanChar_grouped ip hip, List.nil_append,
      List.append_nil]
  have hc2 : cleanPriceText ⟨pre ++ ip ++ ',' :: fd ++ suf⟩ =
      ⟨ip.filter Char.isDigit ++ '.' :: fd⟩ := by
    rw [cleanPriceText_eq]
    simp only [List.append_assoc, List.cons_append, List.flatMap_append, List.flatMap_cons,
      flatMap_cleanChar_other pre hpre, flatMap_cleanChar_other suf hsuf,
      flatMap_cleanChar_grouped ip hip, flatMap_cleanChar_digits fd hfd, hcomma,
      List.nil_append, List.append_nil, List.singleton_append]
  have h1 : (digitsVal (ip.filter Char.isDigit) : ℚ) < float64Limit →
      parsePriceText ⟨pre ++ ip ++ suf⟩ =
        ((digitsVal (ip.filter Char.isDigit) : ℚ), none) := by
    intro hr
    unfold parsePriceText
    rw [hc1, parseFloat_digits _ hne hall hr]
  have h2 : (digitsVal (ip.filter Char.isDigit) : ℚ) + (digitsVal fd : ℚ) / (10 : ℚ) ^ fd.length <
      float64Limit →
      parsePriceText ⟨pre ++ ip ++ ',' :: fd ++ suf⟩ =
        ((digitsVal (ip.filter Char.isDigit) : ℚ) + (digitsVal fd : ℚ) / (10 : ℚ) ^ fd.length,
          none) := by
    intro hr
    unfold parsePriceText
    rw [hc2, parseFloat_decimal _ fd hne hall hfd hr]
  refine ⟨h1, h2, ?_, ?_, ?_⟩
  · intro hlen
    have hr := inRange_of_length _ fd hall hfd hlen
    exact ⟨h1 hr.1, h2 hr.2⟩
  · intro hr
    unfold parsePriceText
    rw [hc1, parseFloat_digits_overflow _ hall hr]
    simp
  · intro hr
    unfold parsePriceText
    rw [hc2, parseFloat_decimal_overflow _ fd hall hr]
    simp

/-- Witness of C9 (amended): `1.234,56` yields 1234.56 and `17% OFF` yields 17. -/
theorem brazilian_price_text_witness :
    parsePriceText "1.234,56" = ((123456 / 100 : ℚ), none) ∧
    parsePriceText "17% OFF" = ((17 : ℚ), none) := by
  have h1 := ((brazilian_price_text [] "1.234".data "56".data [] (by decide) (by decide)
    (by decide) (by decide) (by decide)).2.2.1 (by decide)).2
  have h2 := ((brazilian_price_text [] "17".data [] "% OFF".data (by decide) (by decide)
    (by decide) (by decide) (by decide)).2.2.1 (by decide)).1
  have hv1 : digitsVal ("1.234".data.filter Char.isDigit) = 1234 := by decide
  have hv2 : digitsVal "56".data = 56 := by decide
  have hl : "56".data.length = 2 := by decide
  have hv3 : digitsVal ("17".data.filter Char.isDigit) = 17 := by decide
  rw [hv1, hv2, hl] at h1
  rw [hv3] at h2
  have he : ((1234 : ℕ) : ℚ) + ((56 : ℕ) : ℚ) / (10 : ℚ) ^ 2 = 123456 / 100 := by norm_num
  rw [he] at h1
  constructor
  · exact h1
  · exact_mod_cast h2

/-! ### The promotional stage of the cascade -/

/-- The `Each` callback keeps a text already found. -/
theorem firstNonBlank_of_ne (els : List Element) (acc : String) (h : acc ≠ "") :
    firstNonBlank els acc = acc := by
  unfold firstNonBlank
  induction els with
  | nil => rfl
  | cons e es ih => rw [List.foldl_cons, if_neg h]; exact ih

/-- Starting from the empty text, the `Each` callback ends with the trimmed text of the first
element whose trimmed text is not empty. -/
theorem firstNonBlank_empty (els : List Element) :
    firstNonBlank els "" =
      match els.find? (fun e => decide (TrimSpace e.text ≠ "")) with
      | some e => TrimSpace e.text
      | none => "" := by
  induction els with
  | nil => rfl
  | cons e es ih =>
    by_cases h : TrimSpace e.text ≠ ""
    · have hstep : firstNonBlank (e :: es) "" = firstNonBlank es (TrimSpace e.text) := by
        unfold firstNonBlank
        rw [List.foldl_cons]
        simp only [if_true, if_pos h]
      rw [hstep, firstNonBlank_of_ne es _ h, List.find?_cons_of_pos _ (by simpa using h)]
    · have hstep : firstNonBlank (e :: es) "" = firstNonBlank es "" := by
        unfold firstNonBlank
        rw [List.foldl_cons]
        simp only [if_true, if_neg h]
      rw [hstep, ih, List.find?_cons_of_neg _ (by simpa using h)]

/-- The promotional loop ends with the text found under the first selector that has an element
with non-blank text. -/
theorem findPromotional_empty (doc : Document) (sels : List String) :
    findPromotional doc sels "" =
      match sels.find? (fun sel =>
        (doc.find sel).any (fun e => decide (TrimSpace e.text ≠ ""))) with
      | some sel => firstNonBlank (doc.find sel) ""
      | none => "" := by
  induction sels with
  | nil => rfl
  | cons sel rest ih =>
    unfold findPromotional
    simp only
    by_cases h : (doc.find sel).any (fun e => decide (TrimSpace e.text ≠ "")) = true
    · have hfind : (sel :: rest).find? (fun sel =>
          (doc.find sel).any (fun e => decide (TrimSpace e.text ≠ ""))) = some sel := by
        rw [List.find?_cons, h]
      rw [hfind]
      have hne : firstNonBlank (doc.find sel) "" ≠ "" := by
        rw [firstNonBlank_empty]
        obtain ⟨e, he, hp⟩ := List.any_eq_true.mp h
        cases hf : (doc.find sel).find? (fun e => decide (TrimSpace e.text ≠ "")) with
        | none =>
          have := List.find?_eq_none.mp hf e he
          exact absurd hp this
        | some e1 =>
          have := List.find?_some hf
          simpa using this
      rw [if_pos hne]
    · have hfind : (sel :: rest).find? (fun sel =>
          (doc.find sel).any (fun e => decide (TrimSpace e.text ≠ ""))) =
          rest.find? (fun sel =>
            (doc.find sel).any (fun e => decide (TrimSpace e.text ≠ ""))) := by
        have hf : (doc.find sel).any (fun e => decide (TrimSpace e.text ≠ "")) = false := by
          simpa using h
        rw [List.find?_cons, hf]
      rw [hfind]
      have heq : firstNonBlank (doc.find sel) "" = "" := by
        rw [firstNonBlank_empty]
        cases hf : (doc.find sel).find? (fun e => decide (TrimSpace e.text ≠ "")) with
        | none => rfl
        | some e1 =>
          exfalso
          apply h
          have hp := List.find?_some hf
          exact List.any_eq_true.mpr ⟨e1, List.mem_of_find?_eq_some hf, hp⟩
      rw [if_neg (by rw [heq]; exact fun hn => hn rfl), heq]
      exact ih

/-- C10. Cascade short-circuit. When some promotional selector matches an element with non-blank
text, let `sel` be the first such selector (list order) and `e` its first such element (document
order): the price text used is the trimmed text of `e`, and the result of `GetPrice`, on the
parsed page and through a successful fetch, is the normalisation of that text, whatever the
general selectors, the attributes and the JSON-LD blocks of the page contain. -/
theorem promotional_short_circuit (doc : Document) (sel : String) (e : Element)
    (hsel : promotionalSelectors.find? (fun sel =>
      (doc.find sel).any (fun e => decide (TrimSpace e.text ≠ ""))) = some sel)
    (he : (doc.find sel).find? (fun e => decide (TrimSpace e.text ≠ "")) = some e) :
    priceTextOf doc = TrimSpace e.text ∧
    MercadoLivreScraper.priceFromDocument doc = parsePriceText (TrimSpace e.text) ∧
    ∀ (web : String → Response) (url : String),
      web (MercadoLivreScraper.cleanURL url) = Response.received 200 (some doc) →
      MercadoLivreScraper.GetPrice web url = parsePriceText (TrimSpace e.text) := by
  have hne : TrimSpace e.text ≠ "" := by
    have := List.find?_some he
    simpa using this
  have hprom : findPromotional doc promotionalSelectors "" = TrimSpace e.text := by
    rw [findPromotional_empty, hsel]
    simp only
    rw [firstNonBlank_empty, he]
  have htext : priceTextOf doc = TrimSpace e.text := by
    unfold priceTextOf
    simp only [hprom, if_pos hne, if_neg hne]
  have hdoc : MercadoLivreScraper.priceFromDocument doc = parsePriceText (TrimSpace e.text) := by
    unfold MercadoLivreScraper.priceFromDocument
    simp only [htext, if_neg hne]
  refine ⟨htext, hdoc, ?_⟩
  intro web url hweb
  unfold MercadoLivreScraper.GetPrice
  rw [hweb]
  simp only [ne_eq, not_true_eq_false, if_false]
  exact hdoc

/-- Witness of C10: on `exampleDocument` the price is that of the promotional element,
`R$ 1.234,56`, not one of the prices 5, 7 or 3 offered by the later stages. -/
theorem promotional_short_circuit_witness :
    priceTextOf exampleDocument = "R$ 1.234,56" ∧
    MercadoLivreScraper.priceFromDocument exampleDocument = parsePriceText "R$ 1.234,56" :=
  have h := promotional_short_circuit exampleDocument
    ".ui-pdp-price__second-line .andes-money-amount" { text := " R$ 1.234,56 ", attrs := [] }
    (by decide) (by decide)
  ⟨h.1, h.2.1⟩

/-! ### The registry -/

/-- C19. `Registry.FindScraper` either returns nil, and then no registered scraper can handle the
URL, or returns a scraper `s` that can handle it and stands in the registration list after
scrapers that all cannot (it is the first in registration order); it returns nil if and only if no
registered scraper can handle the URL. -/
theorem FindScraper_first (r : Registry) (url : String) :
    ((r.FindScraper url = none ∧ ∀ s ∈ r.scrapers, s.CanHandle url = false) ∨
      ∃ pre s post, r.scrapers = pre ++ s :: post ∧ (∀ t ∈ pre, t.CanHandle url = false) ∧
        s.CanHandle url = true ∧ r.FindScraper url = some s) ∧
    (r.FindScraper url = none ↔ ∀ s ∈ r.scrapers, s.CanHandle url = false) := by
  unfold Registry.FindScraper
  have hnone : List.find? (fun s => s.CanHandle url) r.scrapers = none ↔
      ∀ s ∈ r.scrapers, s.CanHandle url = false := by
    rw [List.find?_eq_none]
    simp
  refine ⟨?_, hnone⟩
  cases hf : List.find? (fun s => s.CanHandle url) r.scrapers with
  | none => exact Or.inl ⟨rfl, hnone.mp hf⟩
  | some s =>
    right
    rw [List.find?_eq_some] at hf
    obtain ⟨hs, pre, post, hsplit, hpre⟩ := hf
    refine ⟨pre, s, post, hsplit, ?_, hs, rfl⟩
    intro t ht
    simpa using hpre t ht

/-- The infix test holds exactly when the text splits around an occurrence of `sub`. -/
theorem infixOf_iff (sub s : List Char) :
    infixOf sub s = true ↔ ∃ a b, s = a ++ sub ++ b := by
  induction s with
  | nil =>
    unfold infixOf
    rw [List.isPrefixOf_iff_prefix]
    constructor
    · intro h
      have := List.prefix_nil.mp h
      exact ⟨[], [], by simp [this]⟩
    · rintro ⟨a, b, h⟩
      have h' := congrArg List.length h
      simp at h'
      have : sub = [] := List.length_eq_zero.mp (by omega)
      simp [this]
  | cons c cs ih =>
    unfold infixOf
    rw [Bool.or_eq_true, ih, List.isPrefixOf_iff_prefix]
    constructor
    · rintro (⟨b, hb⟩ | ⟨a, b, h⟩)
      · exact ⟨[], b, by simp [hb]⟩
      · exact ⟨c :: a, b, by simp [h]⟩
    · rintro ⟨a, b, h⟩
      cases a with
      | nil => left; exact ⟨b, by simpa using h.symm⟩
      | cons x a =>
        right
        simp at h
        exact ⟨a, b, by simp [h.2]⟩

/-- `HasPrefix` holds exactly when the text starts with `start`. -/
theorem HasPrefix_iff (s start : String) :
    HasPrefix s start = true ↔ ∃ b, s.data = start.data ++ b := by
  unfold HasPrefix
  rw [List.isPrefixOf_iff_prefix]
  constructor
  · rintro ⟨b, hb⟩; exact ⟨b, hb.symm⟩
  · rintro ⟨b, hb⟩; exact ⟨b, hb.symm⟩

/-- `Contains` holds exactly when `sub` occurs somewhere in the text. -/
theorem Contains_iff (s sub : String) :
    Contains s sub = true ↔ ∃ a b, s.data = a ++ sub.data ++ b := infixOf_iff _ _

/-- `CanHandle` is the substring test: a URL that passes a prefix test also contains the host. -/
theorem CanHandle_eq (url : String) :
    MercadoLivreScraper.CanHandle url = Contains url "mercadolivre.com.br" := by
  unfold MercadoLivreScraper.CanHandle
  cases hc : Contains url "mercadolivre.com.br" with
  | true => simp
  | false =>
    have h1 : HasPrefix url "https://mercadolivre.com.br/" = false := by
      cases h : HasPrefix url "https://mercadolivre.com.br/" with
      | false => rfl
      | true =>
        obtain ⟨b, hb⟩ := (HasPrefix_iff _ _).mp h
        have : Contains url "mercadolivre.com.br" = true :=
          (Contains_iff _ _).mpr ⟨"https://".data, "/".data ++ b, by rw [hb]; simp⟩
        rw [hc] at this
        exact absurd this (by decide)
    have h2 : HasPrefix url "http://mercadolivre.com.br/" = false := by
      cases h : HasPrefix url "http://mercadolivre.com.br/" with
      | false => rfl
      | true =>
        obtain ⟨b, hb⟩ := (HasPrefix_iff _ _).mp h
        have : Contains url "mercadolivre.com.br" = true :=
          (Contains_iff _ _).mpr ⟨"http://".data, "/".data ++ b, by rw [hb]; simp⟩
        rw [hc] at this
        exact absurd this (by decide)
    rw [h1, h2]
    rfl

/-- C20. `MercadoLivreScraper.CanHandle` equals the test that the URL contains
`mercadolivre.com.br` (its two prefix tests never change the result), that test holds exactly
when the host text occurs somewhere in the URL, `FindScraper` on the default registry is nil
exactly for the URLs that fail the test, and it is nil for `https://example.com/x`. -/
theorem default_registry_substring (web : String → Response) (url : String) :
    MercadoLivreScraper.CanHandle url = Contains url "mercadolivre.com.br" ∧
    (Contains url "mercadolivre.com.br" = true ↔
      ∃ a b, url.data = a ++ "mercadolivre.com.br".data ++ b) ∧
    ((NewRegistry web).FindScraper url = none ↔ Contains url "mercadolivre.com.br" = false) ∧
    (NewRegistry web).FindScraper "https://example.com/x" = none := by
  refine ⟨CanHandle_eq url, Contains_iff _ _, ?_, ?_⟩
  · unfold Registry.FindScraper NewRegistry NewMercadoLivreScraper
    simp only [List.find?_cons, List.find?_nil, CanHandle_eq]
    cases Contains url "mercadolivre.com.br" <;> simp
  · unfold Registry.FindScraper NewRegistry NewMercadoLivreScraper
    have h : MercadoLivreScraper.CanHandle "https://example.com/x" = false := by decide
    simp only [List.find?_cons, List.find?_nil, h]

/-! ### Results of the scraper on particular pages -/

/-- A parsed price is never negative. -/
theorem parseFloat_nonneg (s : String) (v : ℚ) (h : parseFloat s = some v) : 0 ≤ v := by
  have hr : ∀ w : ℚ, 0 ≤ w → inFloat64Range w = some v → 0 ≤ v := by
    intro w hw hv
    unfold inFloat64Range at hv
    split at hv
    · rw [← Option.some.inj hv]; exact hw
    · exact absurd hv (by simp)
  unfold parseFloat at h
  simp only at h
  split at h
  · split at h
    · exact absurd h (by simp)
    · exact hr _ (Nat.cast_nonneg _) h
  · split at h
    · exact hr _ (by positivity) h
    · exact absurd h (by simp)

/-- C13 (failing input). On a page that reaches stage 4 with two JSON-LD blocks, the first with a
price 10 under `offers` (the offers pattern matches it) and the second with a bare top-level
price 99 (the offers pattern does not match it), the price text chosen is the bare `99`, and
`GetPrice` returns 99: the later block overwrites the offers price. -/
theorem jsonld_last_block_wins :
    ((twoBlockDocument.find "script[type=\x27application/ld+json\x27]").map
      (fun e => Re.findSubmatch offersRe e.text.data) = [some ["10".data], none]) ∧
    findPromotional twoBlockDocument promotionalSelectors "" = "" ∧
    generalPriceText twoBlockDocument = "" ∧
    attributePriceText twoBlockDocument = "" ∧
    priceTextOf twoBlockDocument = "99" ∧
    MercadoLivreScraper.priceFromDocument twoBlockDocument = (99, none) ∧
    MercadoLivreScraper.GetPrice (exampleWeb twoBlockDocument)
      "https://mercadolivre.com.br/p/MLB1" = (99, none) := by
  refine ⟨by decide, by decide, by decide, by decide, by decide, by decide, by decide⟩

/-- C14 (failing input). On a page whose promotional price element reads `0`, `GetPrice` returns
the price 0 with a nil error.  What holds on every page is that a price returned without error
is not negative and comes from a non-empty price text. -/
theorem zero_price_without_error :
    priceTextOf zeroPriceDocument = "0" ∧
    MercadoLivreScraper.priceFromDocument zeroPriceDocument = (0, none) ∧
    MercadoLivreScraper.GetPrice (exampleWeb zeroPriceDocument)
      "https://mercadolivre.com.br/p/MLB1" = (0, none) ∧
    ∀ doc : Document, (MercadoLivreScraper.priceFromDocument doc).2 = none →
      priceTextOf doc ≠ "" ∧ 0 ≤ (MercadoLivreScraper.priceFromDocument doc).1 := by
  refine ⟨by decide, by decide, by decide, ?_⟩
  intro doc h
  unfold MercadoLivreScraper.priceFromDocument at h ⊢
  by_cases ht : priceTextOf doc = ""
  · simp only [ht, if_true] at h
    exact absurd h (by simp)
  · refine ⟨ht, ?_⟩
    simp only [if_neg ht]
    unfold parsePriceText
    cases hp : parseFloat (cleanPriceText (priceTextOf doc)) with
    | none => exact le_refl _
    | some v => exact parseFloat_nonneg _ v hp

/-- C17 (failing input). On a page whose discount element reads `150% OFF`, `GetDiscount` returns
150 with a nil error, which is above 100.  What holds on every page is the lower bound: the
discount returned is not negative. -/
theorem discount_above_hundred :
    findDiscountText bigDiscountDocument discountSelectors "" = "150% OFF" ∧
    MercadoLivreScraper.discountFromDocument bigDiscountDocument = (150, none) ∧
    MercadoLivreScraper.GetDiscount (exampleWeb bigDiscountDocument)
      "https://mercadolivre.com.br/p/MLB1" = (150, none) ∧
    ¬ ((MercadoLivreScraper.discountFromDocument bigDiscountDocument).1 ≤ 100) ∧
    ∀ doc : Document, 0 ≤ (MercadoLivreScraper.discountFromDocument doc).1 := by
  refine ⟨by decide, by decide, by decide, by decide, ?_⟩
  intro doc
  unfold MercadoLivreScraper.discountFromDocument parseDiscountText
  split
  · exact le_refl _
  · split
    · rename_i g _ _
      cases hp : parseFloat ⟨g⟩ with
      | none => exact le_refl _
      | some v => exact parseFloat_nonneg _ v hp
    · exact le_refl _

/-! ### Minimum and maximum of the candidate prices -/

/-- One round of the loop of `pickMin`. -/
theorem pickMin_snoc (l : List String) (x : String) :
    pickMin (l ++ [x]) =
      match parseFloat (cleanPriceText x) with
      | some val => if (pickMin l).1 < 0 ∨ val < (pickMin l).1 then (val, x) else pickMin l
      | none => pickMin l := by
  unfold pickMin
  rw [List.foldl_append]
  rfl

/-- Result of `pickMin`: either no text parses and the state is the initial one, or the
state holds the earliest text of least parsed value. -/
theorem pickMin_cases (l : List String) :
    ((∀ q ∈ l, parseFloat (cleanPriceText q) = none) ∧ pickMin l = ((-1 : ℚ), "")) ∨
    ∃ a p b v, l = a ++ p :: b ∧ pickMin l = (v, p) ∧ parseFloat (cleanPriceText p) = some v ∧
      (∀ q ∈ a, ∀ w, parseFloat (cleanPriceText q) = some w → v < w) ∧
      (∀ q ∈ b, ∀ w, parseFloat (cleanPriceText q) = some w → v ≤ w) := by
  induction l using List.reverseRecOn with
  | nil => exact Or.inl ⟨by simp, rfl⟩
  | append_singleton l x ih =>
    rw [pickMin_snoc]
    cases hx : parseFloat (cleanPriceText x) with
    | none =>
      simp only
      rcases ih with ⟨hall, hst⟩ | ⟨a, p, b, v, hl, hst, hp, ha, hb⟩
      · left
        refine ⟨?_, hst⟩
        intro q hq
        rcases List.mem_append.mp hq with h | h
        · exact hall q h
        · rw [List.mem_singleton.mp h]; exact hx
      · right
        refine ⟨a, p, b ++ [x], v, by rw [hl]; simp, hst, hp, ha, ?_⟩
        intro q hq w hw
        rcases List.mem_append.mp hq with h | h
        · exact hb q h w hw
        · rw [List.mem_singleton.mp h, hx] at hw
          exact absurd hw (by simp)
    | some val =>
      simp only
      right
      rcases ih with ⟨hall, hst⟩ | ⟨a, p, b, v, hl, hst, hp, ha, hb⟩
      · rw [hst, if_pos (Or.inl (by norm_num))]
        refine ⟨l, x, [], val, rfl, rfl, hx, ?_, by simp⟩
        intro q hq w hw
        rw [hall q hq] at hw
        exact absurd hw (by simp)
      · have hv : 0 ≤ v := parseFloat_nonneg _ _ hp
        rw [hst]
        by_cases hlt : val < v
        · rw [if_pos (Or.inr hlt)]
          refine ⟨l, x, [], val, rfl, rfl, hx, ?_, by simp⟩
          intro q hq w hw
          rw [hl] at hq
          rcases List.mem_append.mp hq with h | h
          · exact lt_trans hlt (ha q h w hw)
          · rcases List.mem_cons.mp h with h | h
            · rw [h, hp] at hw
              rw [← Option.some.inj hw]; exact hlt
            · exact lt_of_lt_of_le hlt (hb q h w hw)
        · rw [if_neg (by
            intro h
            rcases h with h | h
            · exact absurd hv (not_le.mpr h)
            · exact hlt h)]
          refine ⟨a, p, b ++ [x], v, by rw [hl]; simp, rfl, hp, ha, ?_⟩
          intro q hq w hw
          rcases List.mem_append.mp hq with h | h
          · exact hb q h w hw
          · rw [List.mem_singleton.mp h, hx] at hw
            rw [← Option.some.inj hw]
            exact not_lt.mp hlt

/-- The texts collected over the general selectors are not empty. -/
theorem collectPrices_ne (doc : Document) (p : String) (h : p ∈ collectPrices doc) : p ≠ "" := by
  unfold collectPrices at h
  rw [List.mem_flatMap] at h
  obtain ⟨sel, _, hp⟩ := h
  have := (List.mem_filter.mp hp).2
  simpa using this

/-- The promotional loop ends with the empty text when every element it selects is blank. -/
theorem findPromotional_blank (doc : Document)
    (hprom : ∀ sel ∈ promotionalSelectors, ∀ e ∈ doc.find sel, TrimSpace e.text = "") :
    findPromotional doc promotionalSelectors "" = "" := by
  rw [findPromotional_empty]
  have : promotionalSelectors.find? (fun sel =>
      (doc.find sel).any (fun e => decide (TrimSpace e.text ≠ ""))) = none := by
    rw [List.find?_eq_none]
    intro sel hsel
    simp only [List.any_eq_true, not_exists, not_and, Bool.not_eq_true, decide_eq_false_iff_not,
      ne_eq, not_not, decide_eq_true_eq]
    intro e he
    exact hprom sel hsel e he
  rw [this]

/-- Without a promotional text, a non-empty text of stage 2 is the price text. -/
theorem priceTextOf_general (doc : Document)
    (hprom : ∀ sel ∈ promotionalSelectors, ∀ e ∈ doc.find sel, TrimSpace e.text = "")
    (hne : generalPriceText doc ≠ "") : priceTextOf doc = generalPriceText doc := by
  unfold priceTextOf
  simp only [findPromotional_blank doc hprom, ne_eq, not_true_eq_false, if_false, if_neg hne]

/-- C11. Stage 2 of `GetPrice`, on a page where every element of the promotional selectors is
blank.  When the general selectors collect exactly one non-blank text, it is the price text.
When they collect two or more, of which at least one parses after cleaning, the price text is a
candidate `p` whose value `v` is strictly below the value of every parsable candidate before it
and at most the value of every parsable candidate after it (the earliest minimum), and
`GetPrice` returns `v` without error. -/
theorem general_stage_minimum (doc : Document)
    (hprom : ∀ sel ∈ promotionalSelectors, ∀ e ∈ doc.find sel, TrimSpace e.text = "") :
    (∀ p, collectPrices doc = [p] →
      priceTextOf doc = p ∧ MercadoLivreScraper.priceFromDocument doc = parsePriceText p) ∧
    (2 ≤ (collectPrices doc).length →
      (∃ q ∈ collectPrices doc, parseFloat (cleanPriceText q) ≠ none) →
      ∃ a p b v, collectPrices doc = a ++ p :: b ∧ priceTextOf doc = p ∧
        parseFloat (cleanPriceText p) = some v ∧
        (∀ q ∈ a, ∀ w, parseFloat (cleanPriceText q) = some w → v < w) ∧
        (∀ q ∈ b, ∀ w, parseFloat (cleanPriceText q) = some w → v ≤ w) ∧
        MercadoLivreScraper.priceFromDocument doc = (v, none)) := by
  constructor
  · intro p hp
    have hne : p ≠ "" := collectPrices_ne doc p (by rw [hp]; exact List.mem_singleton_self p)
    have hg : generalPriceText doc = p := by
      unfold generalPriceText
      simp only [hp]
    have ht : priceTextOf doc = p := by
      rw [priceTextOf_general doc hprom (by rw [hg]; exact hne), hg]
    refine ⟨ht, ?_⟩
    unfold MercadoLivreScraper.priceFromDocument
    simp only [ht, if_neg hne]
  · intro hlen hex
    rcases pickMin_cases (collectPrices doc) with ⟨hall, _⟩ | ⟨a, p, b, v, hl, hst, hp, ha, hb⟩
    · obtain ⟨q, hq, hqn⟩ := hex
      exact absurd (hall q hq) hqn
    · have hne : p ≠ "" := collectPrices_ne doc p (by rw [hl]; simp)
      have hg : generalPriceText doc = p := by
        unfold generalPriceText
        simp only
        split
        · rename_i h; rw [h] at hlen; simp at hlen
        · rename_i h; rw [h] at hlen; simp at hlen
        · rw [hst]
      have ht : priceTextOf doc = p := by
        rw [priceTextOf_general doc hprom (by rw [hg]; exact hne), hg]
      refine ⟨a, p, b, v, hl, ht, hp, ha, hb, ?_⟩
      unfold MercadoLivreScraper.priceFromDocument
      simp only [ht, if_neg hne]
      unfold parsePriceText
      rw [hp]

/-- Witness of C11: `singlePriceDocument` has the one candidate `R$ 5`; `twoPriceDocument` has the
candidates `R$ 80`, `R$ 100` and `sem juros`, and the price returned is 80. -/
theorem general_stage_minimum_witness :
    (priceTextOf singlePriceDocument = "R$ 5" ∧
      MercadoLivreScraper.priceFromDocument singlePriceDocument = parsePriceText "R$ 5") ∧
    (∃ a p b v, collectPrices twoPriceDocument = a ++ p :: b ∧ priceTextOf twoPriceDocument = p ∧
        parseFloat (cleanPriceText p) = some v ∧
        (∀ q ∈ a, ∀ w, parseFloat (cleanPriceText q) = some w → v < w) ∧
        (∀ q ∈ b, ∀ w, parseFloat (cleanPriceText q) = some w → v ≤ w) ∧
        MercadoLivreScraper.priceFromDocument twoPriceDocument = (v, none)) ∧
    MercadoLivreScraper.priceFromDocument twoPriceDocument = (80, none) :=
  ⟨(general_stage_minimum singlePriceDocument (by decide)).1 "R$ 5" (by decide),
   (general_stage_minimum twoPriceDocument (by decide)).2 (by decide)
     ⟨"R$ 80", by decide, by decide⟩,
   by decide⟩

/-- The texts of `nonBlankTexts` are not empty. -/
theorem nonBlankTexts_ne (els : List Element) (t : String) (h : t ∈ nonBlankTexts els) :
    t ≠ "" := by
  unfold nonBlankTexts at h
  simpa using (List.mem_filter.mp h).2

/-- `nonBlankTexts` element by element. -/
theorem nonBlankTexts_cons (e : Element) (es : List Element) :
    nonBlankTexts (e :: es) =
      if TrimSpace e.text ≠ "" then TrimSpace e.text :: nonBlankTexts es
      else nonBlankTexts es := by
  unfold nonBlankTexts
  rw [List.map_cons, List.filter_cons]
  by_cases h : TrimSpace e.text = "" <;> simp [h]

/-- The `Each` loop of one selector: the candidate texts are appended, and a tagged selector
sets an empty original-price text to its first candidate. -/
theorem originalStep_fold (sel : String) (els : List Element) (st : String × List String) :
    els.foldl (originalStep sel) st =
      (if isTagged sel = true ∧ st.1 = "" then (nonBlankTexts els).head?.getD "" else st.1,
       st.2 ++ nonBlankTexts els) := by
  induction els generalizing st with
  | nil =>
    obtain ⟨s1, s2⟩ := st
    by_cases h : isTagged sel = true ∧ s1 = ""
    · simp [nonBlankTexts, h.2]
    · simp [nonBlankTexts, h]
  | cons e es ih =>
    rw [List.foldl_cons, ih, nonBlankTexts_cons]
    unfold originalStep
    by_cases he : TrimSpace e.text = ""
    · simp [he]
    · by_cases ht : isTagged sel = true
      · by_cases hs : st.1 = ""
        · simp [he, ht, hs]
        · simp [he, ht, hs]
      · simp [he, ht]

/-- The candidate texts are not empty. -/
theorem candidateTexts_ne (doc : Document) (sels : List String) (t : String)
    (h : t ∈ candidateTexts doc sels) : t ≠ "" := by
  unfold candidateTexts at h
  rw [List.mem_flatMap] at h
  obtain ⟨sel, _, ht⟩ := h
  exact nonBlankTexts_ne _ t ht

/-- The original-price loop in closed form. -/
theorem collectOriginal_fold (doc : Document) (sels : List String) (st : String × List String) :
    sels.foldl (fun st selector => (doc.find selector).foldl (originalStep selector) st) st =
      (if st.1 = "" then
          (candidateTexts doc (sels.filter isTagged)).head?.getD "" else st.1,
       st.2 ++ candidateTexts doc sels) := by
  induction sels generalizing st with
  | nil =>
    obtain ⟨s1, s2⟩ := st
    by_cases h : s1 = "" <;> simp [candidateTexts, h]
  | cons sel rest ih =>
    rw [List.foldl_cons, ih, originalStep_fold]
    have hcons : candidateTexts doc (sel :: rest) =
        nonBlankTexts (doc.find sel) ++ candidateTexts doc rest := by
      simp [candidateTexts]
    rw [hcons]
    by_cases ht : isTagged sel = true
    · have hf : candidateTexts doc ((sel :: rest).filter isTagged) =
          nonBlankTexts (doc.find sel) ++ candidateTexts doc (rest.filter isTagged) := by
        simp [candidateTexts, List.filter_cons, ht]
      rw [hf]
      by_cases hs : st.1 = ""
      · cases hn : nonBlankTexts (doc.find sel) with
        | nil => simp [ht, hs]
        | cons t ts =>
          have htne : t ≠ "" := nonBlankTexts_ne (doc.find sel) t (by rw [hn]; simp)
          simp [ht, hs, htne]
      · simp [ht, hs]
    · have hf : candidateTexts doc ((sel :: rest).filter isTagged) =
          candidateTexts doc (rest.filter isTagged) := by
        simp [List.filter_cons, ht]
      rw [hf]
      by_cases hs : st.1 = ""
      · simp [ht, hs]
      · simp [ht, hs]

/-- Result of the original-price loop: the first candidate of the tagged selectors (or the empty
text) and all the candidates. -/
theorem collectOriginal_eq (doc : Document) :
    collectOriginal doc =
      ((candidateTexts doc (originalPriceSelectors.filter isTagged)).head?.getD "",
       candidateTexts doc originalPriceSelectors) := by
  unfold collectOriginal
  rw [collectOriginal_fold]
  simp

/-- One round of the loop of `pickMax`. -/
theorem pickMax_snoc (l : List String) (x : String) :
    pickMax (l ++ [x]) =
      match parseFloat (cleanPriceText x) with
      | some val => if (pickMax l).1 < 0 ∨ val > (pickMax l).1 then (val, x) else pickMax l
      | none => pickMax l := by
  unfold pickMax
  rw [List.foldl_append]
  rfl

/-- Result of `pickMax`: either no text parses and the state is the initial one, or the
state holds the earliest text of greatest parsed value. -/
theorem pickMax_cases (l : List String) :
    ((∀ q ∈ l, parseFloat (cleanPriceText q) = none) ∧ pickMax l = ((-1 : ℚ), "")) ∨
    ∃ a p b v, l = a ++ p :: b ∧ pickMax l = (v, p) ∧ parseFloat (cleanPriceText p) = some v ∧
      (∀ q ∈ a, ∀ w, parseFloat (cleanPriceText q) = some w → w < v) ∧
      (∀ q ∈ b, ∀ w, parseFloat (cleanPriceText q) = some w → w ≤ v) := by
  induction l using List.reverseRecOn with
  | nil => exact Or.inl ⟨by simp, rfl⟩
  | append_singleton l x ih =>
    rw [pickMax_snoc]
    cases hx : parseFloat (cleanPriceText x) with
    | none =>
      simp only
      rcases ih with ⟨hall, hst⟩ | ⟨a, p, b, v, hl, hst, hp, ha, hb⟩
      · left
        refine ⟨?_, hst⟩
        intro q hq
        rcases List.mem_append.mp hq with h | h
        · exact hall q h
        · rw [List.mem_singleton.mp h]; exact hx
      · right
        refine ⟨a, p, b ++ [x], v, by rw [hl]; simp, hst, hp, ha, ?_⟩
        intro q hq w hw
        rcases List.mem_append.mp hq with h | h
        · exact hb q h w hw
        · rw [List.mem_singleton.mp h, hx] at hw
          exact absurd hw (by simp)
    | some val =>
      simp only
      right
      rcases ih with ⟨hall, hst⟩ | ⟨a, p, b, v, hl, hst, hp, ha, hb⟩
      · rw [hst, if_pos (Or.inl (by norm_num))]
        refine ⟨l, x, [], val, rfl, rfl, hx, ?_, by simp⟩
        intro q hq w hw
        rw [hall q hq] at hw
        exact absurd hw (by simp)
      · have hv : 0 ≤ v := parseFloat_nonneg _ _ hp
        rw [hst]
        by_cases hlt : val > v
        · rw [if_pos (Or.inr hlt)]
          refine ⟨l, x, [], val, rfl, rfl, hx, ?_, by simp⟩
          intro q hq w hw
          rw [hl] at hq
          rcases List.mem_append.mp hq with h | h
          · exact lt_trans (ha q h w hw) hlt
          · rcases List.mem_cons.mp h with h | h
            · rw [h, hp] at hw
              rw [← Option.some.inj hw]; exact hlt
            · exact lt_of_le_of_lt (hb q h w hw) hlt
        · rw [if_neg (by
            intro h
            rcases h with h | h
            · exact absurd hv (not_le.mpr h)
            · exact hlt h)]
          refine ⟨a, p, b ++ [x], v, by rw [hl]; simp, rfl, hp, ha, ?_⟩
          intro q hq w hw
          rcases List.mem_append.mp hq with h | h
          · exact hb q h w hw
          · rw [List.mem_singleton.mp h, hx] at hw
            rw [← Option.some.inj hw]
            exact not_lt.mp hlt

/-- Through a fetch with status 200 and a parsed page, `GetOriginalPrice` returns the result of
the page. -/
theorem GetOriginalPrice_of_page (web : String → Response) (url : String) (doc : Document)
    (hweb : web (MercadoLivreScraper.cleanURL url) = Response.received 200 (some doc)) :
    MercadoLivreScraper.GetOriginalPrice web url =
      MercadoLivreScraper.originalPriceFromDocument doc := by
  unfold MercadoLivreScraper.GetOriginalPrice MercadoLivreScraper.fetch
  rw [hweb]
  simp only [ne_eq, not_true_eq_false, if_false]

/-- C12. Original-price fallback.  When the selectors tagged `previous` or `original` give no
candidate, the candidates are those of the one remaining selector; if there are two or more and
at least one parses, the text chosen is a candidate `p` whose value `v` is strictly above the
value of every parsable candidate before it and at least the value of every parsable candidate
after it, and `GetOriginalPrice`, fetching the page with status 200, returns `v` with a nil
error.  When the tagged selectors give a candidate, the first one `t` is the text chosen, and
`GetOriginalPrice` returns its value (0 if it does not parse), whatever the other candidates
are. -/
theorem original_price_maximum (doc : Document) :
    (candidateTexts doc (originalPriceSelectors.filter isTagged) = [] →
      2 ≤ (candidateTexts doc originalPriceSelectors).length →
      (∃ q ∈ candidateTexts doc originalPriceSelectors, parseFloat (cleanPriceText q) ≠ none) →
      candidateTexts doc originalPriceSelectors =
        nonBlankTexts (doc.find ".ui-pdp-price__first-line .andes-money-amount__fraction") ∧
      ∃ a p b v, candidateTexts doc originalPriceSelectors = a ++ p :: b ∧
        originalPriceTextOf doc = p ∧ parseFloat (cleanPriceText p) = some v ∧
        (∀ q ∈ a, ∀ w, parseFloat (cleanPriceText q) = some w → w < v) ∧
        (∀ q ∈ b, ∀ w, parseFloat (cleanPriceText q) = some w → w ≤ v) ∧
        MercadoLivreScraper.originalPriceFromDocument doc = (v, none) ∧
        ∀ (web : String → Response) (url : String),
          web (MercadoLivreScraper.cleanURL url) = Response.received 200 (some doc) →
          MercadoLivreScraper.GetOriginalPrice web url = (v, none)) ∧
    (∀ t rest, candidateTexts doc (originalPriceSelectors.filter isTagged) = t :: rest →
      originalPriceTextOf doc = t ∧
      (MercadoLivreScraper.originalPriceFromDocument doc =
        match parseFloat (cleanPriceText t) with
        | some v => (v, none)
        | none => (0, none)) ∧
      ∀ (web : String → Response) (url : String),
        web (MercadoLivreScraper.cleanURL url) = Response.received 200 (some doc) →
        MercadoLivreScraper.GetOriginalPrice web url =
          match parseFloat (cleanPriceText t) with
          | some v => (v, none)
          | none => (0, none)) := by
  constructor
  · intro hno hlen hex
    have hfilter : originalPriceSelectors.filter isTagged = originalPriceSelectors.take 6 := by
      decide
    have hsplit : originalPriceSelectors = originalPriceSelectors.take 6 ++
        [".ui-pdp-price__first-line .andes-money-amount__fraction"] := by decide
    have hall : candidateTexts doc originalPriceSelectors =
        nonBlankTexts (doc.find ".ui-pdp-price__first-line .andes-money-amount__fraction") := by
      rw [hfilter] at hno
      have : candidateTexts doc originalPriceSelectors =
          candidateTexts doc (originalPriceSelectors.take 6) ++
            candidateTexts doc [".ui-pdp-price__first-line .andes-money-amount__fraction"] := by
        conv_lhs => rw [hsplit]
        unfold candidateTexts
        rw [List.flatMap_append]
      rw [this, hno]
      simp [candidateTexts]
    refine ⟨hall, ?_⟩
    rcases pickMax_cases (candidateTexts doc originalPriceSelectors) with
      ⟨hnone, _⟩ | ⟨a, p, b, v, hl, hst, hp, ha, hb⟩
    · obtain ⟨q, hq, hqn⟩ := hex
      exact absurd (hnone q hq) hqn
    · have hne : p ≠ "" := candidateTexts_ne doc _ p (by rw [hl]; simp)
      have hc : collectOriginal doc = ("", candidateTexts doc originalPriceSelectors) := by
        rw [collectOriginal_eq, hno]
        rfl
      have ht : originalPriceTextOf doc = p := by
        have h1 : (if True ∧
            (candidateTexts doc originalPriceSelectors).length > 1 then
              (pickMax (candidateTexts doc originalPriceSelectors)).2 else "") = p := by
          rw [if_pos ⟨trivial, hlen⟩, hst]
        unfold originalPriceTextOf
        rw [hc]
        simp only [h1, if_neg hne]
      have hres : MercadoLivreScraper.originalPriceFromDocument doc = (v, none) := by
        unfold MercadoLivreScraper.originalPriceFromDocument
        simp only [ht, if_neg hne, hp]
      refine ⟨a, p, b, v, hl, ht, hp, ha, hb, hres, ?_⟩
      intro web url hweb
      rw [GetOriginalPrice_of_page web url doc hweb, hres]
  · intro t rest htag
    have hne : t ≠ "" := candidateTexts_ne doc _ t (by rw [htag]; simp)
    have ht : originalPriceTextOf doc = t := by
      unfold originalPriceTextOf
      simp only [collectOriginal_eq, htag, List.head?_cons, Option.getD_some, hne, false_and,
        if_false]
    have hres : MercadoLivreScraper.originalPriceFromDocument doc =
        match parseFloat (cleanPriceText t) with
        | some v => (v, none)
        | none => (0, none) := by
      cases hpf : parseFloat (cleanPriceText t) <;>
        simp only [MercadoLivreScraper.originalPriceFromDocument, ht, if_neg hne, hpf]
    refine ⟨ht, hres, ?_⟩
    intro web url hweb
    rw [GetOriginalPrice_of_page web url doc hweb, hres]

/-- Witness of C12: on `twoPriceDocument` no tagged selector matches and the maximum 100 is
returned by `GetOriginalPrice`; on `taggedDocument` the previous-price text `R$ 120` is used and
`GetOriginalPrice` returns 120, not the maximum 200. -/
theorem original_price_maximum_witness :
    (candidateTexts twoPriceDocument originalPriceSelectors =
        nonBlankTexts (twoPriceDocument.find
          ".ui-pdp-price__first-line .andes-money-amount__fraction") ∧
      ∃ a p b v, candidateTexts twoPriceDocument originalPriceSelectors = a ++ p :: b ∧
        originalPriceTextOf twoPriceDocument = p ∧ parseFloat (cleanPriceText p) = some v ∧
        (∀ q ∈ a, ∀ w, parseFloat (cleanPriceText q) = some w → w < v) ∧
        (∀ q ∈ b, ∀ w, parseFloat (cleanPriceText q) = some w → w ≤ v) ∧
        MercadoLivreScraper.originalPriceFromDocument twoPriceDocument = (v, none) ∧
        ∀ (web : String → Response) (url : String),
          web (MercadoLivreScraper.cleanURL url) =
            Response.received 200 (some twoPriceDocument) →
          MercadoLivreScraper.GetOriginalPrice web url = (v, none)) ∧
    MercadoLivreScraper.GetOriginalPrice (exampleWeb twoPriceDocument)
      "https://mercadolivre.com.br/p/MLB1" = (100, none) ∧
    originalPriceTextOf taggedDocument = "R$ 120" ∧
    MercadoLivreScraper.GetOriginalPrice (exampleWeb taggedDocument)
      "https://mercadolivre.com.br/p/MLB1" = (120, none) :=
  have h := (original_price_maximum taggedDocument).2 "R$ 120" [] (by decide)
  ⟨(original_price_maximum twoPriceDocument).1 (by decide) (by decide)
     ⟨"R$ 100", by decide, by decide⟩,
   by decide, h.1, by decide⟩

/-- C15. After a successful fetch `GetOriginalPrice` never returns an error: the result is 0 with
a nil error when no original-price text is found and when the text found does not parse after
cleaning, and the parsed value with a nil error otherwise; through a fetch with status 200 and a
parsed page the method returns that result. -/
theorem original_price_never_errors (doc : Document) :
    (MercadoLivreScraper.originalPriceFromDocument doc).2 = none ∧
    (originalPriceTextOf doc = "" →
      MercadoLivreScraper.originalPriceFromDocument doc = (0, none)) ∧
    (parseFloat (cleanPriceText (originalPriceTextOf doc)) = none →
      MercadoLivreScraper.originalPriceFromDocument doc = (0, none)) ∧
    (∀ v, parseFloat (cleanPriceText (originalPriceTextOf doc)) = some v →
      MercadoLivreScraper.originalPriceFromDocument doc = (v, none)) ∧
    (∀ (web : String → Response) (url : String),
      web (MercadoLivreScraper.cleanURL url) = Response.received 200 (some doc) →
      MercadoLivreScraper.GetOriginalPrice web url =
        MercadoLivreScraper.originalPriceFromDocument doc ∧
      (MercadoLivreScraper.GetOriginalPrice web url).2 = none) := by
  have herr : (MercadoLivreScraper.originalPriceFromDocument doc).2 = none := by
    unfold MercadoLivreScraper.originalPriceFromDocument
    simp only
    split
    · rfl
    · split <;> rfl
  refine ⟨herr, ?_, ?_, ?_, ?_⟩
  · intro h
    unfold MercadoLivreScraper.originalPriceFromDocument
    simp only [h, if_true]
  · intro h
    unfold MercadoLivreScraper.originalPriceFromDocument
    simp only [h]
    split <;> rfl
  · intro v h
    have hne : originalPriceTextOf doc ≠ "" := by
      intro h0
      have hempty : parseFloat (cleanPriceText "") = none := by decide
      rw [h0, hempty] at h
      exact Option.noConfusion h
    unfold MercadoLivreScraper.originalPriceFromDocument
    simp only [h, if_neg hne]
  · intro web url hweb
    have hg : MercadoLivreScraper.GetOriginalPrice web url =
        MercadoLivreScraper.originalPriceFromDocument doc := by
      unfold MercadoLivreScraper.GetOriginalPrice MercadoLivreScraper.fetch
      rw [hweb]
      simp only [ne_eq, not_true_eq_false, if_false]
    exact ⟨hg, by rw [hg]; exact herr⟩

/-- Witness of C15: `twoBlockDocument` has no original-price text and the result is 0 without
error, also through a fetch; `taggedDocument` gives the parsed value 120. -/
theorem original_price_never_errors_witness :
    MercadoLivreScraper.originalPriceFromDocument twoBlockDocument = (0, none) ∧
    MercadoLivreScraper.originalPriceFromDocument taggedDocument = (120, none) ∧
    MercadoLivreScraper.GetOriginalPrice (exampleWeb twoBlockDocument)
      "https://mercadolivre.com.br/p/MLB1" =
        MercadoLivreScraper.originalPriceFromDocument twoBlockDocument :=
  ⟨(original_price_never_errors twoBlockDocument).2.1 (by decide),
   (original_price_never_errors taggedDocument).2.2.2.1 120 (by decide),
   ((original_price_never_errors twoBlockDocument).2.2.2.2 (exampleWeb twoBlockDocument)
     "https://mercadolivre.com.br/p/MLB1" rfl).1⟩

/-! ### The regular-expression matcher -/

/-- `Re.space` is the class `isReSpace`. -/
theorem Re_space_eq : Re.space = Re.cls isReSpace := rfl

/-- A class on a non-empty text. -/
theorem matchAt_cls_cons (p : Char → Bool) (c : Char) (cs : List Char) :
    Re.matchAt (Re.cls p) (c :: cs) = if p c then [([], cs)] else [] := by
  simp [Re.matchAt]

/-- A class on the empty text. -/
theorem matchAt_cls_nil (p : Char → Bool) : Re.matchAt (Re.cls p) [] = [] := by
  simp [Re.matchAt]

/-- A result of a class consumed one character of the class. -/
theorem mem_matchAt_cls (p : Char → Bool) (s : List Char) (x : List (List Char) × List Char)
    (h : x ∈ Re.matchAt (Re.cls p) s) : ∃ c, s = c :: x.2 ∧ p c = true ∧ x.1 = [] := by
  cases s with
  | nil => simp [Re.matchAt] at h
  | cons c cs =>
    rw [matchAt_cls_cons] at h
    by_cases hp : p c = true
    · rw [if_pos hp] at h
      rw [List.mem_singleton.mp h]
      exact ⟨c, rfl, hp, rfl⟩
    · rw [if_neg hp] at h
      simp at h

/-- The results of a concatenation. -/
theorem mem_matchAt_seq (a b : Re) (s : List Char) (x : List (List Char) × List Char) :
    x ∈ Re.matchAt (Re.seq a b) s ↔
      ∃ y ∈ Re.matchAt a s, ∃ z ∈ Re.matchAt b y.2, x = (y.1 ++ z.1, z.2) := by
  simp only [Re.matchAt, List.mem_flatMap, List.mem_map]
  constructor
  · rintro ⟨y, hy, z, hz, rfl⟩; exact ⟨y, hy, z, hz, rfl⟩
  · rintro ⟨y, hy, z, hz, rfl⟩; exact ⟨y, hy, z, hz, rfl⟩

/-- The results of a group. -/
theorem mem_matchAt_group (a : Re) (s : List Char) (x : List (List Char) × List Char) :
    x ∈ Re.matchAt (Re.group a) s ↔
      ∃ y ∈ Re.matchAt a s, x = (y.1 ++ [s.take (s.length - y.2.length)], y.2) := by
  simp only [Re.matchAt, List.mem_map]
  constructor
  · rintro ⟨y, hy, rfl⟩; exact ⟨y, hy, rfl⟩
  · rintro ⟨y, hy, rfl⟩; exact ⟨y, hy, rfl⟩

/-- A result of the repetition of a class consumed characters of the class. -/
theorem mem_starAux_cls (p : Char → Bool) (fuel : Nat) (s : List Char)
    (x : List (List Char) × List Char) (h : x ∈ Re.starAux (Re.matchAt (Re.cls p)) fuel s) :
    ∃ xs, s = xs ++ x.2 ∧ (∀ c ∈ xs, p c = true) ∧ x.1 = [] := by
  induction fuel generalizing s x with
  | zero =>
    simp only [Re.starAux, List.mem_singleton] at h
    rw [h]
    exact ⟨[], rfl, by simp, rfl⟩
  | succ n ih =>
    simp only [Re.starAux, List.mem_append, List.mem_flatMap, List.mem_filter, List.mem_map,
      List.mem_singleton] at h
    rcases h with ⟨y, ⟨hy, _⟩, z, hz, rfl⟩ | h
    · obtain ⟨c, hs, hc, hy1⟩ := mem_matchAt_cls p s y hy
      obtain ⟨xs, hxs, hall, hz1⟩ := ih y.2 z hz
      refine ⟨c :: xs, ?_, ?_, ?_⟩
      · rw [hs, hxs]; rfl
      · intro d hd
        rcases List.mem_cons.mp hd with h | h
        · rw [h]; exact hc
        · exact hall d h
      · simp [hy1, hz1]
    · rw [h]
      exact ⟨[], rfl, by simp, rfl⟩

/-- A result of `p*` consumed characters of the class. -/
theorem mem_matchAt_star_cls (p : Char → Bool) (s : List Char)
    (x : List (List Char) × List Char) (h : x ∈ Re.matchAt (Re.star (Re.cls p)) s) :
    ∃ xs, s = xs ++ x.2 ∧ (∀ c ∈ xs, p c = true) ∧ x.1 = [] := by
  simp only [Re.matchAt] at h
  exact mem_starAux_cls p _ s x h

/-- A result of `p+` consumed at least one character, all of the class. -/
theorem mem_matchAt_plus_cls (p : Char → Bool) (s : List Char)
    (x : List (List Char) × List Char) (h : x ∈ Re.matchAt (Re.plus (Re.cls p)) s) :
    ∃ c xs, s = c :: xs ++ x.2 ∧ p c = true ∧ (∀ d ∈ xs, p d = true) ∧ x.1 = [] := by
  unfold Re.plus at h
  rw [mem_matchAt_seq] at h
  obtain ⟨y, hy, z, hz, rfl⟩ := h
  obtain ⟨c, hs, hc, hy1⟩ := mem_matchAt_cls p s y hy
  obtain ⟨xs, hxs, hall, hz1⟩ := mem_matchAt_star_cls p y.2 z hz
  refine ⟨c, xs, ?_, hc, hall, ?_⟩
  · rw [hs, hxs]; rfl
  · simp [hy1, hz1]

/-- The literal text as a list of characters. -/
theorem mem_matchAt_litAux (cs : List Char) (s : List Char) (x : List (List Char) × List Char)
    (h : x ∈ Re.matchAt (cs.foldr (fun c r => Re.seq (Re.cls (fun d => d == c)) r) Re.eps) s) :
    s = cs ++ x.2 ∧ x.1 = [] := by
  induction cs generalizing s x with
  | nil =>
    simp only [List.foldr_nil, Re.matchAt, List.mem_singleton] at h
    rw [h]; exact ⟨rfl, rfl⟩
  | cons c cs ih =>
    rw [List.foldr_cons, mem_matchAt_seq] at h
    obtain ⟨y, hy, z, hz, rfl⟩ := h
    obtain ⟨d, hs, hd, hy1⟩ := mem_matchAt_cls _ s y hy
    obtain ⟨hz2, hz1⟩ := ih y.2 z hz
    have hdc : d = c := by simpa using hd
    refine ⟨?_, ?_⟩
    · rw [hs, hz2, hdc]; rfl
    · simp [hy1, hz1]

/-- A result of a literal consumed the literal. -/
theorem mem_matchAt_lit (t : String) (s : List Char) (x : List (List Char) × List Char)
    (h : x ∈ Re.matchAt (Re.lit t) s) : s = t.data ++ x.2 ∧ x.1 = [] :=
  mem_matchAt_litAux t.data s x h

/-- A literal matches a text that starts with it, in one way. -/
theorem matchAt_litAux_append (cs rest : List Char) :
    Re.matchAt (cs.foldr (fun c r => Re.seq (Re.cls (fun d => d == c)) r) Re.eps) (cs ++ rest) =
      [([], rest)] := by
  induction cs with
  | nil => simp [Re.matchAt]
  | cons c cs ih =>
    rw [List.foldr_cons]
    simp only [Re.matchAt, List.cons_append, beq_self_eq_true, if_true, List.flatMap_cons,
      List.flatMap_nil, List.append_nil]
    rw [ih]
    rfl

/-- The literal `t` matches a text that starts with `t`, in one way. -/
theorem matchAt_lit_append (t : String) (rest : List Char) :
    Re.matchAt (Re.lit t) (t.data ++ rest) = [([], rest)] :=
  matchAt_litAux_append t.data rest

/-- The head of the results of a concatenation, when the first result of `a` can be continued
by `b`. -/
theorem head_matchAt_seq (a b : Re) (s : List Char) (x y : List (List Char) × List Char)
    (ha : (Re.matchAt a s).head? = some x) (hb : (Re.matchAt b x.2).head? = some y) :
    (Re.matchAt (Re.seq a b) s).head? = some (x.1 ++ y.1, y.2) := by
  cases hl : Re.matchAt a s with
  | nil => rw [hl] at ha; simp at ha
  | cons x0 xs =>
    rw [hl] at ha
    have hx : x0 = x := by simpa using ha
    subst hx
    cases hm : Re.matchAt b x0.2 with
    | nil => rw [hm] at hb; simp at hb
    | cons y0 ys =>
      rw [hm] at hb
      have hy : y0 = y := by simpa using hb
      subst hy
      simp [Re.matchAt, hl, hm]

/-- First result of the repetition of a class: the longest run. -/
theorem head_starAux_cls (p : Char → Bool) (xs rest : List Char) (fuel : Nat)
    (hfuel : xs.length ≤ fuel) (hxs : ∀ c ∈ xs, p c = true)
    (hrest : ∀ c rs, rest = c :: rs → p c = false) :
    (Re.starAux (Re.matchAt (Re.cls p)) fuel (xs ++ rest)).head? = some ([], rest) := by
  induction xs generalizing fuel with
  | nil =>
    cases fuel with
    | zero => simp [Re.starAux]
    | succ n =>
      cases rest with
      | nil => simp [Re.starAux, Re.matchAt]
      | cons c rs =>
        have := hrest c rs rfl
        simp [Re.starAux, Re.matchAt, this]
  | cons c cs ih =>
    cases fuel with
    | zero => simp at hfuel
    | succ n =>
      have hc : p c = true := hxs c (List.mem_cons_self c cs)
      have hn : cs.length ≤ n := by simpa using hfuel
      have := ih n hn (fun d hd => hxs d (List.mem_cons_of_mem c hd))
      cases hl : Re.starAux (Re.matchAt (Re.cls p)) n (cs ++ rest) with
      | nil => rw [hl] at this; simp at this
      | cons y ys =>
        rw [hl] at this
        have hy : y = ([], rest) := by simpa using this
        have hf : Re.matchAt (Re.cls p) (c :: (cs ++ rest)) = [([], cs ++ rest)] := by
          rw [matchAt_cls_cons, if_pos hc]
        simp [Re.starAux, hf, hl, hy]

/-- First result of `p*`: the longest run. -/
theorem head_matchAt_star_cls (p : Char → Bool) (xs rest : List Char)
    (hxs : ∀ c ∈ xs, p c = true) (hrest : ∀ c rs, rest = c :: rs → p c = false) :
    (Re.matchAt (Re.star (Re.cls p)) (xs ++ rest)).head? = some ([], rest) := by
  simp only [Re.matchAt]
  exact head_starAux_cls p xs rest _ (by simp) hxs hrest

/-- First result of `p+`: the longest run. -/
theorem head_matchAt_plus_cls (p : Char → Bool) (c : Char) (xs rest : List Char)
    (hc : p c = true) (hxs : ∀ d ∈ xs, p d = true)
    (hrest : ∀ d rs, rest = d :: rs → p d = false) :
    (Re.matchAt (Re.plus (Re.cls p)) (c :: xs ++ rest)).head? = some ([], rest) := by
  unfold Re.plus
  have h1 : (Re.matchAt (Re.cls p) (c :: xs ++ rest)).head? = some ([], xs ++ rest) := by
    simp [Re.matchAt, hc]
  have h2 := head_matchAt_star_cls p xs rest hxs hrest
  have := head_matchAt_seq (Re.cls p) (Re.star (Re.cls p)) (c :: xs ++ rest) _ _ h1 h2
  simpa using this

/-- First result of a group. -/
theorem head_matchAt_group (a : Re) (s : List Char) (x : List (List Char) × List Char)
    (h : (Re.matchAt a s).head? = some x) :
    (Re.matchAt (Re.group a) s).head? =
      some (x.1 ++ [s.take (s.length - x.2.length)], x.2) := by
  simp only [Re.matchAt, List.head?_map, h, Option.map_some']

/-- A match at the start of the text is the leftmost match. -/
theorem findSubmatch_head (r : Re) (c : Char) (cs : List Char)
    (x : List (List Char) × List Char) (h : (Re.matchAt r (c :: cs)).head? = some x) :
    Re.findSubmatch r (c :: cs) = some x.1 := by
  simp only [Re.findSubmatch, h]

/-- A submatch found comes from a result of the matcher at some position of the text. -/
theorem findSubmatch_some (r : Re) (s : List Char) (caps : List (List Char))
    (h : Re.findSubmatch r s = some caps) :
    ∃ pre t x, s = pre ++ t ∧ x ∈ Re.matchAt r t ∧ x.1 = caps := by
  induction s with
  | nil =>
    simp only [Re.findSubmatch, Option.map_eq_some'] at h
    obtain ⟨x, hx, hc⟩ := h
    exact ⟨[], [], x, rfl, List.mem_of_mem_head? hx, hc⟩
  | cons c cs ih =>
    simp only [Re.findSubmatch] at h
    cases hm : (Re.matchAt r (c :: cs)).head? with
    | some x =>
      rw [hm] at h
      exact ⟨[], c :: cs, x, rfl, List.mem_of_mem_head? hm, by simpa using h⟩
    | none =>
      rw [hm] at h
      obtain ⟨pre, t, x, hs, hx, hc⟩ := ih h
      exact ⟨c :: pre, t, x, by rw [hs]; rfl, hx, hc⟩

/-- No submatch is found when the matcher has no result at any position. -/
theorem findSubmatch_none (r : Re) (s : List Char)
    (h : ∀ pre t, s = pre ++ t → Re.matchAt r t = []) : Re.findSubmatch r s = none := by
  induction s with
  | nil =>
    simp only [Re.findSubmatch, h [] [] rfl, List.head?_nil, Option.map_none']
  | cons c cs ih =>
    simp only [Re.findSubmatch, h [] (c :: cs) rfl, List.head?_nil]
    exact ih (fun pre t ht => h (c :: pre) t (by rw [ht]; rfl))

/-! ### The discount -/

/-- Once a discount text is found the `Each` callback leaves it unchanged. -/
theorem firstWithPercent_of_ne (els : List Element) (acc : String) (h : acc ≠ "") :
    firstWithPercent els acc = acc := by
  unfold firstWithPercent
  induction els with
  | nil => rfl
  | cons e es ih => rw [List.foldl_cons, if_neg h]; exact ih

/-- A text that contains `%` is not empty. -/
theorem Contains_percent_ne (t : String) (h : Contains t "%" = true) : t ≠ "" := by
  intro h0
  rw [h0] at h
  exact absurd h (by decide)

/-- Starting from the empty text, the `Each` callback ends with the trimmed text of the first
element whose trimmed text contains `%`. -/
theorem firstWithPercent_empty (els : List Element) :
    firstWithPercent els "" =
      match els.find? (fun e => Contains (TrimSpace e.text) "%") with
      | some e => TrimSpace e.text
      | none => "" := by
  induction els with
  | nil => rfl
  | cons e es ih =>
    cases h : Contains (TrimSpace e.text) "%" with
    | true =>
      have hne := Contains_percent_ne _ h
      rw [List.find?_cons, h]
      unfold firstWithPercent
      rw [List.foldl_cons]
      simp only [if_true, h]
      exact firstWithPercent_of_ne es _ hne
    | false =>
      rw [List.find?_cons, h]
      unfold firstWithPercent
      rw [List.foldl_cons]
      simp only [if_true, h, Bool.false_eq_true, if_false]
      exact ih

/-- The discount loop ends with the result of the first selector that selects an element whose
trimmed text contains `%`. -/
theorem findDiscountText_empty (doc : Document) (sels : List String) :
    findDiscountText doc sels "" =
      match sels.find? (fun sel =>
        (doc.find sel).any (fun e => Contains (TrimSpace e.text) "%")) with
      | some sel => firstWithPercent (doc.find sel) ""
      | none => "" := by
  induction sels with
  | nil => rfl
  | cons sel rest ih =>
    unfold findDiscountText
    simp only
    cases hany : (doc.find sel).any (fun e => Contains (TrimSpace e.text) "%") with
    | true =>
      rw [List.find?_cons, hany]
      simp only
      have hne : firstWithPercent (doc.find sel) "" ≠ "" := by
        rw [firstWithPercent_empty]
        obtain ⟨e, he, hc⟩ := List.any_eq_true.mp hany
        cases hf : (doc.find sel).find? (fun e => Contains (TrimSpace e.text) "%") with
        | none =>
          have := List.find?_eq_none.mp hf e he
          exact absurd hc this
        | some e0 =>
          have := List.find?_some hf
          exact Contains_percent_ne _ this
      rw [if_pos hne]
    | false =>
      rw [List.find?_cons, hany]
      simp only
      have hnone : (doc.find sel).find? (fun e => Contains (TrimSpace e.text) "%") = none := by
        rw [List.find?_eq_none]
        intro e he hc
        have : (doc.find sel).any (fun e => Contains (TrimSpace e.text) "%") = true :=
          List.any_eq_true.mpr ⟨e, he, hc⟩
        rw [hany] at this
        exact absurd this (by decide)
      have hb : firstWithPercent (doc.find sel) "" = "" := by
        rw [firstWithPercent_empty, hnone]
      rw [hb]
      simp only [ne_eq, not_true_eq_false, if_false]
      exact ih

/-- A concatenation has no result when its first part has none. -/
theorem matchAt_seq_nil (a b : Re) (s : List Char) (h : Re.matchAt a s = []) :
    Re.matchAt (Re.seq a b) s = [] := by
  simp only [Re.matchAt, h, List.flatMap_nil]

/-- An alternation whose left branch has no result. -/
theorem matchAt_alt_nil (a b : Re) (s : List Char) (h : Re.matchAt a s = []) :
    Re.matchAt (Re.alt a b) s = Re.matchAt b s := by
  simp only [Re.matchAt, h, List.nil_append]

/-- First result of an alternation whose left branch has a result. -/
theorem head_matchAt_alt (a b : Re) (s : List Char) (x : List (List Char) × List Char)
    (h : (Re.matchAt a s).head? = some x) : (Re.matchAt (Re.alt a b) s).head? = some x := by
  cases hl : Re.matchAt a s with
  | nil => rw [hl] at h; simp at h
  | cons y ys =>
    rw [hl] at h
    simp only [Re.matchAt, hl, List.cons_append, List.head?_cons]
    simpa using h

/-- A literal has no result on a text that does not start with it. -/
theorem matchAt_lit_ne (t : String) (s : List Char) (h : ∀ rest, s ≠ t.data ++ rest) :
    Re.matchAt (Re.lit t) s = [] := by
  rw [List.eq_nil_iff_forall_not_mem]
  intro x hx
  exact h x.2 (mem_matchAt_lit t s x hx).1

/-- First result of a concatenation, on pairs. -/
theorem head_seq_pair (a b : Re) (s : List Char) (c1 c2 : List (List Char)) (r1 r2 : List Char)
    (ha : (Re.matchAt a s).head? = some (c1, r1))
    (hb : (Re.matchAt b r1).head? = some (c2, r2)) :
    (Re.matchAt (Re.seq a b) s).head? = some (c1 ++ c2, r2) :=
  head_matchAt_seq a b s (c1, r1) (c2, r2) ha hb

/-- First result of a group: the text matched is recorded. -/
theorem head_group_pair (a : Re) (m r : List Char) (c1 : List (List Char))
    (h : (Re.matchAt a (m ++ r)).head? = some (c1, r)) :
    (Re.matchAt (Re.group a) (m ++ r)).head? = some (c1 ++ [m], r) := by
  have := head_matchAt_group a (m ++ r) (c1, r) h
  rw [this]
  have hlen : (m ++ r).length - r.length = m.length := by simp
  simp only [hlen, List.take_left']

/-- A white-space character of the pattern is neither a digit, nor a point, nor `%`. -/
theorem isReSpace_other (c : Char) (h : isReSpace c = true) :
    c.isDigit = false ∧ c ≠ '.' ∧ c ≠ '%' := by
  refine ⟨?_, ?_, ?_⟩
  · have h1 : c.toNat = 9 ∨ c.toNat = 10 ∨ c.toNat = 12 ∨ c.toNat = 13 ∨ c.toNat = 32 := by
      simpa [isReSpace, or_assoc] using h
    cases hd : c.isDigit with
    | false => rfl
    | true =>
      unfold Char.isDigit at hd
      simp only [Bool.and_eq_true, decide_eq_true_eq] at hd
      have h2 : 48 ≤ c.val.toNat := hd.1
      have h3 : c.toNat = c.val.toNat := rfl
      omega
  · intro hc
    rw [hc] at h
    exact absurd h (by decide)
  · intro hc
    rw [hc] at h
    exact absurd h (by decide)

/-- The first character of white space followed by `%` is a white-space character or `%`. -/
theorem head_of_spaces (ws rest : List Char) (hws : ∀ c ∈ ws, isReSpace c = true)
    (d : Char) (rs : List Char) (h : ws ++ '%' :: rest = d :: rs) :
    d.isDigit = false ∧ d ≠ '.' ∧ isReSpace d = true ∨ d = '%' := by
  cases ws with
  | nil => right; exact (List.cons.inj h).1.symm
  | cons w ws' =>
    left
    have hd : w = d := (List.cons.inj h).1
    have hw := hws w (List.mem_cons_self w ws')
    rw [hd] at hw
    exact ⟨(isReSpace_other d hw).1, (isReSpace_other d hw).2.1, hw⟩

/-- After white space followed by `%`, no digit and no point comes first. -/
theorem head_of_spaces_stop (ws rest : List Char) (hws : ∀ c ∈ ws, isReSpace c = true)
    (d : Char) (rs : List Char) (h : ws ++ '%' :: rest = d :: rs) :
    d.isDigit = false ∧ d ≠ '.' := by
  rcases head_of_spaces ws rest hws d rs h with h1 | h1
  · exact ⟨h1.1, h1.2.1⟩
  · rw [h1]; exact ⟨by decide, by decide⟩

/-- First result of `\s*%` on a text that starts with white space and `%`. -/
theorem head_space_percent (ws rest : List Char) (hws : ∀ c ∈ ws, isReSpace c = true) :
    (Re.matchAt (Re.seq (Re.star Re.space) (Re.lit "%")) (ws ++ '%' :: rest)).head? =
      some ([], rest) := by
  have hsp : (Re.matchAt (Re.star Re.space) (ws ++ '%' :: rest)).head? =
      some ([], '%' :: rest) := by
    have := head_matchAt_star_cls isReSpace ws ('%' :: rest) hws (by
      intro d rs h
      have : d = '%' := (List.cons.inj h).1.symm
      rw [this]; decide)
    rw [Re_space_eq]
    exact this
  have hlit : (Re.matchAt (Re.lit "%") ('%' :: rest)).head? = some ([], rest) := by
    have := matchAt_lit_append "%" rest
    rw [show "%".data ++ rest = '%' :: rest from rfl] at this
    rw [this]; rfl
  exact head_seq_pair _ _ _ _ _ _ _ hsp hlit

/-- The discount pattern on a text that starts with digits, white space and `%`: the group is
the digits. -/
theorem discountRe_integer (ds ws rest : List Char) (hne : ds ≠ [])
    (hds : ∀ c ∈ ds, c.isDigit = true) (hws : ∀ c ∈ ws, isReSpace c = true) :
    Re.findSubmatch discountRe (ds ++ (ws ++ '%' :: rest)) = some [ds] := by
  obtain ⟨c, cs, rfl⟩ := List.exists_cons_of_ne_nil hne
  have hstop : ∀ d rs, ws ++ '%' :: rest = d :: rs → Char.isDigit d = false :=
    fun d rs h => (head_of_spaces_stop ws rest hws d rs h).1
  have h1 := head_matchAt_plus_cls Char.isDigit c cs (ws ++ '%' :: rest)
    (hds c (List.mem_cons_self c cs)) (fun d hd => hds d (List.mem_cons_of_mem c hd)) hstop
  have hopt : (Re.matchAt (Re.opt (Re.seq (Re.lit ".") (Re.plus (Re.cls Char.isDigit))))
      (ws ++ '%' :: rest)).head? = some ([], ws ++ '%' :: rest) := by
    have hl : Re.matchAt (Re.seq (Re.lit ".") (Re.plus (Re.cls Char.isDigit)))
        (ws ++ '%' :: rest) = [] := by
      apply matchAt_seq_nil
      apply matchAt_lit_ne
      intro r h
      have h' : ws ++ '%' :: rest = '.' :: r := h
      exact (head_of_spaces_stop ws rest hws '.' r h').2 rfl
    unfold Re.opt
    rw [matchAt_alt_nil _ _ _ hl]
    rfl
  have h2 := head_seq_pair _ _ _ _ _ _ _ h1 hopt
  have h3 := head_group_pair _ (c :: cs) (ws ++ '%' :: rest) _ h2
  have h5 := head_seq_pair _ _ _ _ _ _ _ h3 (head_space_percent ws rest hws)
  have h6 := findSubmatch_head discountRe c (cs ++ (ws ++ '%' :: rest)) _ h5
  rw [show (c :: cs ++ (ws ++ '%' :: rest)) = c :: (cs ++ (ws ++ '%' :: rest)) from rfl, h6]
  rfl

/-- The discount pattern on a text that starts with digits, a point, digits, white space and
`%`: the group is the decimal number. -/
theorem discountRe_decimal (ds fd ws rest : List Char) (hne : ds ≠ []) (hfne : fd ≠ [])
    (hds : ∀ c ∈ ds, c.isDigit = true) (hfd : ∀ c ∈ fd, c.isDigit = true)
    (hws : ∀ c ∈ ws, isReSpace c = true) :
    Re.findSubmatch discountRe (ds ++ '.' :: fd ++ (ws ++ '%' :: rest)) =
      some [ds ++ '.' :: fd] := by
  obtain ⟨c, cs, rfl⟩ := List.exists_cons_of_ne_nil hne
  obtain ⟨f, fs, rfl⟩ := List.exists_cons_of_ne_nil hfne
  have hstop : ∀ d rs, ws ++ '%' :: rest = d :: rs → Char.isDigit d = false :=
    fun d rs h => (head_of_spaces_stop ws rest hws d rs h).1
  have hdot : ∀ d rs, '.' :: (f :: fs ++ (ws ++ '%' :: rest)) = d :: rs →
      Char.isDigit d = false := by
    intro d rs h
    have : d = '.' := (List.cons.inj h).1.symm
    rw [this]; decide
  have h1 := head_matchAt_plus_cls Char.isDigit c cs ('.' :: (f :: fs ++ (ws ++ '%' :: rest)))
    (hds c (List.mem_cons_self c cs)) (fun d hd => hds d (List.mem_cons_of_mem c hd)) hdot
  have hfrac := head_matchAt_plus_cls Char.isDigit f fs (ws ++ '%' :: rest)
    (hfd f (List.mem_cons_self f fs)) (fun d hd => hfd d (List.mem_cons_of_mem f hd)) hstop
  have hlit : (Re.matchAt (Re.lit ".") ('.' :: (f :: fs ++ (ws ++ '%' :: rest)))).head? =
      some ([], f :: fs ++ (ws ++ '%' :: rest)) := by
    have := matchAt_lit_append "." (f :: fs ++ (ws ++ '%' :: rest))
    rw [show ".".data ++ (f :: fs ++ (ws ++ '%' :: rest)) =
      '.' :: (f :: fs ++ (ws ++ '%' :: rest)) from rfl] at this
    rw [this]; rfl
  have hopt : (Re.matchAt (Re.opt (Re.seq (Re.lit ".") (Re.plus (Re.cls Char.isDigit))))
      ('.' :: (f :: fs ++ (ws ++ '%' :: rest)))).head? = some ([], ws ++ '%' :: rest) := by
    unfold Re.opt
    exact head_matchAt_alt _ _ _ _ (head_seq_pair _ _ _ _ _ _ _ hlit hfrac)
  have h2 := head_seq_pair _ _ _ _ _ _ _ h1 hopt
  have hform : c :: cs ++ '.' :: (f :: fs ++ (ws ++ '%' :: rest)) =
      (c :: cs ++ '.' :: (f :: fs)) ++ (ws ++ '%' :: rest) := by simp
  rw [hform] at h2
  have h3 := head_group_pair _ (c :: cs ++ '.' :: (f :: fs)) (ws ++ '%' :: rest) _ h2
  have h5 := head_seq_pair _ _ _ _ _ _ _ h3 (head_space_percent ws rest hws)
  have h6 := findSubmatch_head discountRe c ((cs ++ '.' :: (f :: fs)) ++ (ws ++ '%' :: rest))
    _ h5
  rw [show (c :: cs ++ '.' :: (f :: fs) ++ (ws ++ '%' :: rest)) =
    c :: ((cs ++ '.' :: (f :: fs)) ++ (ws ++ '%' :: rest)) from rfl, h6]
  rfl

/-- A result of the discount pattern starts at a digit that is followed, after characters of the
text, by white space and `%`. -/
theorem discountRe_shape (t : List Char) (x : List (List Char) × List Char)
    (hx : x ∈ Re.matchAt discountRe t) :
    ∃ pre d ws post, t = pre ++ d :: (ws ++ '%' :: post) ∧ d.isDigit = true ∧
      ∀ c ∈ ws, isReSpace c = true := by
  unfold discountRe at hx
  rw [mem_matchAt_seq] at hx
  obtain ⟨y, hy, z, hz, -⟩ := hx
  rw [mem_matchAt_group] at hy
  obtain ⟨y0, hy0, rfl⟩ := hy
  rw [mem_matchAt_seq] at hy0
  obtain ⟨n1, hn1, o1, ho1, rfl⟩ := hy0
  obtain ⟨c, cs, ht, hc, hcs, -⟩ := mem_matchAt_plus_cls _ _ _ hn1
  rw [mem_matchAt_seq] at hz
  obtain ⟨w, hw, q, hq, rfl⟩ := hz
  rw [Re_space_eq] at hw
  obtain ⟨ws, hws, hwsp, -⟩ := mem_matchAt_star_cls _ _ _ hw
  obtain ⟨hq2, -⟩ := mem_matchAt_lit _ _ _ hq
  simp only at hws hq2
  have hq3 : w.2 = '%' :: q.2 := hq2
  -- the digits before the white space end with a digit
  have hlast : ∃ pre d, t = pre ++ d :: o1.2 ∧ d.isDigit = true := by
    unfold Re.opt at ho1
    simp only [Re.matchAt, List.mem_append, List.mem_singleton] at ho1
    rcases ho1 with ho1 | ho1
    · have ho1' : o1 ∈ Re.matchAt (Re.seq (Re.lit ".") (Re.plus (Re.cls Char.isDigit))) n1.2 := by
        simp only [Re.matchAt]
        exact ho1
      rw [mem_matchAt_seq] at ho1'
      obtain ⟨l, hl, m, hm, rfl⟩ := ho1'
      obtain ⟨hl2, -⟩ := mem_matchAt_lit _ _ _ hl
      obtain ⟨f, fs, hf, hfd, hfs, -⟩ := mem_matchAt_plus_cls _ _ _ hm
      rcases List.eq_nil_or_concat (f :: fs) with h | ⟨init, d, hinit⟩
      · exact absurd h (by simp)
      · have hd : d.isDigit = true := by
          have hmem : d ∈ f :: fs := by rw [hinit]; simp
          rcases List.mem_cons.mp hmem with h | h
          · rw [h]; exact hfd
          · exact hfs d h
        refine ⟨c :: cs ++ ".".data ++ init, d, ?_, hd⟩
        rw [ht, hl2, hf]
        have : f :: fs ++ m.2 = init ++ d :: m.2 := by rw [hinit]; simp
        simp only [List.append_assoc, List.cons_append] at this ⊢
        rw [this]
    · rcases List.eq_nil_or_concat (c :: cs) with h | ⟨init, d, hinit⟩
      · exact absurd h (by simp)
      · have hd : d.isDigit = true := by
          have hmem : d ∈ c :: cs := by rw [hinit]; simp
          rcases List.mem_cons.mp hmem with h | h
          · rw [h]; exact hc
          · exact hcs d h
        refine ⟨init, d, ?_, hd⟩
        rw [ht, ho1]
        have : c :: cs ++ n1.2 = init ++ d :: n1.2 := by rw [hinit]; simp
        exact this
  obtain ⟨pre, d, hpre, hd⟩ := hlast
  refine ⟨pre, d, ws, q.2, ?_, hd, hwsp⟩
  rw [hpre, hws, hq3]

/-- A text is not empty when its characters are not. -/
theorem ne_empty_of_data (t : String) (c : Char) (pre post : List Char)
    (ht : t.data = pre ++ c :: post) : t ≠ "" := by
  intro h
  rw [h] at ht
  have := congrArg List.length ht
  simp at this
  omega

/-- The number before the `%` sign: digits only. -/
theorem parseDiscountText_integer (t : String) (ds ws rest : List Char) (hne : ds ≠ [])
    (hds : ∀ c ∈ ds, c.isDigit = true) (hws : ∀ c ∈ ws, isReSpace c = true)
    (ht : t.data = ds ++ (ws ++ '%' :: rest)) :
    ((digitsVal ds : ℚ) < float64Limit → parseDiscountText t = ((digitsVal ds : ℚ), none)) ∧
    (float64Limit ≤ (digitsVal ds : ℚ) → parseDiscountText t = (0, none)) := by
  have hne2 : t ≠ "" := ne_empty_of_data t '%' (ds ++ ws) rest (by rw [ht]; simp)
  constructor
  · intro hr
    unfold parseDiscountText
    rw [if_neg hne2]
    simp only [ht, discountRe_integer ds ws rest hne hds hws, parseFloat_digits ds hne hds hr]
  · intro hr
    unfold parseDiscountText
    rw [if_neg hne2]
    simp only [ht, discountRe_integer ds ws rest hne hds hws,
      parseFloat_digits_overflow ds hds hr]

/-- The number before the `%` sign: a decimal number. -/
theorem parseDiscountText_decimal (t : String) (ds fd ws rest : List Char) (hne : ds ≠ [])
    (hfne : fd ≠ []) (hds : ∀ c ∈ ds, c.isDigit = true) (hfd : ∀ c ∈ fd, c.isDigit = true)
    (hws : ∀ c ∈ ws, isReSpace c = true)
    (ht : t.data = ds ++ '.' :: fd ++ (ws ++ '%' :: rest)) :
    ((digitsVal ds : ℚ) + (digitsVal fd : ℚ) / (10 : ℚ) ^ fd.length < float64Limit →
      parseDiscountText t =
        ((digitsVal ds : ℚ) + (digitsVal fd : ℚ) / (10 : ℚ) ^ fd.length, none)) ∧
    (float64Limit ≤ (digitsVal ds : ℚ) + (digitsVal fd : ℚ) / (10 : ℚ) ^ fd.length →
      parseDiscountText t = (0, none)) := by
  have hne2 : t ≠ "" :=
    ne_empty_of_data t '%' (ds ++ '.' :: fd ++ ws) rest (by rw [ht]; simp)
  constructor
  · intro hr
    unfold parseDiscountText
    rw [if_neg hne2]
    simp only [ht, discountRe_decimal ds fd ws rest hne hfne hds hfd hws,
      parseFloat_decimal ds fd hne hds hfd hr]
  · intro hr
    unfold parseDiscountText
    rw [if_neg hne2]
    simp only [ht, discountRe_decimal ds fd ws rest hne hfne hds hfd hws,
      parseFloat_decimal_overflow ds fd hds hr]

/-- A text in which no digit is followed by white space and `%` gives the discount 0. -/
theorem parseDiscountText_none (t : String)
    (hno : ¬ ∃ pre d ws post, t.data = pre ++ d :: (ws ++ '%' :: post) ∧ d.isDigit = true ∧
      ∀ c ∈ ws, isReSpace c = true) :
    parseDiscountText t = (0, none) := by
  have hfind : Re.findSubmatch discountRe t.data = none := by
    apply findSubmatch_none
    intro pre s hs
    rw [List.eq_nil_iff_forall_not_mem]
    intro x hx
    obtain ⟨pre2, d, ws, post, hsh, hd, hws⟩ := discountRe_shape s x hx
    exact hno ⟨pre ++ pre2, d, ws, post, by rw [hs, hsh]; simp, hd, hws⟩
  unfold parseDiscountText
  split
  · rfl
  · simp only [hfind]

/-- Two characters that follow one another in a text are a pair of the text zipped with its
tail. -/
theorem mem_zip_tail (l pre post : List Char) (d c : Char) (h : l = pre ++ d :: c :: post) :
    (d, c) ∈ l.zip l.tail := by
  induction pre generalizing l with
  | nil =>
    rw [h]
    simp
  | cons x pre' ih =>
    rw [h]
    have := ih (pre' ++ d :: c :: post) rfl
    cases hp : pre' ++ d :: c :: post with
    | nil => rw [hp] at this; simp at this
    | cons y t =>
      rw [hp] at this
      simp only [List.cons_append, hp, List.tail_cons, List.zip_cons_cons, List.mem_cons]
      right
      exact this

/-- C16 (counterexample). The text `17 % OFF` contains `%` and no digit directly followed by
`%`, yet `GetDiscount` returns 17, not 0: the pattern allows white space before `%`.  And a text
that begins with 310 digits followed by `%` gives 0, not that number: its value is out of the
range of `float64`. -/
theorem discount_with_space_extracted :
    Contains "17 % OFF" "%" = true ∧
    (∀ pre d post, "17 % OFF".data = pre ++ d :: '%' :: post → d.isDigit = false) ∧
    MercadoLivreScraper.discountFromDocument spacedDiscountDocument = (17, none) ∧
    MercadoLivreScraper.GetDiscount (exampleWeb spacedDiscountDocument)
      "https://mercadolivre.com.br/p/MLB1" = (17, none) ∧
    float64Limit ≤ (digitsVal (List.replicate 310 '9') : ℚ) ∧
    parseDiscountText ⟨List.replicate 310 '9' ++ '%' :: " OFF".data⟩ = (0, none) := by
  refine ⟨by decide, ?_, by decide, by decide, nines_overflow 310 (le_refl 310), ?_⟩
  · intro pre d post h
    have hz := mem_zip_tail _ pre post d '%' h
    have hall : ∀ p ∈ "17 % OFF".data.zip "17 % OFF".data.tail,
        p.2 = '%' → p.1.isDigit = false := by decide
    exact hall (d, '%') hz rfl
  · have hd := nines_digits 310
    have hr := nines_overflow 310 (le_refl 310)
    have hne : List.replicate 310 '9' ≠ [] := by
      intro h
      have := congrArg List.length h
      rw [List.length_replicate] at this
      exact absurd this (by norm_num)
    generalize List.replicate 310 '9' = t at hd hr hne
    exact (parseDiscountText_integer ⟨t ++ '%' :: " OFF".data⟩ t [] " OFF".data hne hd
      (by simp) rfl).2 hr

/-- C16 (amended). Discount extraction.  When no element selected by the discount selectors has
a trimmed text containing `%`, `GetDiscount` returns 0 with a nil error.  Otherwise the text
used is the trimmed text of the first such element of the first selector that has one.  If it
starts with digits, optional white space and `%`, the result is the number the digits denote
when that is in the range of `float64` (as it is with at most 308 digits), and 0 with a nil
error when it is out of range; likewise if it starts with digits, a point, digits, optional
white space and `%`, for that decimal number.  If nowhere in the text a digit is followed by
optional white space and `%`, the result is 0 with a nil error.  Through a fetch with status 200
and a parsed page the method returns the result of the page. -/
theorem discount_extraction (doc : Document) :
    ((∀ sel ∈ discountSelectors, ∀ e ∈ doc.find sel, Contains (TrimSpace e.text) "%" = false) →
      MercadoLivreScraper.discountFromDocument doc = (0, none)) ∧
    (∀ sel e,
      discountSelectors.find? (fun sel =>
        (doc.find sel).any (fun e => Contains (TrimSpace e.text) "%")) = some sel →
      (doc.find sel).find? (fun e => Contains (TrimSpace e.text) "%") = some e →
      findDiscountText doc discountSelectors "" = TrimSpace e.text ∧
      (∀ ds ws rest, ds ≠ [] → (∀ c ∈ ds, c.isDigit = true) →
        (∀ c ∈ ws, isReSpace c = true) →
        (TrimSpace e.text).data = ds ++ (ws ++ '%' :: rest) →
        ((digitsVal ds : ℚ) < float64Limit →
          MercadoLivreScraper.discountFromDocument doc = ((digitsVal ds : ℚ), none)) ∧
        (ds.length ≤ 308 →
          MercadoLivreScraper.discountFromDocument doc = ((digitsVal ds : ℚ), none)) ∧
        (float64Limit ≤ (digitsVal ds : ℚ) →
          MercadoLivreScraper.discountFromDocument doc = (0, none))) ∧
      (∀ ds fd ws rest, ds ≠ [] → fd ≠ [] → (∀ c ∈ ds, c.isDigit = true) →
        (∀ c ∈ fd, c.isDigit = true) → (∀ c ∈ ws, isReSpace c = true) →
        (TrimSpace e.text).data = ds ++ '.' :: fd ++ (ws ++ '%' :: rest) →
        ((digitsVal ds : ℚ) + (digitsVal fd : ℚ) / (10 : ℚ) ^ fd.length < float64Limit →
          MercadoLivreScraper.discountFromDocument doc =
            ((digitsVal ds : ℚ) + (digitsVal fd : ℚ) / (10 : ℚ) ^ fd.length, none)) ∧
        (ds.length ≤ 308 →
          MercadoLivreScraper.discountFromDocument doc =
            ((digitsVal ds : ℚ) + (digitsVal fd : ℚ) / (10 : ℚ) ^ fd.length, none)) ∧
        (float64Limit ≤ (digitsVal ds : ℚ) + (digitsVal fd : ℚ) / (10 : ℚ) ^ fd.length →
          MercadoLivreScraper.discountFromDocument doc = (0, none))) ∧
      ((¬ ∃ pre d ws post, (TrimSpace e.text).data = pre ++ d :: (ws ++ '%' :: post) ∧
          d.isDigit = true ∧ ∀ c ∈ ws, isReSpace c = true) →
        MercadoLivreScraper.discountFromDocument doc = (0, none))) ∧
    (∀ (web : String → Response) (url : String),
      web (MercadoLivreScraper.cleanURL url) = Response.received 200 (some doc) →
      MercadoLivreScraper.GetDiscount web url =
        MercadoLivreScraper.discountFromDocument doc) := by
  refine ⟨?_, ?_, ?_⟩
  · intro hall
    have hnone : discountSelectors.find? (fun sel =>
        (doc.find sel).any (fun e => Contains (TrimSpace e.text) "%")) = none := by
      rw [List.find?_eq_none]
      intro sel hsel hany
      obtain ⟨e, he, hc⟩ := List.any_eq_true.mp hany
      rw [hall sel hsel e he] at hc
      exact absurd hc (by decide)
    unfold MercadoLivreScraper.discountFromDocument
    rw [findDiscountText_empty, hnone]
    rfl
  · intro sel e hsel he
    have htext : findDiscountText doc discountSelectors "" = TrimSpace e.text := by
      rw [findDiscountText_empty, hsel]
      simp only
      rw [firstWithPercent_empty, he]
    have hdoc : MercadoLivreScraper.discountFromDocument doc =
        parseDiscountText (TrimSpace e.text) := by
      unfold MercadoLivreScraper.discountFromDocument
      rw [htext]
    refine ⟨htext, ?_, ?_, ?_⟩
    · intro ds ws rest hne hds hws ht
      have h := parseDiscountText_integer _ ds ws rest hne hds hws ht
      rw [hdoc]
      exact ⟨h.1, fun hlen => h.1 (inRange_of_length ds [] hds (by simp) hlen).1, h.2⟩
    · intro ds fd ws rest hne hfne hds hfd hws ht
      have h := parseDiscountText_decimal _ ds fd ws rest hne hfne hds hfd hws ht
      rw [hdoc]
      exact ⟨h.1, fun hlen => h.1 (inRange_of_length ds fd hds hfd hlen).2, h.2⟩
    · intro hno
      rw [hdoc]
      exact parseDiscountText_none _ hno
  · intro web url hweb
    unfold MercadoLivreScraper.GetDiscount MercadoLivreScraper.fetch
    rw [hweb]
    simp only [ne_eq, not_true_eq_false, if_false]

/-- Witness of C16 (amended): no discount element gives 0; `17% OFF` gives 17; `17 % OFF` gives
17; `12.5% OFF` gives 12.5; `% OFF` gives 0. -/
theorem discount_extraction_witness :
    MercadoLivreScraper.discountFromDocument twoPriceDocument = (0, none) ∧
    MercadoLivreScraper.discountFromDocument discountDocument =
      ((digitsVal ['1', '7'] : ℚ), none) ∧
    MercadoLivreScraper.discountFromDocument spacedDiscountDocument =
      ((digitsVal ['1', '7'] : ℚ), none) ∧
    MercadoLivreScraper.discountFromDocument decimalDiscountDocument =
      ((digitsVal ['1', '2'] : ℚ) + (digitsVal ['5'] : ℚ) / (10 : ℚ) ^ ['5'].length, none) ∧
    MercadoLivreScraper.discountFromDocument bareDiscountDocument = (0, none) ∧
    MercadoLivreScraper.discountFromDocument discountDocument = (17, none) :=
  ⟨(discount_extraction twoPriceDocument).1 (by decide),
   (((discount_extraction discountDocument).2.1 ".andes-money-amount__discount"
      { text := " 17% OFF ", attrs := [] } (by decide) (by decide)).2.1
      ['1', '7'] [] " OFF".data (by decide) (by decide) (by decide) (by decide)).2.1
      (by decide),
   (((discount_extraction spacedDiscountDocument).2.1 ".andes-money-amount__discount"
      { text := "17 % OFF", attrs := [] } (by decide) (by decide)).2.1
      ['1', '7'] [' '] " OFF".data (by decide) (by decide) (by decide) (by decide)).2.1
      (by decide),
   (((discount_extraction decimalDiscountDocument).2.1 ".ui-pdp-price__discount"
      { text := "12.5% OFF", attrs := [] } (by decide) (by decide)).2.2.1
      ['1', '2'] ['5'] [] " OFF".data (by decide) (by decide) (by decide) (by decide)
      (by decide) (by decide)).2.1 (by decide),
   ((discount_extraction bareDiscountDocument).2.1 ".ui-pdp-price__discount"
      { text := "% OFF", attrs := [] } (by decide) (by decide)).2.2.2 (by
        rintro ⟨pre, d, ws, post, h, hd, -⟩
        have hmem : d ∈ (TrimSpace "% OFF").data := by rw [h]; simp
        have hall : ∀ c ∈ (TrimSpace "% OFF").data, c.isDigit = false := by decide
        rw [hall d hmem] at hd
        exact absurd hd (by decide)),
   by decide⟩

/-! ### The product name -/

/-- One selector of the name loop, starting from the empty name: the trimmed text of the first
element selected. -/
theorem findName_step (els : List Element) :
    (els.take 1).foldl (fun acc e => if acc = "" then TrimSpace e.text else acc) "" =
      headText els := by
  cases els with
  | nil => rfl
  | cons e es => simp [headText]

/-- The name loop ends with the empty name when no selector has a first element with text. -/
theorem findName_blank (doc : Document) (sels : List String)
    (h : ∀ s ∈ sels, headText (doc.find s) = "") : findName doc sels "" = "" := by
  induction sels with
  | nil => rfl
  | cons sel rest ih =>
    unfold findName
    simp only [findName_step, h sel (List.mem_cons_self sel rest), ne_eq, not_true_eq_false,
      if_false]
    exact ih (fun s hs => h s (List.mem_cons_of_mem sel hs))

/-- The name loop ends with the text of the first selector whose first element has text. -/
theorem findName_split (doc : Document) (pre : List String) (sel : String) (post : List String)
    (hpre : ∀ s ∈ pre, headText (doc.find s) = "") (hsel : headText (doc.find sel) ≠ "") :
    findName doc (pre ++ sel :: post) "" = headText (doc.find sel) := by
  induction pre with
  | nil =>
    rw [List.nil_append]
    unfold findName
    simp only [findName_step, ne_eq, hsel, not_false_eq_true, if_true]
  | cons s rest ih =>
    rw [List.cons_append]
    unfold findName
    simp only [findName_step, hpre s (List.mem_cons_self s rest), ne_eq, not_true_eq_false,
      if_false]
    exact ih (fun t ht => hpre t (List.mem_cons_of_mem s ht))

/-- The name pattern captures one group, which is not empty. -/
theorem nameRe_group (s : List Char) (caps : List (List Char))
    (h : Re.findSubmatch nameRe s = some caps) : ∃ g, caps = [g] ∧ g ≠ [] := by
  obtain ⟨pre, t, x, -, hx, rfl⟩ := findSubmatch_some nameRe s caps h
  unfold nameRe at hx
  rw [mem_matchAt_seq] at hx
  obtain ⟨y1, hy1, z1, hz1, rfl⟩ := hx
  rw [mem_matchAt_seq] at hz1
  obtain ⟨y2, hy2, z2, hz2, rfl⟩ := hz1
  rw [mem_matchAt_seq] at hz2
  obtain ⟨y3, hy3, z3, hz3, rfl⟩ := hz2
  rw [mem_matchAt_seq] at hz3
  obtain ⟨y4, hy4, z4, hz4, rfl⟩ := hz3
  rw [mem_matchAt_seq] at hz4
  obtain ⟨y5, hy5, z5, hz5, rfl⟩ := hz4
  rw [mem_matchAt_seq] at hz5
  obtain ⟨y6, hy6, z6, hz6, rfl⟩ := hz5
  have h1 := (mem_matchAt_lit _ _ _ hy1).2
  rw [Re_space_eq] at hy2 hy4
  obtain ⟨-, -, -, h2⟩ := mem_matchAt_star_cls _ _ _ hy2
  have h3 := (mem_matchAt_lit _ _ _ hy3).2
  obtain ⟨-, -, -, h4⟩ := mem_matchAt_star_cls _ _ _ hy4
  have h5 := (mem_matchAt_lit _ _ _ hy5).2
  have h7 := (mem_matchAt_lit _ _ _ hz6).2
  rw [mem_matchAt_group] at hy6
  obtain ⟨w, hw, rfl⟩ := hy6
  obtain ⟨c, cs, hs, -, -, hw1⟩ := mem_matchAt_plus_cls _ _ _ hw
  have htake : y5.2.take (y5.2.length - w.2.length) = c :: cs := by
    rw [hs]
    have : (c :: cs ++ w.2).length - w.2.length = (c :: cs).length := by
      simp only [List.length_append, List.length_cons]
      omega
    rw [this]
    exact List.take_left' rfl
  refine ⟨c :: cs, ?_, by simp⟩
  simp only [h1, h2, h3, h4, h5, h7, hw1, htake, List.nil_append, List.append_nil]

/-- Scripts in which the name pattern does not match leave the name unchanged. -/
theorem jsonLdName_fold_none (els : List Element) (name : String)
    (h : ∀ e ∈ els, Re.findSubmatch nameRe e.text.data = none) :
    els.foldl (fun name e =>
      match Re.findSubmatch nameRe e.text.data with
      | some (g :: _) => ⟨g⟩
      | _ => name) name = name := by
  induction els generalizing name with
  | nil => rfl
  | cons e es ih =>
    rw [List.foldl_cons]
    simp only [h e (List.mem_cons_self e es)]
    exact ih name (fun x hx => h x (List.mem_cons_of_mem e hx))

/-- The JSON-LD fallback leaves the name unchanged when the pattern matches in no script. -/
theorem jsonLdName_none (doc : Document) (name : String)
    (h : ∀ e ∈ doc.find "script[type=\x27application/ld+json\x27]",
      Re.findSubmatch nameRe e.text.data = none) : jsonLdName doc name = name := by
  unfold jsonLdName
  exact jsonLdName_fold_none _ name h

/-- The JSON-LD fallback ends with the group of the last script in which the pattern matches. -/
theorem jsonLdName_last (doc : Document) (name : String) (pre : List Element) (e : Element)
    (post : List Element) (g : List Char) (gs : List (List Char))
    (hsplit : doc.find "script[type=\x27application/ld+json\x27]" = pre ++ e :: post)
    (he : Re.findSubmatch nameRe e.text.data = some (g :: gs))
    (hpost : ∀ x ∈ post, Re.findSubmatch nameRe x.text.data = none) :
    jsonLdName doc name = ⟨g⟩ := by
  unfold jsonLdName
  rw [hsplit, List.foldl_append, List.foldl_cons]
  simp only [he]
  exact jsonLdName_fold_none post _ hpost

/-- `GetName` on a parsed page returns a non-empty name and a nil error. -/
theorem nameFromDocument_ne (doc : Document) :
    (MercadoLivreScraper.nameFromDocument doc).2 = none ∧
    (MercadoLivreScraper.nameFromDocument doc).1 ≠ "" := by
  have hn : ∀ n : String, (if n = "" then "Produto sem nome" else n) ≠ "" := by
    intro n
    by_cases h : n = ""
    · rw [if_pos h]; decide
    · rw [if_neg h]; exact h
  exact ⟨rfl, hn _⟩

/-- A name returned by `GetName` without error is not empty. -/
theorem GetName_ne (web : String → Response) (url : String)
    (h : (MercadoLivreScraper.GetName web url).2 = none) :
    (MercadoLivreScraper.GetName web url).1 ≠ "" := by
  unfold MercadoLivreScraper.GetName at h ⊢
  cases hf : MercadoLivreScraper.fetch web url with
  | error err => rw [hf] at h; simp at h
  | ok doc => exact (nameFromDocument_ne doc).2

/-- Once a scraper is found, `db.AddProduct` is called, with the placeholder name when `GetName`
returns an error. -/
theorem addWithName_found (registry : Registry) (url : String) (tp td : ℚ) (s : Scraper)
    (hs : registry.FindScraper url = some s) :
    addWithName registry url tp td = AddStep.addProduct url
      (if (s.GetName url).2.isSome then "Produto sem nome" else (s.GetName url).1) tp td := by
  unfold addWithName
  rw [hs]
  cases hg : (s.GetName url).2 <;> simp [hg]

/-- With the default registry, the name passed to `db.AddProduct` is not empty. -/
theorem addWithName_default (web : String → Response) (url name : String)
    (tp td : ℚ) (url2 : String) (tp2 td2 : ℚ)
    (h : addWithName (NewRegistry web) url tp td = AddStep.addProduct url2 name tp2 td2) :
    name ≠ "" := by
  unfold addWithName at h
  cases hf : (NewRegistry web).FindScraper url with
  | none => rw [hf] at h; simp at h
  | some s =>
    have hs : s = NewMercadoLivreScraper web := by
      unfold Registry.FindScraper NewRegistry at hf
      simp only [List.find?_cons, List.find?_nil] at hf
      split at hf
      · exact (Option.some.inj hf).symm
      · exact absurd hf (by simp)
    rw [hf] at h
    simp only [AddStep.addProduct.injEq] at h
    rw [← h.2.1, hs]
    show (match (MercadoLivreScraper.GetName web url).2 with
      | some _ => "Produto sem nome"
      | none => (MercadoLivreScraper.GetName web url).1) ≠ ""
    cases hg : (MercadoLivreScraper.GetName web url).2 with
    | some err => simp only; decide
    | none => simp only; exact GetName_ne web url hg

/-- C18. Name lookup.  On every parsed page `GetName` returns a nil error and a non-empty name:
the trimmed text of the first element of the first heading selector (in list order) where that
text is not empty; failing that, the non-empty group of the name pattern in the last JSON-LD
script where it matches; failing that, exactly `Produto sem nome`; and through a fetch with
status 200 and a parsed page the method returns this result.  In `handleAddProduct`, once a
scraper is found, `db.AddProduct` is called whatever `GetName` returns: with the name
`Produto sem nome` when `GetName` returns an error, with the name returned otherwise; so a
message with a URL, a valid target (a positive price, or a discount from 0 to 100 with `%`) and
a scraper for the URL always reaches `db.AddProduct`.  With the default registry the name
passed to `db.AddProduct` is never empty. -/
theorem name_lookup_total :
    (∀ doc : Document,
      (MercadoLivreScraper.nameFromDocument doc).2 = none ∧
      (MercadoLivreScraper.nameFromDocument doc).1 ≠ "" ∧
      (∀ pre sel post, nameSelectors = pre ++ sel :: post →
        (∀ s ∈ pre, headText (doc.find s) = "") → headText (doc.find sel) ≠ "" →
        (MercadoLivreScraper.nameFromDocument doc).1 = headText (doc.find sel)) ∧
      ((∀ s ∈ nameSelectors, headText (doc.find s) = "") →
        (∀ pre e post g gs,
          doc.find "script[type=\x27application/ld+json\x27]" = pre ++ e :: post →
          Re.findSubmatch nameRe e.text.data = some (g :: gs) →
          (∀ x ∈ post, Re.findSubmatch nameRe x.text.data = none) →
          g ≠ [] ∧ (MercadoLivreScraper.nameFromDocument doc).1 = ⟨g⟩) ∧
        ((∀ e ∈ doc.find "script[type=\x27application/ld+json\x27]",
            Re.findSubmatch nameRe e.text.data = none) →
          (MercadoLivreScraper.nameFromDocument doc).1 = "Produto sem nome")) ∧
      (∀ (web : String → Response) (url : String),
        web (MercadoLivreScraper.cleanURL url) = Response.received 200 (some doc) →
        MercadoLivreScraper.GetName web url = MercadoLivreScraper.nameFromDocument doc)) ∧
    (∀ (registry : Registry) (url : String) (tp td : ℚ) (s : Scraper),
      registry.FindScraper url = some s →
      ((s.GetName url).2 ≠ none →
        addWithName registry url tp td = AddStep.addProduct url "Produto sem nome" tp td) ∧
      ((s.GetName url).2 = none →
        addWithName registry url tp td = AddStep.addProduct url (s.GetName url).1 tp td)) ∧
    (∀ (ParseFloat : String → Option ℚ) (web : String → Response) (text url name : String)
      (tp td : ℚ),
      handleAddProduct ParseFloat (NewRegistry web) text = AddStep.addProduct url name tp td →
      name ≠ "") ∧
    (∀ (ParseFloat : String → Option ℚ) (registry : Registry) (text cmd url targetStr : String)
      (rest : List String) (s : Scraper),
      Fields text = cmd :: url :: targetStr :: rest → registry.FindScraper url = some s →
      (∀ price, HasSuffix targetStr "%" = false → ParseFloat targetStr = some price →
        0 < price →
        handleAddProduct ParseFloat registry text = AddStep.addProduct url
          (if (s.GetName url).2.isSome then "Produto sem nome" else (s.GetName url).1)
          price 0) ∧
      (∀ discount, HasSuffix targetStr "%" = true →
        ParseFloat (TrimSuffix targetStr "%") = some discount → 0 ≤ discount →
        discount ≤ 100 →
        handleAddProduct ParseFloat registry text = AddStep.addProduct url
          (if (s.GetName url).2.isSome then "Produto sem nome" else (s.GetName url).1)
          0 discount)) := by
  refine ⟨?_, ?_, ?_, ?_⟩
  · intro doc
    refine ⟨(nameFromDocument_ne doc).1, (nameFromDocument_ne doc).2, ?_, ?_, ?_⟩
    · intro pre sel post hsplit hpre hsel
      unfold MercadoLivreScraper.nameFromDocument
      rw [hsplit, findName_split doc pre sel post hpre hsel]
      simp only [if_neg hsel]
    · intro hblank
      have hfn := findName_blank doc nameSelectors hblank
      constructor
      · intro pre e post g gs hsplit he hpost
        obtain ⟨g0, hg0, hne⟩ := nameRe_group _ _ he
        have hg : g = g0 := (List.cons.inj hg0).1
        have hgne : g ≠ [] := by rw [hg]; exact hne
        have hs : (⟨g⟩ : String) ≠ "" := by
          intro h
          exact hgne (congrArg String.data h)
        refine ⟨hgne, ?_⟩
        unfold MercadoLivreScraper.nameFromDocument
        rw [hfn]
        simp only [if_true, jsonLdName_last doc "" pre e post g gs hsplit he hpost, if_neg hs]
      · intro hnone
        unfold MercadoLivreScraper.nameFromDocument
        rw [hfn]
        simp only [if_true, jsonLdName_none doc "" hnone]
    · intro web url hweb
      unfold MercadoLivreScraper.GetName MercadoLivreScraper.fetch
      rw [hweb]
      simp only [ne_eq, not_true_eq_false, if_false]
  · intro registry url tp td s hs
    unfold addWithName
    rw [hs]
    constructor
    · intro herr
      cases hg : (s.GetName url).2 with
      | none => exact absurd hg herr
      | some err => simp only [hg]
    · intro hok
      simp only [hok]
  · intro ParseFloat web text url name tp td h
    unfold handleAddProduct at h
    split at h
    · split at h
      · split at h
        · exact absurd h (by simp)
        · split at h
          · exact absurd h (by simp)
          · exact addWithName_default web _ name _ _ url tp td h
      · split at h
        · exact absurd h (by simp)
        · split at h
          · exact absurd h (by simp)
          · exact addWithName_default web _ name _ _ url tp td h
    · exact absurd h (by simp)
  · intro ParseFloat registry text cmd url targetStr rest s hfields hs
    constructor
    · intro price hsuf hparse hpos
      unfold handleAddProduct
      rw [hfields]
      simp only [hsuf, Bool.false_eq_true, if_false, hparse, if_neg (not_le.mpr hpos)]
      exact addWithName_found registry url price 0 s hs
    · intro discount hsuf hparse h0 h100
      unfold handleAddProduct
      rw [hfields]
      have hr : ¬ (discount < 0 ∨ discount > 100) := by
        intro h
        rcases h with h | h
        · exact absurd h0 (not_le.mpr h)
        · exact absurd h100 (not_le.mpr h)
      simp only [hsuf, if_true, hparse, if_neg hr]
      exact addWithName_found registry url 0 discount s hs

/-- Witness of C18: the title of `headingDocument` comes from the third selector, the first one
being blank; `jsonNameDocument` gets the name of its second block; a page without name gets the
placeholder; and when the fetch fails, `/add` continues with the placeholder. -/
theorem name_lookup_total_witness :
    (MercadoLivreScraper.nameFromDocument headingDocument).1 =
      headText (headingDocument.find ".ui-pdp-title") ∧
    ("TV 50".data ≠ [] ∧ (MercadoLivreScraper.nameFromDocument jsonNameDocument).1 = "TV 50") ∧
    (MercadoLivreScraper.nameFromDocument twoPriceDocument).1 = "Produto sem nome" ∧
    addWithName (NewRegistry failingWeb) "https://mercadolivre.com.br/p/MLB1" 3000 0 =
      AddStep.addProduct "https://mercadolivre.com.br/p/MLB1" "Produto sem nome" 3000 0 ∧
    handleAddProduct exampleParseFloat (NewRegistry failingWeb)
        "/add https://mercadolivre.com.br/p/MLB1 3000" =
      AddStep.addProduct "https://mercadolivre.com.br/p/MLB1" "Produto sem nome" 3000 0 ∧
    "Produto sem nome" ≠ "" :=
  have hdoc := name_lookup_total.1
  have hadd : handleAddProduct exampleParseFloat (NewRegistry failingWeb)
        "/add https://mercadolivre.com.br/p/MLB1 3000" =
      AddStep.addProduct "https://mercadolivre.com.br/p/MLB1" "Produto sem nome" 3000 0 := by
    decide
  ⟨(hdoc headingDocument).2.2.1 ["h1.ui-pdp-title", "h1[data-testid=\x27title\x27]"]
      ".ui-pdp-title" ["h1"] (by decide) (by decide) (by decide),
   ((hdoc jsonNameDocument).2.2.2.1 (by decide)).1
      [{ text := "\x7b\"name\": \"Loja\"\x7d", attrs := [] }]
      { text := "\x7b\"name\" : \"TV 50\", \"price\": 10\x7d", attrs := [] }
      [{ text := "\x7b\"name\": \"\"\x7d", attrs := [] }] "TV 50".data [] (by decide)
      (by decide) (by decide),
   ((hdoc twoPriceDocument).2.2.2.1 (by decide)).2 (by decide),
   (name_lookup_total.2.1 (NewRegistry failingWeb) "https://mercadolivre.com.br/p/MLB1" 3000 0
      (NewMercadoLivreScraper failingWeb) (by
        unfold Registry.FindScraper NewRegistry NewMercadoLivreScraper
        have h : MercadoLivreScraper.CanHandle "https://mercadolivre.com.br/p/MLB1" = true := by
          decide
        simp only [List.find?_cons, h])).1 (by decide),
   hadd,
   name_lookup_total.2.2.1 exampleParseFloat failingWeb
     "/add https://mercadolivre.com.br/p/MLB1 3000" "https://mercadolivre.com.br/p/MLB1"
     "Produto sem nome" 3000 0 hadd⟩

/-! ### The cycle and the on-demand check -/

/-- The price update in closed form. -/
theorem persistPrices_eq (db : DB) (id : Int) (cp o d : ℚ) :
    persistPrices db id cp o d =
      if db.execFails id then (db, some GoError.exec)
      else ({ db with rows := db.rows.map (fun r =>
          if r.ID = id then updatedRow cp o d db.now r else r) }, none) := by
  unfold persistPrices updatedRow DB.UpdateProductPricesWithDiscount DB.UpdateProductPrice
  by_cases hc : d > 0 ∨ o > 0
  · simp only [if_pos hc]
  · simp only [if_neg hc]

/-- The final block of `checkProduct` appends the notification of the checks. -/
theorem notify_eq (m : Monitor) (product : Product) (cp o d : ℚ) :
    Monitor.notify m (targetDiscountCheck product cp o d
        (targetPriceCheck product cp NotifyState.init)) =
      { m with sent := m.sent ++ notification m.getenv product cp o d } := by
  obtain ⟨db, reg, env, sent⟩ := m
  unfold Monitor.notify notification
  simp only
  generalize targetDiscountCheck product cp o d
    (targetPriceCheck product cp NotifyState.init) = st
  by_cases h : st.shouldNotify = true
  · rw [if_pos h, if_pos h]
    cases parseInt (env "TELEGRAM_CHAT_ID") <;> simp
  · rw [if_neg h, if_neg h]
    simp

/-- A call of `checkProduct` whose scraper is found, whose price is extracted and whose row
update succeeds: the rows of the product are rewritten and the notification is appended. -/
theorem checkProduct_success (m : Monitor) (product : Product) (s : Scraper) (cp : ℚ)
    (hs : m.registry.FindScraper product.URL = some s)
    (hp : s.GetPrice product.URL = (cp, none))
    (hex : m.db.execFails product.ID = false) :
    m.checkProduct product =
      { m with
        db := { m.db with rows := m.db.rows.map (fun r =>
          if r.ID = product.ID then
            updatedRow cp (s.GetOriginalPrice product.URL).1 (s.GetDiscount product.URL).1
              m.db.now r
          else r) }
        sent := m.sent ++ notification m.getenv product cp
          (s.GetOriginalPrice product.URL).1 (s.GetDiscount product.URL).1 } := by
  have hdb := persistPrices_eq m.db product.ID cp (s.GetOriginalPrice product.URL).1
    (s.GetDiscount product.URL).1
  rw [hex] at hdb
  simp only [Bool.false_eq_true, if_false] at hdb
  rw [checkProduct_eq m product s cp _ hs hp hdb, notify_eq]

/-- A call of `checkProduct` that fails (no scraper, price error or failed update) leaves the
monitor as it was. -/
theorem checkProduct_failure (m : Monitor) (product : Product) :
    (m.registry.FindScraper product.URL = none → m.checkProduct product = m) ∧
    (∀ s v err, m.registry.FindScraper product.URL = some s →
      s.GetPrice product.URL = (v, some err) → m.checkProduct product = m) ∧
    (∀ s cp, m.registry.FindScraper product.URL = some s →
      s.GetPrice product.URL = (cp, none) → m.db.execFails product.ID = true →
      m.checkProduct product = m) := by
  refine ⟨?_, ?_, ?_⟩
  · intro h
    simp only [Monitor.checkProduct, h]
  · intro s v err hs hp
    simp only [Monitor.checkProduct, hs, hp]
  · intro s cp hs hp hex
    have hdb := persistPrices_eq m.db product.ID cp (s.GetOriginalPrice product.URL).1
      (s.GetDiscount product.URL).1
    rw [hex] at hdb
    simp only [if_true] at hdb
    simp only [Monitor.checkProduct, hs, hp, hdb]

/-- The row written keeps its ID. -/
theorem updatedRow_ID (cp o d : ℚ) (now : Nat) (r : Product) :
    (updatedRow cp o d now r).ID = r.ID := by
  unfold updatedRow
  split <;> rfl

/-- What one call of `checkProduct` leaves unchanged. -/
theorem checkProduct_step (m : Monitor) (product : Product) :
    (m.checkProduct product).registry = m.registry ∧
    (m.checkProduct product).getenv = m.getenv ∧
    (m.checkProduct product).db.execFails = m.db.execFails ∧
    (m.checkProduct product).db.now = m.db.now ∧
    (∃ l, (m.checkProduct product).sent = m.sent ++ l) ∧
    (∃ g : Product → Product, (m.checkProduct product).db.rows = m.db.rows.map g ∧
      ∀ r, (g r).ID = r.ID ∧ (r.ID ≠ product.ID → g r = r)) := by
  have hsame : m.checkProduct product = m →
      (m.checkProduct product).registry = m.registry ∧
      (m.checkProduct product).getenv = m.getenv ∧
      (m.checkProduct product).db.execFails = m.db.execFails ∧
      (m.checkProduct product).db.now = m.db.now ∧
      (∃ l, (m.checkProduct product).sent = m.sent ++ l) ∧
      (∃ g : Product → Product, (m.checkProduct product).db.rows = m.db.rows.map g ∧
        ∀ r, (g r).ID = r.ID ∧ (r.ID ≠ product.ID → g r = r)) := by
    intro h
    rw [h]
    exact ⟨rfl, rfl, rfl, rfl, ⟨[], by simp⟩, ⟨id, by simp, fun r => ⟨rfl, fun _ => rfl⟩⟩⟩
  cases hs : m.registry.FindScraper product.URL with
  | none => exact hsame ((checkProduct_failure m product).1 hs)
  | some s =>
    rcases hp : s.GetPrice product.URL with ⟨cp, e⟩
    cases e with
    | some err => exact hsame ((checkProduct_failure m product).2.1 s cp err hs hp)
    | none =>
      cases hex : m.db.execFails product.ID with
      | true => exact hsame ((checkProduct_failure m product).2.2 s cp hs hp hex)
      | false =>
        rw [checkProduct_success m product s cp hs hp hex]
        refine ⟨rfl, rfl, rfl, rfl, ⟨_, rfl⟩, ⟨_, rfl, fun r => ⟨?_, ?_⟩⟩⟩
        · by_cases h : r.ID = product.ID
          · simp only [if_pos h, updatedRow_ID]
          · simp only [if_neg h]
        · intro h
          simp only [if_neg h]

/-- What a run of `checkProduct` over a list of products leaves unchanged. -/
theorem checkProduct_fold (ps : List Product) (m : Monitor) :
    (ps.foldl (fun m q => m.checkProduct q) m).registry = m.registry ∧
    (ps.foldl (fun m q => m.checkProduct q) m).getenv = m.getenv ∧
    (ps.foldl (fun m q => m.checkProduct q) m).db.execFails = m.db.execFails ∧
    (ps.foldl (fun m q => m.checkProduct q) m).db.now = m.db.now ∧
    (∃ l, (ps.foldl (fun m q => m.checkProduct q) m).sent = m.sent ++ l) ∧
    (∃ g : Product → Product,
      (ps.foldl (fun m q => m.checkProduct q) m).db.rows = m.db.rows.map g ∧
      ∀ r, (g r).ID = r.ID ∧ ((∀ q ∈ ps, q.ID ≠ r.ID) → g r = r)) := by
  induction ps generalizing m with
  | nil =>
    exact ⟨rfl, rfl, rfl, rfl, ⟨[], by simp⟩, ⟨id, by simp, fun r => ⟨rfl, fun _ => rfl⟩⟩⟩
  | cons p ps ih =>
    rw [List.foldl_cons]
    obtain ⟨h1, h2, h3, h4, ⟨l1, h5⟩, ⟨g1, h6, h7⟩⟩ := checkProduct_step m p
    obtain ⟨k1, k2, k3, k4, ⟨l2, k5⟩, ⟨g2, k6, k7⟩⟩ := ih (m.checkProduct p)
    refine ⟨k1.trans h1, k2.trans h2, k3.trans h3, k4.trans h4, ⟨l1 ++ l2, ?_⟩,
      ⟨g2 ∘ g1, ?_, fun r => ⟨?_, ?_⟩⟩⟩
    · rw [k5, h5, List.append_assoc]
    · rw [k6, h6, List.map_map]
    · show (g2 (g1 r)).ID = r.ID
      rw [(k7 (g1 r)).1, (h7 r).1]
    · intro hall
      show g2 (g1 r) = r
      have hp : r.ID ≠ p.ID := fun h => hall p (List.mem_cons_self p ps) h.symm
      rw [(h7 r).2 hp]
      exact (k7 r).2 (fun q hq => hall q (List.mem_cons_of_mem p hq))

/-- C21. Failure containment in a cycle.  When the active products are read as `pre ++ p :: post`,
`checkAllProducts` runs `checkProduct` on `p` in the state left by the products of `pre` and
then goes on with `post`, whatever happened with the other products.  If a scraper is found for
`p`, its price is extracted and its row update does not fail, then the notification decided for
`p` and this observation is among the messages sent in the cycle, the rows of `p` are rewritten
with the observation when `p` is reached, a row of `p` exists after the cycle, and, no later
product having the ID of `p`, every row of `p` after the cycle holds the new price and the
time of the check. -/
theorem cycle_failure_containment (m : Monitor) (products pre post : List Product)
    (p : Product) (hq : m.db.GetActiveProducts = (products, none))
    (hsplit : products = pre ++ p :: post) :
    m.checkAllProducts =
      post.foldl (fun m q => m.checkProduct q)
        ((pre.foldl (fun m q => m.checkProduct q) m).checkProduct p) ∧
    ∀ (s : Scraper) (cp : ℚ), m.registry.FindScraper p.URL = some s →
      s.GetPrice p.URL = (cp, none) → m.db.execFails p.ID = false →
      (∃ earlier later, m.checkAllProducts.sent =
        earlier ++ notification m.getenv p cp (s.GetOriginalPrice p.URL).1
          (s.GetDiscount p.URL).1 ++ later) ∧
      ((pre.foldl (fun m q => m.checkProduct q) m).checkProduct p).db.rows =
        (pre.foldl (fun m q => m.checkProduct q) m).db.rows.map (fun r =>
          if r.ID = p.ID then
            updatedRow cp (s.GetOriginalPrice p.URL).1 (s.GetDiscount p.URL).1 m.db.now r
          else r) ∧
      (∃ r ∈ m.checkAllProducts.db.rows, r.ID = p.ID) ∧
      ((∀ q ∈ post, q.ID ≠ p.ID) → ∀ r ∈ m.checkAllProducts.db.rows, r.ID = p.ID →
        r.CurrentPrice = cp ∧ r.LastChecked = some m.db.now) := by
  have hall : m.checkAllProducts =
      post.foldl (fun m q => m.checkProduct q)
        ((pre.foldl (fun m q => m.checkProduct q) m).checkProduct p) := by
    unfold Monitor.checkAllProducts
    rw [hq]
    simp only
    rw [hsplit, List.foldl_append, List.foldl_cons]
  refine ⟨hall, ?_⟩
  intro s cp hs hp hex
  obtain ⟨b1, b2, b3, b4, ⟨l1, b5⟩, ⟨g1, b6, b7⟩⟩ := checkProduct_fold pre m
  have hs' : (pre.foldl (fun m q => m.checkProduct q) m).registry.FindScraper p.URL = some s := by
    rw [b1]; exact hs
  have hex' : (pre.foldl (fun m q => m.checkProduct q) m).db.execFails p.ID = false := by
    rw [b3]; exact hex
  have hstep := checkProduct_success (pre.foldl (fun m q => m.checkProduct q) m) p s cp hs' hp hex'
  obtain ⟨c1, c2, c3, c4, ⟨l2, c5⟩, ⟨g2, c6, c7⟩⟩ :=
    checkProduct_fold post ((pre.foldl (fun m q => m.checkProduct q) m).checkProduct p)
  have hrows : ((pre.foldl (fun m q => m.checkProduct q) m).checkProduct p).db.rows =
      (pre.foldl (fun m q => m.checkProduct q) m).db.rows.map (fun r =>
        if r.ID = p.ID then
          updatedRow cp (s.GetOriginalPrice p.URL).1 (s.GetDiscount p.URL).1 m.db.now r
        else r) := by
    rw [hstep, b4]
  have hsent : ((pre.foldl (fun m q => m.checkProduct q) m).checkProduct p).sent =
      (pre.foldl (fun m q => m.checkProduct q) m).sent ++
        notification m.getenv p cp (s.GetOriginalPrice p.URL).1 (s.GetDiscount p.URL).1 := by
    rw [hstep, b2]
  have hpmem : p ∈ m.db.rows := by
    unfold DB.GetActiveProducts at hq
    split at hq
    · simp at hq
    · have : products = m.db.rows.filter (fun p => p.Active) := by
        simpa using (Prod.mk.inj hq).1.symm
      have hp' : p ∈ products := by rw [hsplit]; simp
      rw [this] at hp'
      exact (List.mem_filter.mp hp').1
  refine ⟨⟨_, l2, by rw [hall, c5, hsent]⟩, hrows, ?_, ?_⟩
  · rw [hall, c6, hrows, b6]
    refine ⟨g2 ((fun r => if r.ID = p.ID then
        updatedRow cp (s.GetOriginalPrice p.URL).1 (s.GetDiscount p.URL).1 m.db.now r
      else r) (g1 p)), ?_, ?_⟩
    · simp only [List.map_map, List.mem_map]
      exact ⟨p, hpmem, rfl⟩
    · rw [(c7 _).1]
      have hg : (g1 p).ID = p.ID := (b7 p).1
      simp only [hg, if_true, updatedRow_ID]
  · intro hpost r hr hid
    rw [hall, c6, hrows] at hr
    simp only [List.map_map, List.mem_map, Function.comp] at hr
    obtain ⟨r0, hr0, rfl⟩ := hr
    have hid0 : r0.ID = p.ID := by
      have h1 := (c7 (if r0.ID = p.ID then
        updatedRow cp (s.GetOriginalPrice p.URL).1 (s.GetDiscount p.URL).1 m.db.now r0
        else r0)).1
      rw [h1] at hid
      by_cases h : r0.ID = p.ID
      · exact h
      · rw [if_neg h] at hid; exact hid
    rw [if_pos hid0] at hid ⊢
    have hfix := (c7 (updatedRow cp (s.GetOriginalPrice p.URL).1 (s.GetDiscount p.URL).1
      m.db.now r0)).2 (by
        intro q hq h
        rw [updatedRow_ID, hid0] at h
        exact hpost q hq h)
    rw [hfix]
    unfold updatedRow
    split <;> exact ⟨rfl, rfl⟩

/-- Witness of C21: in `cycleMonitor` the first product fails in price extraction and the third
has no scraper; the second is persisted with price 2999 and its target-price message is the one
message sent. -/
theorem cycle_failure_containment_witness :
    ((∃ earlier later, cycleMonitor.checkAllProducts.sent =
        earlier ++ notification cycleMonitor.getenv (exampleProduct 3000 0) 2999 0 0 ++ later) ∧
      (∃ r ∈ cycleMonitor.checkAllProducts.db.rows, r.ID = 1) ∧
      (∀ r ∈ cycleMonitor.checkAllProducts.db.rows, r.ID = 1 →
        r.CurrentPrice = 2999 ∧ r.LastChecked = some 7)) ∧
    cycleMonitor.checkAllProducts.sent =
      [(42, targetPriceMessage (exampleProduct 3000 0) 2999)] ∧
    cycleMonitor.checkAllProducts.db.rows =
      [{ exampleProduct 3000 0 with ID := 0, URL := "https://mercadolivre.com.br/p/MLB0" },
       { exampleProduct 3000 0 with CurrentPrice := 2999, LastChecked := some 7 },
       { exampleProduct 3000 0 with ID := 2, URL := "https://example.com/x" }] :=
  have h := (cycle_failure_containment cycleMonitor cycleMonitor.db.rows
    [{ exampleProduct 3000 0 with ID := 0, URL := "https://mercadolivre.com.br/p/MLB0" }]
    [{ exampleProduct 3000 0 with ID := 2, URL := "https://example.com/x" }]
    (exampleProduct 3000 0) (by decide) (by decide)).2 flakyScraper 2999
    (by
      have hc : flakyScraper.CanHandle (exampleProduct 3000 0).URL = true := by decide
      simp only [Registry.FindScraper, cycleMonitor, List.find?_cons, hc])
    (by decide) (by decide)
  ⟨⟨h.1, h.2.2.1, h.2.2.2 (by decide)⟩, by decide, by decide⟩

/-- C22 (counterexample). For a never-observed product with price target 3000 and a page at
2999, `checkProduct` sends the target-price message, while `CheckProduct` sends nothing and
returns the price 2999 without error. -/
theorem CheckProduct_sends_nothing :
    ((exampleMonitor (exampleProduct 3000 0) (exampleScraper 2999 0 0)).checkProduct
        (exampleProduct 3000 0)).sent =
      [(42, targetPriceMessage (exampleProduct 3000 0) 2999)] ∧
    ((exampleMonitor (exampleProduct 3000 0) (exampleScraper 2999 0 0)).CheckProduct
        (exampleProduct 3000 0)).1.sent = [] ∧
    ((exampleMonitor (exampleProduct 3000 0) (exampleScraper 2999 0 0)).CheckProduct
        (exampleProduct 3000 0)).2 = (2999, none) := by
  refine ⟨by decide, by decide, by decide⟩

/-- `CheckProduct` without a scraper for the URL. -/
theorem CheckProduct_noScraper (m : Monitor) (product : Product)
    (hs : m.registry.FindScraper product.URL = none) :
    m.CheckProduct product = (m, 0, some (CheckError.noScraper product.URL)) := by
  simp only [Monitor.CheckProduct, hs]

/-- `CheckProduct` when the price extraction fails. -/
theorem CheckProduct_priceError (m : Monitor) (product : Product) (s : Scraper) (v : ℚ)
    (err : GoError) (hs : m.registry.FindScraper product.URL = some s)
    (hp : s.GetPrice product.URL = (v, some err)) :
    m.CheckProduct product = (m, 0, some (CheckError.getPrice err)) := by
  simp only [Monitor.CheckProduct, hs, hp]

/-- `CheckProduct` when the row update fails: the price is returned with an error. -/
theorem CheckProduct_execFails (m : Monitor) (product : Product) (s : Scraper) (cp : ℚ)
    (hs : m.registry.FindScraper product.URL = some s)
    (hp : s.GetPrice product.URL = (cp, none)) (hex : m.db.execFails product.ID = true) :
    ∃ e, m.CheckProduct product = (m, cp, some e) := by
  by_cases hc : (s.GetDiscount product.URL).1 > 0 ∨ (s.GetOriginalPrice product.URL).1 > 0
  · exact ⟨CheckError.updatePrices GoError.exec, by
      simp only [Monitor.CheckProduct, hs, hp, DB.UpdateProductPricesWithDiscount, hex, if_true,
        if_pos hc]⟩
  · exact ⟨CheckError.updatePrice GoError.exec, by
      simp only [Monitor.CheckProduct, hs, hp, DB.UpdateProductPrice, hex, if_true,
        if_neg hc]⟩

/-- `CheckProduct` when the price is extracted and the row update succeeds. -/
theorem CheckProduct_success (m : Monitor) (product : Product) (s : Scraper) (cp : ℚ)
    (hs : m.registry.FindScraper product.URL = some s)
    (hp : s.GetPrice product.URL = (cp, none)) (hex : m.db.execFails product.ID = false) :
    m.CheckProduct product =
      ({ m with db := { m.db with rows := m.db.rows.map (fun r =>
          if r.ID = product.ID then
            updatedRow cp (s.GetOriginalPrice product.URL).1 (s.GetDiscount product.URL).1
              m.db.now r
          else r) } }, cp, none) := by
  by_cases hc : (s.GetDiscount product.URL).1 > 0 ∨ (s.GetOriginalPrice product.URL).1 > 0
  · simp only [Monitor.CheckProduct, hs, hp, DB.UpdateProductPricesWithDiscount, hex,
      Bool.false_eq_true, if_false, if_pos hc, updatedRow]
  · simp only [Monitor.CheckProduct, hs, hp, DB.UpdateProductPrice, hex,
      Bool.false_eq_true, if_false, if_neg hc, updatedRow]

/-- The monitor after `CheckProduct` is the one after `checkProduct` with the messages sent
taken back. -/
theorem CheckProduct_monitor (m : Monitor) (product : Product) :
    (m.CheckProduct product).1 = { m.checkProduct product with sent := m.sent } := by
  have hsame : (m.CheckProduct product).1 = m → m.checkProduct product = m →
      (m.CheckProduct product).1 = { m.checkProduct product with sent := m.sent } := by
    intro h1 h2
    rw [h1, h2]
  cases hs : m.registry.FindScraper product.URL with
  | none =>
    exact hsame (by rw [CheckProduct_noScraper m product hs])
      ((checkProduct_failure m product).1 hs)
  | some s =>
    rcases hp : s.GetPrice product.URL with ⟨cp, e⟩
    cases e with
    | some err =>
      exact hsame (by rw [CheckProduct_priceError m product s cp err hs hp])
        ((checkProduct_failure m product).2.1 s cp err hs hp)
    | none =>
      cases hex : m.db.execFails product.ID with
      | true =>
        obtain ⟨e, he⟩ := CheckProduct_execFails m product s cp hs hp hex
        exact hsame (by rw [he]) ((checkProduct_failure m product).2.2 s cp hs hp hex)
      | false =>
        rw [CheckProduct_success m product s cp hs hp hex,
          checkProduct_success m product s cp hs hp hex]

/-- C22 (amended). `CheckProduct` leaves the database as `checkProduct` does for the same product
and observation, sends no message and keeps registry and environment; it returns 0 with an
error when no scraper is found or the price extraction fails, and the new price otherwise, with
a nil error exactly when the row update succeeds. -/
theorem CheckProduct_persists_like_checkProduct (m : Monitor) (product : Product) :
    (m.CheckProduct product).1.db = (m.checkProduct product).db ∧
    (m.CheckProduct product).1.sent = m.sent ∧
    (m.CheckProduct product).1.registry = m.registry ∧
    (m.CheckProduct product).1.getenv = m.getenv ∧
    (m.registry.FindScraper product.URL = none →
      (m.CheckProduct product).2 = (0, some (CheckError.noScraper product.URL))) ∧
    (∀ s v err, m.registry.FindScraper product.URL = some s →
      s.GetPrice product.URL = (v, some err) →
      (m.CheckProduct product).2 = (0, some (CheckError.getPrice err))) ∧
    (∀ s cp, m.registry.FindScraper product.URL = some s →
      s.GetPrice product.URL = (cp, none) →
      (m.CheckProduct product).2.1 = cp ∧
      (m.db.execFails product.ID = false → (m.CheckProduct product).2.2 = none) ∧
      (m.db.execFails product.ID = true → (m.CheckProduct product).2.2 ≠ none)) := by
  have hm := CheckProduct_monitor m product
  have hstep := checkProduct_step m product
  refine ⟨by rw [hm], by rw [hm], by rw [hm]; exact hstep.1, by rw [hm]; exact hstep.2.1,
    ?_, ?_, ?_⟩
  · intro hs
    rw [CheckProduct_noScraper m product hs]
  · intro s v err hs hp
    rw [CheckProduct_priceError m product s v err hs hp]
  · intro s cp hs hp
    cases hex : m.db.execFails product.ID with
    | true =>
      obtain ⟨e, he⟩ := CheckProduct_execFails m product s cp hs hp hex
      rw [he]
      exact ⟨rfl, fun h => absurd h (by simp), fun _ => by simp⟩
    | false =>
      rw [CheckProduct_success m product s cp hs hp hex]
      exact ⟨rfl, fun _ => rfl, fun h => absurd h (by simp)⟩

/-- Witness of C22 (amended): on the example of the counterexample the two calls leave the same
database, and `CheckProduct` returns 2999 without error and sends nothing. -/
theorem CheckProduct_persists_like_checkProduct_witness :
    ((exampleMonitor (exampleProduct 3000 0) (exampleScraper 2999 0 0)).CheckProduct
        (exampleProduct 3000 0)).1.db =
      ((exampleMonitor (exampleProduct 3000 0) (exampleScraper 2999 0 0)).checkProduct
        (exampleProduct 3000 0)).db ∧
    ((exampleMonitor (exampleProduct 3000 0) (exampleScraper 2999 0 0)).CheckProduct
        (exampleProduct 3000 0)).1.sent = [] ∧
    ((exampleMonitor (exampleProduct 3000 0) (exampleScraper 2999 0 0)).CheckProduct
        (exampleProduct 3000 0)).2.1 = 2999 ∧
    ((exampleMonitor (exampleProduct 3000 0) (exampleScraper 2999 0 0)).CheckProduct
        (exampleProduct 3000 0)).2.2 = none :=
  have h := CheckProduct_persists_like_checkProduct
    (exampleMonitor (exampleProduct 3000 0) (exampleScraper 2999 0 0)) (exampleProduct 3000 0)
  have hp := h.2.2.2.2.2.2 (exampleScraper 2999 0 0) 2999 rfl rfl
  ⟨h.1, h.2.1, hp.1, hp.2.1 rfl⟩

/-- C23 (failing input). A stored product with price 80, original price 100 and discount 20 is
observed at price 100 without original price and without discount: after `checkProduct` its
row has the new price 100 and still the original price 100 and the discount 20.  In general,
after a call whose price extraction and row update succeed, the rows of the product are
rewritten by `updatedRow`: price and check time are new, the identifying fields, the name, the
targets and the active flag are kept, and original price and discount are the new ones when one
of them is positive and the old ones otherwise. -/
theorem stale_discount_kept :
    ((exampleMonitor promotedProduct (exampleScraper 100 0 0)).checkProduct
        promotedProduct).db.rows =
      [{ promotedProduct with CurrentPrice := 100, LastChecked := some 7 }] ∧
    (∀ r ∈ ((exampleMonitor promotedProduct (exampleScraper 100 0 0)).checkProduct
        promotedProduct).db.rows,
      r.CurrentPrice = 100 ∧ r.OriginalPrice = 100 ∧ r.Discount = 20) ∧
    (∀ (m : Monitor) (product : Product) (s : Scraper) (cp : ℚ),
      m.registry.FindScraper product.URL = some s → s.GetPrice product.URL = (cp, none) →
      m.db.execFails product.ID = false →
      (m.checkProduct product).db.rows = m.db.rows.map (fun r =>
        if r.ID = product.ID then
          updatedRow cp (s.GetOriginalPrice product.URL).1 (s.GetDiscount product.URL).1
            m.db.now r
        else r)) ∧
    (∀ (cp o d : ℚ) (now : Nat) (r : Product),
      (updatedRow cp o d now r).CurrentPrice = cp ∧
      (updatedRow cp o d now r).LastChecked = some now ∧
      (updatedRow cp o d now r).ID = r.ID ∧ (updatedRow cp o d now r).URL = r.URL ∧
      (updatedRow cp o d now r).Name = r.Name ∧
      (updatedRow cp o d now r).TargetPrice = r.TargetPrice ∧
      (updatedRow cp o d now r).TargetDiscount = r.TargetDiscount ∧
      (updatedRow cp o d now r).Active = r.Active ∧
      (updatedRow cp o d now r).CreatedAt = r.CreatedAt ∧
      (d > 0 ∨ o > 0 →
        (updatedRow cp o d now r).OriginalPrice = o ∧ (updatedRow cp o d now r).Discount = d) ∧
      (¬ (d > 0 ∨ o > 0) →
        (updatedRow cp o d now r).OriginalPrice = r.OriginalPrice ∧
        (updatedRow cp o d now r).Discount = r.Discount)) := by
  refine ⟨by decide, by decide, ?_, ?_⟩
  · intro m product s cp hs hp hex
    rw [checkProduct_success m product s cp hs hp hex]
  · intro cp o d now r
    unfold updatedRow
    by_cases h : d > 0 ∨ o > 0
    · simp [h]
    · simp [h]

/-! ### Command authorization -/

/-- With a valid `TELEGRAM_CHAT_ID`, `GetAuthorizedChatID` returns it. -/
theorem GetAuthorizedChatID_valid (getenv : String → String) (auth : Int)
    (hauth : parseInt (getenv "TELEGRAM_CHAT_ID") = some auth) :
    GetAuthorizedChatID getenv = (auth, true) := by
  unfold GetAuthorizedChatID
  have hne : getenv "TELEGRAM_CHAT_ID" ≠ "" := by
    intro h
    have hempty : parseInt "" = none := by decide
    rw [h, hempty] at hauth
    exact Option.noConfusion hauth
  simp only [if_neg hne, hauth]

/-- A text with a field is not empty. -/
theorem Fields_ne (text first : String) (rest : List String)
    (h : Fields text = first :: rest) : text ≠ "" := by
  intro h0
  have hempty : Fields "" = [] := by decide
  rw [h0, hempty] at h
  exact List.noConfusion h

/-- C24. Command authorization.  With `TELEGRAM_CHAT_ID` set to the integer `auth`, the loop of
`SetupCommands` handles every update with that authorized chat.  A message whose command (first
field, lower case, cut before `@`) is neither `/start` nor `/help` and whose chat is not `auth`
gets the reply `not authorized` and no handler.  A message whose command is `/start` or `/help`
is answered by the help handler, for every chat and every setting of the authorization.  A
message without any field is passed over. -/
theorem unauthorized_chat_blocked (ToLower : String → String) (getenv : String → String)
    (auth : Int) (hauth : parseInt (getenv "TELEGRAM_CHAT_ID") = some auth) :
    (∀ (updates : List (Option IncomingMessage)),
      SetupCommands ToLower getenv updates =
        updates.map (SetupCommands.handleUpdate ToLower auth true)) ∧
    (∀ (message : IncomingMessage) (first : String) (rest : List String),
      Fields message.Text = first :: rest →
      (commandOf ToLower first ≠ "/start" → commandOf ToLower first ≠ "/help" →
        message.ChatID ≠ auth →
        SetupCommands.handleUpdate ToLower auth true (some message) =
          Action.notAuthorized message.ChatID) ∧
      (commandOf ToLower first = "/start" ∨ commandOf ToLower first = "/help" →
        ∀ (chat : Int) (hasAuth : Bool),
          SetupCommands.handleUpdate ToLower chat hasAuth (some message) =
            Action.help message.ChatID)) ∧
    (∀ (message : IncomingMessage) (chat : Int) (hasAuth : Bool), Fields message.Text = [] →
      SetupCommands.handleUpdate ToLower chat hasAuth (some message) = Action.ignore) := by
  refine ⟨?_, ?_, ?_⟩
  · intro updates
    unfold SetupCommands
    rw [GetAuthorizedChatID_valid getenv auth hauth]
  · intro message first rest hfields
    have hne := Fields_ne _ _ _ hfields
    constructor
    · intro h1 h2 hchat
      simp only [SetupCommands.handleUpdate, if_neg hne, hfields]
      simp [h1, h2, hchat]
    · intro hpub chat hasAuth
      simp only [SetupCommands.handleUpdate, if_neg hne, hfields]
      simp [hpub]
  · intro message chat hasAuth hfields
    simp only [SetupCommands.handleUpdate, hfields]
    split <;> rfl

/-- Witness of C24: with `TELEGRAM_CHAT_ID=42`, `/Remove@pricebot 1` from chat 7 gets the reply
`not authorized`, `/HELP@pricebot` from chat 7 is answered, and `/Remove@pricebot 1` from
chat 42 reaches the remove handler. -/
theorem unauthorized_chat_blocked_witness :
    SetupCommands.handleUpdate asciiLower 42 true
        (some { ChatID := 7, Text := "/Remove@pricebot 1" }) = Action.notAuthorized 7 ∧
    (∀ (chat : Int) (hasAuth : Bool),
      SetupCommands.handleUpdate asciiLower chat hasAuth
        (some { ChatID := 7, Text := " /HELP@pricebot" }) = Action.help 7) ∧
    SetupCommands asciiLower (fun k => if k = "TELEGRAM_CHAT_ID" then "42" else "")
        [some { ChatID := 7, Text := "/Remove@pricebot 1" },
         some { ChatID := 7, Text := " /HELP@pricebot" },
         some { ChatID := 42, Text := "/Remove@pricebot 1" }, none] =
      [Action.notAuthorized 7, Action.help 7,
       Action.remove { ChatID := 42, Text := "/Remove@pricebot 1" }, Action.ignore] :=
  have h := unauthorized_chat_blocked asciiLower
    (fun k => if k = "TELEGRAM_CHAT_ID" then "42" else "") 42 (by decide)
  ⟨(h.2.1 { ChatID := 7, Text := "/Remove@pricebot 1" } "/Remove@pricebot" ["1"]
      (by decide)).1 (by decide) (by decide) (by decide),
   (h.2.1 { ChatID := 7, Text := " /HELP@pricebot" } "/HELP@pricebot" [] (by decide)).2
      (by decide),
   by decide⟩

end PriceBot
